import Mathlib

set_option autoImplicit false
set_option linter.unusedTactic false
set_option linter.unreachableTactic false
set_option linter.unusedVariables false

/-!
# DOPlab3: symbol table, expression parser and evaluator

A shallow embedding of `symtab.c`, `parser.c` and `eval.c`, followed by the
properties proved about them.

Conventions of the embedding:

* a C `string` is a Lean `String`, one character per C `char`;
* a `void *` value stored in a symbol table is an `Option α`, with `none`
  standing for the `UNDEFINED` sentinel pointer;
* a bucket chain (a `cellT *`) is the list of its cells, `NULL` being `[]`;
* `Error(...)` aborts the computation: functions that may call it return
  in `Except`.
-/

namespace DOPlab3

/-! ## symtab.c -/

/-- The implementation-defined parameters of the C target on which `Hash`
depends: the width of `unsigned long` and the signedness of plain `char`. -/
structure CTarget where
  ulongBits : Nat
  charSigned : Bool
  deriving DecidableEq, Repr

/-- Number of values of `unsigned long`: arithmetic on it is modulo this. -/
def ULONG_MOD (tgt : CTarget) : Nat := 2 ^ tgt.ulongBits

/-- Conversion of a signed integer value to `unsigned long` (reduction
modulo `2 ^ ulongBits`, as the C standard prescribes). -/
def toULong (tgt : CTarget) (x : Int) : Nat := (x % (ULONG_MOD tgt : Int)).toNat

/-- The value of a `char` as an `int`: the byte itself, or the byte minus 256
for bytes from 128 up when plain `char` is signed. -/
def charValue (tgt : CTarget) (c : Char) : Int :=
  if tgt.charSigned && decide (128 ≤ c.toNat % 256) then (c.toNat % 256 : Nat) - 256
  else (c.toNat % 256 : Nat)

/-- Embedding of `#define NBuckets 101`. -/
def NBuckets : Nat := 101

/-- Embedding of `#define Multiplier -1664117991L`. -/
def Multiplier : Int := -1664117991

/-- One round of the loop of `Hash`: `hashcode = hashcode * Multiplier + s[i]`
in `unsigned long` arithmetic. -/
def hashStep (tgt : CTarget) (hashcode : Nat) (c : Char) : Nat :=
  (hashcode * toULong tgt Multiplier + toULong tgt (charValue tgt c)) % ULONG_MOD tgt

/-- Embedding of `static int Hash(string s, int nBuckets)`. -/
def Hash (tgt : CTarget) (s : String) (nBuckets : Int) : Nat :=
  (s.data.foldl (hashStep tgt) 0) % toULong tgt nBuckets

/-- Embedding of `typedef struct cellT`: the `link` field is the tail of the list the cell
heads. -/
structure cellT (α : Type) where
  key : String
  value : Option α

/-- The sentinel `UNDEFINED` of genlib.h. -/
abbrev UNDEFINED {α : Type} : Option α := none

/-- Embedding of `struct symtabCDT`: the array of `NBuckets` bucket chains. -/
structure symtabCDT (α : Type) where
  buckets : Array (List (cellT α))

/-- Embedding of `StringEqual` of strlib.h. -/
def StringEqual (a b : String) : Bool := a == b

/-- Embedding of `symtabADT NewSymbolTable(void)`. -/
def NewSymbolTable {α : Type} : symtabCDT α := ⟨mkArray NBuckets []⟩

/-- Embedding of `static cellT *FindCell(cellT *cp, string key)`: the chain from the first
cell whose key matches on, `[]` (NULL) when there is none. -/
def FindCell {α : Type} : List (cellT α) → String → List (cellT α)
  | [], _ => []
  | c :: link, key => if StringEqual c.key key then c :: link else FindCell link key

/-- The assignment `cp->value = value` through the pointer `FindCell` returned:
the chain with the value of its first cell matching `key` replaced. -/
def setCellValue {α : Type} : List (cellT α) → String → Option α → List (cellT α)
  | [], _, _ => []
  | c :: link, key, value =>
    if StringEqual c.key key then { c with value := value } :: link
    else c :: setCellValue link key value

/-- Embedding of `void Enter(symtabADT table, string key, void *value)`. -/
def Enter {α : Type} (tgt : CTarget) (table : symtabCDT α) (key : String) (value : Option α) :
    symtabCDT α :=
  let bucket := Hash tgt key NBuckets
  match FindCell (table.buckets.getD bucket []) key with
  | [] => ⟨table.buckets.setD bucket (⟨key, value⟩ :: table.buckets.getD bucket [])⟩
  | _ :: _ => ⟨table.buckets.setD bucket (setCellValue (table.buckets.getD bucket []) key value)⟩

/-- Embedding of `void *Lookup(symtabADT table, string key)`. -/
def Lookup {α : Type} (tgt : CTarget) (table : symtabCDT α) (key : String) : Option α :=
  let bucket := Hash tgt key NBuckets
  match FindCell (table.buckets.getD bucket []) key with
  | [] => UNDEFINED
  | cp :: _ => cp.value

/-- The search loop of `DeleteSymbol` and the unlinking that follows it: `none`
when the loop ends with `cp == NULL`, otherwise the chain without the first
cell matching `key` (the head case replaces the bucket pointer, the general
case the `link` of the preceding cell). -/
def unlinkCell {α : Type} : List (cellT α) → String → Option (List (cellT α))
  | [], _ => none
  | c :: link, key =>
    if StringEqual c.key key then some link
    else (unlinkCell link key).map (fun rest => c :: rest)

/-- Embedding of `void DeleteSymbol(symtabADT table, string key)`. -/
def DeleteSymbol {α : Type} (tgt : CTarget) (table : symtabCDT α) (key : String) : symtabCDT α :=
  let bucket := Hash tgt key NBuckets
  match unlinkCell (table.buckets.getD bucket []) key with
  | none => table
  | some chain => ⟨table.buckets.setD bucket chain⟩

/-- The tables a client can build: `NewSymbolTable` followed by any sequence
of `Enter` and `DeleteSymbol` calls. -/
inductive Reachable {α : Type} (tgt : CTarget) : symtabCDT α → Prop
  | new : Reachable tgt NewSymbolTable
  | enter (t : symtabCDT α) (k : String) (v : Option α) :
      Reachable tgt t → Reachable tgt (Enter tgt t k v)
  | delete (t : symtabCDT α) (k : String) :
      Reachable tgt t → Reachable tgt (DeleteSymbol tgt t k)

/-- All cells of a table, bucket after bucket. -/
def cells {α : Type} (table : symtabCDT α) : List (cellT α) := table.buckets.toList.flatten

/-- A 64-bit `unsigned long` and a signed `char` (LP64 Unix). -/
def lp64 : CTarget := ⟨64, true⟩

/-- The accumulator of the hash function as the specification words it:
`h = h * M + c` over the characters of the string, in wraparound arithmetic
on an unsigned integer of `ulongBits` bits (the integers modulo
`2 ^ ulongBits`). -/
def wrapHashcode (tgt : CTarget) (cs : List Char) : Int :=
  cs.foldl (fun h c => (h * Multiplier + charValue tgt c) % (2 : Int) ^ tgt.ulongBits) 0

/-- Three keys of one bucket (48 on `lp64`), entered in the order "0", "19",
"300", so that the chain reads "300", "19", "0", and a key of another bucket. -/
def tableCollide : symtabCDT Nat :=
  Enter lp64 (Enter lp64 (Enter lp64 (Enter lp64 NewSymbolTable "0" (some 10)) "19" (some 20))
    "300" (some 30)) "a" (some 40)

/-! ## parser.c -/

/-- How a computation ends when it does not return a value. -/
inductive failure where
  /-- The program called `Error(msg)`. -/
  | error (msg : String)
  /-- The C program has no defined behaviour here (`what` says why). -/
  | undefined (what : String)
  /-- The fuel of the embedding ran out (never the case for `ParseExp` and
  `Evaluating`, whose fuel is sufficient). -/
  | outOfFuel
  deriving DecidableEq, Repr

/-- Embedding of `Error(msg)` of genlib.h: aborts with the message. -/
def Error {β : Type} (msg : String) : Except failure β := .error (.error msg)

/-- Embedding of `INT_MIN` of limits.h for a 32-bit `int`. -/
def INT_MIN : Int := -2147483648

/-- Embedding of `INT_MAX` of limits.h for a 32-bit `int`. -/
def INT_MAX : Int := 2147483647

/-- The result of an `int` operation whose mathematical value is `x`: the
value itself when it is representable, undefined behaviour otherwise. -/
def intResult (x : Int) : Except failure Int :=
  if INT_MIN ≤ x ∧ x ≤ INT_MAX then .ok x else .error (.undefined "signed integer overflow")

/-- Modelled from the spec: the expression nodes of exp.h, one constructor per
variant of the data model (integer literal, identifier, compound with
operator and two operands, conditional with relational operator, two
operands and two branches, function literal with formal parameter and body,
call with callee and argument), named after the factory functions the
parser calls with the fields in the order it passes them. -/
inductive expADT where
  | NewIntegerExp (n : Int)
  | NewIdentifierExp (id : String)
  | NewCompoundExp (op : Char) (lhs rhs : expADT)
  | NewIfExp (lhs : expADT) (relOp : Char) (rhs thenPart elsePart : expADT)
  | NewFuncExp (formalArg : String) (body : expADT)
  | NewCallExp (func arg : expADT)
  deriving DecidableEq, Repr

export expADT (NewIntegerExp NewIdentifierExp NewCompoundExp NewIfExp NewFuncExp NewCallExp)

/-- Modelled from the spec: the token stream of scanadt.h, as the tokens still
to be delivered, a saved token first. A token is a non-empty string: a run
of letters and digits or a single other character. -/
abbrev scannerADT := List String

/-- Modelled from the spec: `MoreTokensExist` (`hasMore`). -/
def MoreTokensExist (scanner : scannerADT) : Bool := !scanner.isEmpty

/-- Modelled from the spec: `ReadToken` (`nextToken`) consumes one token; on
an exhausted stream it returns the empty string. -/
def ReadToken (scanner : scannerADT) : String × scannerADT :=
  (scanner.headD "", scanner.tail)

/-- Modelled from the spec: `SaveToken` (`pushBack`) un-consumes a token. -/
def SaveToken (scanner : scannerADT) (token : String) : scannerADT := token :: scanner

/-- The C expression `token[0]`: the first character, the terminating NUL
for the empty string. -/
def firstChar (token : String) : Char := token.data.headD (Char.ofNat 0)

/-- Modelled from the spec: `StringToInteger` of strlib.h on a token that is
a literal: the value of a string of decimal digits, an error on any other
string; a value that no `int` holds has no defined result. -/
def StringToInteger (s : String) : Except failure Int :=
  if s.data.all Char.isDigit && !s.data.isEmpty then
    intResult (s.data.foldl (fun n c => 10 * n + (c.toNat - '0'.toNat)) 0 : Nat)
  else Error "StringToInteger called on illegal number"

mutual

/-- Embedding of `static expADT ReadE(scannerADT scanner)`; the first argument is fuel. -/
def ReadE : Nat → scannerADT → Except failure (expADT × scannerADT)
  | 0, _ => .error .outOfFuel
  | fuel + 1, scanner => do
    let (exp, scanner) ← ReadT fuel scanner
    if MoreTokensExist scanner then
      let (token, scanner) := ReadToken scanner
      if firstChar token == '+' || firstChar token == '-' then
        let (rhs, scanner) ← ReadE fuel scanner
        return (NewCompoundExp (firstChar token) exp rhs, scanner)
      else
        return (exp, SaveToken scanner token)
    else
      return (exp, scanner)

/-- Embedding of `static expADT ReadT(scannerADT scanner)`. -/
def ReadT : Nat → scannerADT → Except failure (expADT × scannerADT)
  | 0, _ => .error .outOfFuel
  | fuel + 1, scanner => do
    if !MoreTokensExist scanner then
      Error "Tried to read empty scanner"
    else
      let (exp, scanner) ← ReadC fuel scanner
      if MoreTokensExist scanner then
        let (token, scanner) := ReadToken scanner
        if firstChar token == '*' || firstChar token == '/' then
          let (rhs, scanner) ← ReadT fuel scanner
          return (NewCompoundExp (firstChar token) exp rhs, scanner)
        else
          return (exp, SaveToken scanner token)
      else
        return (exp, scanner)

/-- Embedding of `static expADT ReadC(scannerADT scanner)`. -/
def ReadC : Nat → scannerADT → Except failure (expADT × scannerADT)
  | 0, _ => .error .outOfFuel
  | fuel + 1, scanner => do
    if !MoreTokensExist scanner then
      Error "Tried to read empty scanner"
    else
      let (exp, scanner) ← ReadF fuel scanner
      if MoreTokensExist scanner then
        let (token, scanner) := ReadToken scanner
        if firstChar token == '(' then
          let (arg, scanner) ← ReadE fuel scanner
          let (close, scanner) := ReadToken scanner
          if !StringEqual close ")" then
            Error "Unbalanced parentheses"
          else
            return (NewCallExp exp arg, scanner)
        else
          return (exp, SaveToken scanner token)
      else
        return (exp, scanner)

/-- Embedding of `static expADT ReadF(scannerADT scanner)`. -/
def ReadF : Nat → scannerADT → Except failure (expADT × scannerADT)
  | 0, _ => .error .outOfFuel
  | fuel + 1, scanner => do
    if !MoreTokensExist scanner then
      Error "Tried to read empty scanner"
    else
      let (token, scanner) := ReadToken scanner
      if firstChar token == '(' then
        let (exp, scanner) ← ReadE fuel scanner
        if MoreTokensExist scanner && firstChar (ReadToken scanner).1 == ')' then
          return (exp, (ReadToken scanner).2)
        else
          Error "Unbalanced parenthesis"
      else if StringEqual token "if" then
        if MoreTokensExist scanner then
          let (parenthesisCheck, scanner) := ReadToken scanner
          let scanner :=
            if !StringEqual parenthesisCheck "(" then SaveToken scanner parenthesisCheck
            else scanner
          let (exp1, scanner) ← ReadE fuel scanner
          let (token, scanner) := ReadToken scanner
          if firstChar token == '<' || firstChar token == '>' || firstChar token == '=' then
            let relOp := firstChar token
            let (exp2, scanner) ← ReadE fuel scanner
            let scanner ←
              if StringEqual parenthesisCheck "(" then
                if !StringEqual (ReadToken scanner).1 ")" then
                  Error "Unbalanced parenthesis in If-statement"
                else pure (ReadToken scanner).2
              else pure scanner
            if MoreTokensExist scanner && StringEqual (ReadToken scanner).1 "then" then
              let (thenE, scanner) ← ReadE fuel (ReadToken scanner).2
              if MoreTokensExist scanner && StringEqual (ReadToken scanner).1 "else" then
                let (elseE, scanner) ← ReadE fuel (ReadToken scanner).2
                return (NewIfExp exp1 relOp exp2 thenE elseE, scanner)
              else
                Error "No Else statement found"
            else
              Error "No Then statement found"
          else
            Error "Unknown RelOp"
        else
          -- control reaches the end of the function without a `return`
          .error (.undefined "ReadF returns no value")
      else if StringEqual token "func" then
        let (lparen, scanner) := ReadToken scanner
        if StringEqual lparen "(" then
          let (token, scanner) := ReadToken scanner
          let (close, scanner) := ReadToken scanner
          if StringEqual close ")" then
            let (brace, scanner) := ReadToken scanner
            if StringEqual brace "\x7b" then
              let (exp2, scanner) ← ReadE fuel scanner
              let (close, scanner) := ReadToken scanner
              if !StringEqual close "\x7d" then
                Error "Unbalanced expression"
              else
                return (NewFuncExp token exp2, scanner)
            else
              Error "illegal function"
          else
            Error "illegal function"
        else
          Error "Missing parameter parenthesis"
      else if (firstChar token).isDigit then
        let n ← StringToInteger token
        return (NewIntegerExp n, scanner)
      else if (firstChar token).isAlpha then
        if MoreTokensExist scanner then
          let (parenthesisCheck, scanner) := ReadToken scanner
          if StringEqual parenthesisCheck "(" then
            let (arg, scanner) ← ReadE fuel scanner
            if MoreTokensExist scanner && StringEqual (ReadToken scanner).1 ")" then
              return (NewCallExp (NewIdentifierExp token) arg, (ReadToken scanner).2)
            else
              Error "Unbalanced parenthesis in function call"
          else
            return (NewIdentifierExp token, SaveToken scanner parenthesisCheck)
        else
          return (NewIdentifierExp token, scanner)
      else
        Error "Unknown error"

end

/-- Fuel that suffices for a token stream: a level of the grammar is entered
at most four times per token. -/
def parseFuel (scanner : scannerADT) : Nat := 4 * scanner.length + 4

/-- Embedding of `expADT ParseExp(scannerADT scanner)`. -/
def ParseExp (scanner : scannerADT) : Except failure expADT := do
  let (exp, scanner) ← ReadE (parseFuel scanner) scanner
  if MoreTokensExist scanner then
    Error ("ParseExp: " ++ (ReadToken scanner).1 ++ " unexpected")
  else
    return exp

/-! ## eval.c -/

/-- Modelled from the spec: an `environmentADT` of env.h is a reference to a
scope; scopes are numbered in the order of their creation. -/
abbrev environmentADT := Nat

/-- Modelled from the spec: the runtime values of value.h, an integer or a
function value with formal parameter, body and closure environment. -/
inductive valueADT where
  | NewIntegerValue (n : Int)
  | NewFuncValue (formalArg : String) (body : expADT) (closure : environmentADT)
  deriving DecidableEq, Repr

export valueADT (NewIntegerValue NewFuncValue)

/-- The state the evaluator works on: the static counter `recursions` of
eval.c and, modelled from the spec, the scopes created so far with their
bindings, each binding an identifier of a scope to a thunk (an unevaluated
expression and the environment to evaluate it in), newest first. -/
structure evalState where
  recursions : Int
  scopes : Nat
  bindings : List (environmentADT × String × expADT × environmentADT)
  deriving DecidableEq, Repr

/-- Modelled from the spec: `NewClosure(env)` (`newChildScope`) creates a
fresh scope, empty and without fallback to the scope it descends from. -/
def NewClosure (st : evalState) (_parent : environmentADT) : environmentADT × evalState :=
  (st.scopes, { st with scopes := st.scopes + 1 })

/-- Modelled from the spec: `DefineIdentifier(env, name, exp, closure)`
(`bind`) binds `name` in `env` to the thunk of `exp` and `closure`,
replacing an earlier binding of the name in that scope. -/
def DefineIdentifier (st : evalState) (env : environmentADT) (name : String) (exp : expADT)
    (closure : environmentADT) : evalState :=
  { st with bindings := (env, name, exp, closure) :: st.bindings }

/-- Modelled from the spec: `GetIdentifierValue(env, name)` (`resolve`) looks
the name up in the scope `env` alone; an unbound identifier is an evaluation
error. -/
def GetIdentifierValue (st : evalState) (env : environmentADT) (name : String) :
    Except failure (expADT × environmentADT) :=
  match st.bindings.find? (fun b => b.1 == env && b.2.1 == name) with
  | some b => .ok b.2.2
  | none => Error "Undefined identifier"

/-- Modelled from the spec: `GetIntValue` of value.h checks the runtime shape
of the value. -/
def GetIntValue : valueADT → Except failure Int
  | NewIntegerValue n => .ok n
  | NewFuncValue _ _ _ => Error "Integer value required"

/-- Modelled from the spec: the accessors of a function value
(`GetFuncValueFormalArg`, `GetFuncValueBody`, `GetFuncValueClosure`) check
the runtime shape of the value. -/
def GetFuncValue : valueADT → Except failure (String × expADT × environmentADT)
  | NewFuncValue formalArg body closure => .ok (formalArg, body, closure)
  | NewIntegerValue _ => Error "Function value required"

/-- The type of `Eval` once its fuel is fixed. -/
abbrev evalFn := evalState → expADT → environmentADT → Except failure (valueADT × evalState)

/-- Embedding of `static valueADT EvalIdentifier(expADT exp, environmentADT env)`, the
recursive calls of `Eval` going to `eval`. -/
def EvalIdentifier (eval : evalFn) (st : evalState) (ident : String) (env : environmentADT) :
    Except failure (valueADT × evalState) := do
  let (body, closure) ← GetIdentifierValue st env ident
  eval st body closure

/-- Embedding of `static valueADT EvalCompound(expADT exp, environmentADT env)`. -/
def EvalCompound (eval : evalFn) (st : evalState) (op : Char) (expLHS expRHS : expADT)
    (env : environmentADT) : Except failure (valueADT × evalState) := do
  let (lhs, st) ← eval st expLHS env
  let (rhs, st) ← eval st expRHS env
  let value ← GetIntValue rhs
  if op = '+' then
    let l ← GetIntValue lhs
    let r ← intResult (l + value)
    return (NewIntegerValue r, st)
  else if op = '-' then
    let l ← GetIntValue lhs
    let r ← intResult (l - value)
    return (NewIntegerValue r, st)
  else if op = '*' then
    let l ← GetIntValue lhs
    let r ← intResult (l * value)
    return (NewIntegerValue r, st)
  else if op = '/' then
    if value ≠ 0 then
      let l ← GetIntValue lhs
      let r ← intResult (Int.tdiv l value)
      return (NewIntegerValue r, st)
    else Error "Division by zero!"
  else Error "Illegal operator"

/-- Embedding of `static valueADT EvalIfExp(expADT exp, environmentADT env)`. -/
def EvalIfExp (eval : evalFn) (st : evalState) (op : Char)
    (expLHS expRHS thenPart elsePart : expADT) (env : environmentADT) :
    Except failure (valueADT × evalState) := do
  let (l, st) ← eval st expLHS env
  let lhs ← GetIntValue l
  let (r, st) ← eval st expRHS env
  let rhs ← GetIntValue r
  if op = '<' then
    if lhs < rhs then eval st thenPart env else eval st elsePart env
  else if op = '=' then
    if lhs = rhs then eval st thenPart env else eval st elsePart env
  else if op = '>' then
    if lhs > rhs then eval st thenPart env else eval st elsePart env
  else Error "Unknown operator"

/-- Embedding of `static valueADT evalCall(expADT exp, environmentADT env)`. -/
def evalCall (eval : evalFn) (st : evalState) (func arg : expADT) (env : environmentADT) :
    Except failure (valueADT × evalState) := do
  let (funcValue, st) ← eval st func env
  let (formalArg, funcBody, newEnv) ← GetFuncValue funcValue
  let st := DefineIdentifier st newEnv formalArg arg env
  eval st funcBody newEnv

/-- Embedding of `static valueADT evalFunc(expADT exp, environmentADT env)`. -/
def evalFunc (st : evalState) (arg : String) (body : expADT) (env : environmentADT) :
    Except failure (valueADT × evalState) :=
  .ok (NewFuncValue arg body env, st)

/-- Embedding of `static valueADT Eval(expADT exp, environmentADT env)`; the first argument
is fuel, one unit per level of nested calls. -/
def Eval : Nat → evalFn
  | fuel, st, exp, env =>
    if st.recursions > 1000 then Error "Stack overflow.Too deep recursion."
    else
      match fuel with
      | 0 => .error .outOfFuel
      | fuel + 1 =>
        let st := { st with recursions := st.recursions + 1 }
        match exp with
        | NewIntegerExp n => .ok (NewIntegerValue n, st)
        | NewIdentifierExp id => EvalIdentifier (Eval fuel) st id env
        | NewCompoundExp op lhs rhs => EvalCompound (Eval fuel) st op lhs rhs env
        | NewFuncExp formalArg body =>
          evalFunc (NewClosure st env).2 formalArg body (NewClosure st env).1
        | NewIfExp lhs relOp rhs thenPart elsePart =>
          EvalIfExp (Eval fuel) (NewClosure st env).2 relOp lhs rhs thenPart elsePart
            (NewClosure st env).1
        | NewCallExp func arg => evalCall (Eval fuel) st func arg env

/-- Embedding of `valueADT Evaluating(expADT exp, environmentADT env)`, run in the state
`st`. No call of `Eval` is nested deeper than 1001 levels, the counter
stopping the next one. -/
def Evaluating (st : evalState) (exp : expADT) (env : environmentADT) :
    Except failure (valueADT × evalState) :=
  Eval 1001 { st with recursions := 0 } exp env

/-! ## Auxiliary notions for the symbol table -/

/-- The keys of a chain, in chain order. -/
def chainKeys {α : Type} (chain : List (cellT α)) : List String := chain.map (fun c => c.key)

/-- The value of the first cell matching a key, `UNDEFINED` when none does:
what `Lookup` returns from a chain. -/
def chainValue {α : Type} (chain : List (cellT α)) (key : String) : Option α :=
  match FindCell chain key with
  | [] => UNDEFINED
  | cp :: _ => cp.value

/-- The invariant of the tables in use: the array has `NBuckets` chains, a
cell sits in the bucket its key hashes to, and no chain repeats a key. -/
def WellFormed {α : Type} (tgt : CTarget) (t : symtabCDT α) : Prop :=
  t.buckets.size = NBuckets ∧
  ∀ i, (∀ k ∈ chainKeys (t.buckets.getD i []), Hash tgt k NBuckets = i) ∧
    (chainKeys (t.buckets.getD i [])).Nodup


/-! ## Notions used in the statements about the parser and the evaluator -/

/-- A result equals another unless the fuel ran out. -/
def FuelLe {β : Type} (r r2 : Except failure β) : Prop := r = .error .outOfFuel ∨ r = r2

/-- A successful result leaves fewer than `n` tokens. -/
structure Leaves (n : Nat) (r : Except failure (expADT × scannerADT)) : Prop where
  lt : ∀ e s2, r = .ok (e, s2) → s2.length < n

/-- The result is not a lack of fuel. -/
structure HasFuel {β : Type} (r : Except failure β) : Prop where
  ne : r ≠ .error .outOfFuel

/-- A successful result with tokens left is unchanged when `ext` is appended to
the stream: `r2` is the result on the longer stream. -/
structure Extends (ext : scannerADT) (r r2 : Except failure (expADT × scannerADT)) : Prop where
  ok : ∀ e s2, r = .ok (e, s2) → s2 ≠ [] → r2 = .ok (e, s2 ++ ext)

/-- A successful result leaves no token. -/
structure NoRest (r : Except failure (expADT × scannerADT)) : Prop where
  nil : ∀ e s2, r = .ok (e, s2) → s2 = []

/-- The level `read` of the parser, run on `s` with enough fuel, gives `r`. -/
def Yields (read : Nat → scannerADT → Except failure (expADT × scannerADT)) (s : scannerADT)
    (r : Except failure (expADT × scannerADT)) : Prop :=
  ∃ fuel, read fuel s = r ∧ r ≠ .error .outOfFuel

/-- An operand: a token sequence that `ReadC` parses to `A` entirely and no
further, whatever token other than an opening parenthesis follows it. -/
def Operand (a : scannerADT) (A : expADT) : Prop :=
  ∀ t, firstChar t ≠ '(' → Yields ReadC (a ++ [t]) (.ok (A, [t]))

/-- The operator tokens of the expression level. -/
def IsAddOp (o : String) : Prop := o = "+" ∨ o = "-"

/-- The operator tokens of the term level. -/
def IsMulOp (o : String) : Prop := o = "*" ∨ o = "/"

/-- The relational operator tokens. -/
def IsRelOp (o : String) : Prop := o = "<" ∨ o = "=" ∨ o = ">"

/-- A token as the scanner delivers it: a non-empty run of letters and digits
or a single other character. -/
def IsToken (t : String) : Prop :=
  t.data ≠ [] ∧ (t.data.length = 1 ∨ ∀ c ∈ t.data, c.isAlphanum = true)

/-- The counter `recursions` of a successful result is at least `n`. -/
structure CounterGe (n : Int) (r : Except failure (valueADT × evalState)) : Prop where
  ge : ∀ v st, r = .ok (v, st) → n ≤ st.recursions

/-- The tokens of "if 1 < 2 then 3 else 4", a factor of the grammar. -/
def ifFactor : scannerADT := ["if", "1", "<", "2", "then", "3", "else", "4"]

/-- The tree of `ifFactor`. -/
def ifFactorExp : expADT :=
  NewIfExp (NewIntegerExp 1) '<' (NewIntegerExp 2) (NewIntegerExp 3) (NewIntegerExp 4)

/-- The tree of "1 + 2 * 3". -/
def sumProductExp : expADT :=
  NewCompoundExp '+' (NewIntegerExp 1) (NewCompoundExp '*' (NewIntegerExp 2) (NewIntegerExp 3))

/-- The tree of "10 - 3 - 2". -/
def differenceExp : expADT :=
  NewCompoundExp '-' (NewIntegerExp 10) (NewCompoundExp '-' (NewIntegerExp 3) (NewIntegerExp 2))

/-! ## Notions used in the statements about application -/

/-- Number of call nodes nested on the callee side of an expression. -/
def calleeDepth : expADT → Nat
  | NewCallExp func _ => calleeDepth func + 1
  | _ => 0

/-- An argument: a token sequence that the expression level parses to `A` up
to the closing parenthesis that follows it. -/
def Argument (a : scannerADT) (A : expADT) : Prop :=
  Yields ReadE (a ++ [")"]) (.ok (A, [")"]))

/-- A successful result is a tree with at most `n` calls nested on its callee
side. -/
structure CalleeLe (n : Nat) (r : Except failure (expADT × scannerADT)) : Prop where
  le : ∀ e s2, r = .ok (e, s2) → calleeDepth e ≤ n

/-! ## The evaluator without fuel -/

/-- The evaluator run with the fuel that the counter leaves: one unit per
invocation that the guard of `Eval` still lets through. -/
def EvalTotal : evalFn :=
  fun st exp env => Eval (1001 - st.recursions).toNat st exp env

/-- The state in which the body of an invocation of `Eval` runs: the counter
incremented. -/
def entered (st : evalState) : evalState := { st with recursions := st.recursions + 1 }

/-- The error of the recursion guard of `Eval`. -/
def stackOverflow : Except failure (valueADT × evalState) :=
  Error "Stack overflow.Too deep recursion."

/-- A state at the start of a session: the counter at zero, the global scope 0
created, nothing bound. -/
def startState : evalState := ⟨0, 1, []⟩

/-- The comparison that the character of a relational operator denotes. -/
def relHolds (op : Char) (l r : Int) : Prop :=
  (op = '<' ∧ l < r) ∨ (op = '=' ∧ l = r) ∨ (op = '>' ∧ l > r)

/-- The scope in which `Eval` evaluates a Conditional or closes a function:
the one that `NewClosure` creates in the state of the invocation. -/
def childScope (st : evalState) (env : environmentADT) : environmentADT :=
  (NewClosure (entered st) env).1

/-- The state after `Eval` has entered an invocation and created its child
scope. -/
def childState (st : evalState) (env : environmentADT) : evalState :=
  (NewClosure (entered st) env).2

/-- A state in which the scope 0 binds `y` to the integer 5. -/
def boundState : evalState := ⟨0, 1, [(0, "y", NewIntegerExp 5, 0)]⟩

/-! ## Notions used in the statement about call by name -/

/-- Whether the identifier `x` occurs in an expression. -/
def mentions (x : String) : expADT → Bool
  | NewIntegerExp _ => false
  | NewIdentifierExp id => id == x
  | NewCompoundExp _ lhs rhs => mentions x lhs || mentions x rhs
  | NewIfExp lhs _ rhs thenPart elsePart =>
    mentions x lhs || mentions x rhs || mentions x thenPart || mentions x elsePart
  | NewFuncExp _ body => mentions x body
  | NewCallExp func arg => mentions x func || mentions x arg

/-- Two states that differ at most in what they bind to the name `x`. -/
structure AgreeOff (x : String) (st st2 : evalState) : Prop where
  recursions : st.recursions = st2.recursions
  scopes : st.scopes = st2.scopes
  bindings : st.bindings.filter (fun b => b.2.1 != x) =
    st2.bindings.filter (fun b => b.2.1 != x)

/-- No expression bound to a name other than `x` mentions `x`. -/
def Clean (x : String) (st : evalState) : Prop :=
  ∀ b ∈ st.bindings, b.2.1 ≠ x → mentions x b.2.2.1 = false

/-- The body of a function value does not mention `x`. -/
def ValClean (x : String) : valueADT → Prop
  | NewIntegerValue _ => True
  | NewFuncValue _ body _ => mentions x body = false

/-- Two results that agree up to what the states bind to `x`: the same value
in states that differ at most there, or the same failure. -/
structure Agree (x : String) (r r2 : Except failure (valueADT × evalState)) : Prop where
  ok : ∀ v st, r = .ok (v, st) →
    ∃ st2, r2 = .ok (v, st2) ∧ AgreeOff x st st2 ∧ Clean x st ∧ ValClean x v
  error : ∀ err, r = .error err → r2 = .error err

/-- The value of a result, or its failure. -/
def valueOf (r : Except failure (valueADT × evalState)) : Except failure valueADT :=
  r.map Prod.fst

/-! ## Notions used in the statements about scopes -/

/-- Every binding of the state is in a scope that has been created. -/
def WellScoped (st : evalState) : Prop := ∀ b ∈ st.bindings, b.1 < st.scopes

/-- The state `st2` comes after `st`: scopes have only been added, and
bindings have only been added in scopes created since `st`. -/
structure Later (st st2 : evalState) : Prop where
  scopes : st.scopes ≤ st2.scopes
  bindings : ∀ b ∈ st2.bindings, b ∈ st.bindings ∨ (st.scopes ≤ b.1 ∧ b.1 < st2.scopes)

/-- The closure of a function value is a scope created between `st` and `st2`. -/
def ValLater (st st2 : evalState) : valueADT → Prop
  | NewIntegerValue _ => True
  | NewFuncValue _ _ closure => st.scopes ≤ closure ∧ closure < st2.scopes

/-- A successful result of an evaluation started in `st`: its state comes
after `st` and its value is closed in a scope created since. -/
structure Scoped (st : evalState) (r : Except failure (valueADT × evalState)) : Prop where
  ok : ∀ v st2, r = .ok (v, st2) → Later st st2 ∧ ValLater st st2 v

/-! ## Notions used in the statements about the recursion guard -/

/-- A state whose scope 0 binds `x` to the expression `x` itself, to be
evaluated in scope 0 again. -/
def loopState : evalState := ⟨0, 1, [(0, "x", NewIdentifierExp "x", 0)]⟩

/-- The number of invocations of `Eval` that the guard still lets through one
below the other, starting with one entered in the state `st`. -/
def budget (st : evalState) : Nat := (1001 - st.recursions).toNat

/-- An invocation of `Eval`: the state, the expression and the scope it is
entered with. -/
structure invocation where
  st : evalState
  exp : expADT
  env : environmentADT

/-- The invocations of `Eval` that an invocation let through by the guard
makes itself, in the order of the source: `EvalIdentifier` evaluates the bound
expression; `EvalCompound` the left operand and, once that has returned, the
right one; `EvalIfExp` the left operand, then the right one, then the branch
taken, each after the one before has returned an integer; `evalCall` the
callee and, once that has returned a function value, its body. -/
inductive Child : invocation → invocation → Prop
  | identifier (st : evalState) (id : String) (env : environmentADT) (body : expADT)
      (closure : environmentADT) (hst : st.recursions ≤ 1000)
      (h : GetIdentifierValue (entered st) env id = .ok (body, closure)) :
      Child ⟨st, NewIdentifierExp id, env⟩ ⟨entered st, body, closure⟩
  | compoundLhs (st : evalState) (op : Char) (lhs rhs : expADT) (env : environmentADT)
      (hst : st.recursions ≤ 1000) :
      Child ⟨st, NewCompoundExp op lhs rhs, env⟩ ⟨entered st, lhs, env⟩
  | compoundRhs (st : evalState) (op : Char) (lhs rhs : expADT) (env : environmentADT)
      (v : valueADT) (st2 : evalState) (hst : st.recursions ≤ 1000)
      (hl : EvalTotal (entered st) lhs env = .ok (v, st2)) :
      Child ⟨st, NewCompoundExp op lhs rhs, env⟩ ⟨st2, rhs, env⟩
  | ifLhs (st : evalState) (rel : Char) (lhs rhs thenPart elsePart : expADT)
      (env : environmentADT) (hst : st.recursions ≤ 1000) :
      Child ⟨st, NewIfExp lhs rel rhs thenPart elsePart, env⟩
        ⟨childState st env, lhs, childScope st env⟩
  | ifRhs (st : evalState) (rel : Char) (lhs rhs thenPart elsePart : expADT)
      (env : environmentADT) (l : Int) (st2 : evalState) (hst : st.recursions ≤ 1000)
      (hl : EvalTotal (childState st env) lhs (childScope st env) =
        .ok (NewIntegerValue l, st2)) :
      Child ⟨st, NewIfExp lhs rel rhs thenPart elsePart, env⟩ ⟨st2, rhs, childScope st env⟩
  | ifThen (st : evalState) (rel : Char) (lhs rhs thenPart elsePart : expADT)
      (env : environmentADT) (l r : Int) (st2 st3 : evalState) (hst : st.recursions ≤ 1000)
      (hl : EvalTotal (childState st env) lhs (childScope st env) =
        .ok (NewIntegerValue l, st2))
      (hr : EvalTotal st2 rhs (childScope st env) = .ok (NewIntegerValue r, st3))
      (h : relHolds rel l r) :
      Child ⟨st, NewIfExp lhs rel rhs thenPart elsePart, env⟩
        ⟨st3, thenPart, childScope st env⟩
  | ifElse (st : evalState) (rel : Char) (lhs rhs thenPart elsePart : expADT)
      (env : environmentADT) (l r : Int) (st2 st3 : evalState) (hst : st.recursions ≤ 1000)
      (hl : EvalTotal (childState st env) lhs (childScope st env) =
        .ok (NewIntegerValue l, st2))
      (hr : EvalTotal st2 rhs (childScope st env) = .ok (NewIntegerValue r, st3))
      (hrel : rel = '<' ∨ rel = '=' ∨ rel = '>') (h : ¬relHolds rel l r) :
      Child ⟨st, NewIfExp lhs rel rhs thenPart elsePart, env⟩
        ⟨st3, elsePart, childScope st env⟩
  | callFunc (st : evalState) (func arg : expADT) (env : environmentADT)
      (hst : st.recursions ≤ 1000) :
      Child ⟨st, NewCallExp func arg, env⟩ ⟨entered st, func, env⟩
  | callBody (st : evalState) (func arg : expADT) (env : environmentADT) (x : String)
      (body : expADT) (s : environmentADT) (st2 : evalState) (hst : st.recursions ≤ 1000)
      (hf : EvalTotal (entered st) func env = .ok (NewFuncValue x body s, st2)) :
      Child ⟨st, NewCallExp func arg, env⟩ ⟨DefineIdentifier st2 s x arg env, body, s⟩

/-- A chain of nested invocations: `Nested c d c2` when `c2` is entered `d`
levels below `c`, so that the chain from `c` to `c2` has `d + 1` invocations. -/
inductive Nested (c : invocation) : Nat → invocation → Prop
  | top : Nested c 0 c
  | step (c1 c2 : invocation) (d : Nat) (h : Nested c d c1) (h2 : Child c1 c2) :
      Nested c (d + 1) c2

/-- The bindings of a chain of thunks: in each of the scopes `i`, ..., `i + k - 1`
the name `x` is bound to the expression `x`, to be evaluated in the next scope,
and in the scope `i + k` it is bound to the integer 7. -/
def chainFrom : Nat → Nat → List (environmentADT × String × expADT × environmentADT)
  | i, 0 => [(i, "x", NewIntegerExp 7, 0)]
  | i, k + 1 => (i, "x", NewIdentifierExp "x", i + 1) :: chainFrom (i + 1) k

/-- A state with a chain of 1000 thunks, from scope 0 to scope 999. -/
def chainState : evalState := ⟨0, 1000, chainFrom 0 999⟩

/-- The state with the counter moved by `k`. -/
def bump (k : Int) (st : evalState) : evalState :=
  { st with recursions := st.recursions + k }

/-- A balanced tree of `+` over `2 ^ d` integer literals. -/
def balancedSum : Nat → expADT
  | 0 => NewIntegerExp 0
  | d + 1 => NewCompoundExp '+' (balancedSum d) (balancedSum d)

/-- The nesting depth of an expression: the number of nodes on its longest
branch. -/
def expDepth : expADT → Nat
  | NewIntegerExp _ => 1
  | NewIdentifierExp _ => 1
  | NewCompoundExp _ lhs rhs => max (expDepth lhs) (expDepth rhs) + 1
  | NewIfExp lhs _ rhs thenPart elsePart =>
    max (max (expDepth lhs) (expDepth rhs)) (max (expDepth thenPart) (expDepth elsePart)) + 1
  | NewFuncExp _ body => expDepth body + 1
  | NewCallExp func arg => max (expDepth func) (expDepth arg) + 1

/-- The counter of a successful result is at most 1001. -/
structure CounterLe (r : Except failure (valueADT × evalState)) : Prop where
  le : ∀ v st, r = .ok (v, st) → st.recursions ≤ 1001

/-- The result `r2` of a run started with the counter moved by `k`, against the
result `r` of the run itself: a value returned with a counter that stays
within 1001 when moved is returned with the counter moved, and when the
counter is moved down a failure that is not that of the guard stays. -/
structure Shifted (k m : Int) (r r2 : Except failure (valueADT × evalState)) : Prop where
  ok : ∀ v st, r = .ok (v, st) →
    m ≤ st.recursions ∧ (st.recursions + k ≤ 1001 → r2 = .ok (v, bump k st))
  error : ∀ err, r = .error err → k ≤ 0 → r ≠ stackOverflow → r2 = .error err

/-- A result that is undefined behaviour of the C program is a signed
overflow of `int` arithmetic. -/
structure OverflowOnly {β : Type} (r : Except failure β) : Prop where
  only : ∀ what, r = .error (.undefined what) → what = "signed integer overflow"

/-! ## Lemmas on arrays and chains -/

theorem getD_setD {β : Type} (a : Array β) (i j : Nat) (v d : β) :
    (a.setD i v).getD j d = if i = j ∧ i < a.size then v else a.getD j d := by
  unfold Array.setD
  split
  · rename_i h
    simp only [Array.getD_eq_get?]
    by_cases hij : i = j
    · subst hij; rw [Array.getElem?_set_eq]; simp [h]
    · rw [Array.getElem?_set_ne _ _ _ hij]; simp [hij]
  · rename_i h
    simp [h]

theorem StringEqual_iff (a b : String) : StringEqual a b = true ↔ a = b := by
  simp [StringEqual]

theorem StringEqual_self (a : String) : StringEqual a a = true := by
  simp [StringEqual]

theorem StringEqual_ne {a b : String} (h : a ≠ b) : StringEqual a b = false := by
  simp [StringEqual, h]

theorem FindCell_eq_nil {α : Type} (chain : List (cellT α)) (k : String) :
    FindCell chain k = [] ↔ k ∉ chainKeys chain := by
  induction chain with
  | nil => simp [FindCell, chainKeys]
  | cons c link ih =>
    simp only [FindCell]
    by_cases h : c.key = k
    · rw [if_pos ((StringEqual_iff _ _).2 h)]; simp [chainKeys, h]
    · rw [StringEqual_ne h]
      simp only [Bool.false_eq_true, if_false, ih]
      simp [chainKeys, Ne.symm h]

/-- In a chain without repeated keys the cells with a given key are the first
cell `FindCell` reaches, if any. -/
theorem filter_chain {α : Type} (chain : List (cellT α)) (k : String)
    (hnd : (chainKeys chain).Nodup) :
    chain.filter (fun c => c.key == k) = (FindCell chain k).take 1 := by
  induction chain with
  | nil => simp [FindCell]
  | cons c link ih =>
    have hnd2 : (chainKeys link).Nodup := (List.nodup_cons.1 hnd).2
    have hnotin : c.key ∉ chainKeys link := (List.nodup_cons.1 hnd).1
    simp only [FindCell]
    by_cases h : c.key = k
    · rw [if_pos ((StringEqual_iff _ _).2 h)]
      subst h
      have : link.filter (fun d => d.key == c.key) = [] := by
        rw [List.filter_eq_nil_iff]
        intro d hd hk
        apply hnotin
        have : d.key = c.key := by simpa using hk
        rw [← this]
        exact List.mem_map_of_mem _ hd
      simp [List.filter_cons, this]
    · rw [StringEqual_ne h]
      simp only [Bool.false_eq_true, if_false]
      rw [← ih hnd2]
      simp [List.filter_cons, h]

theorem chainKeys_setCellValue {α : Type} (chain : List (cellT α)) (k : String) (v : Option α) :
    chainKeys (setCellValue chain k v) = chainKeys chain := by
  induction chain with
  | nil => rfl
  | cons c link ih =>
    simp only [setCellValue]
    by_cases h : c.key = k
    · rw [if_pos ((StringEqual_iff _ _).2 h)]; rfl
    · rw [StringEqual_ne h]
      simp only [Bool.false_eq_true, if_false]
      simp only [chainKeys, List.map_cons] at ih ⊢
      rw [ih]

theorem chainValue_setCellValue_same {α : Type} (chain : List (cellT α)) (k : String)
    (v : Option α) (h : FindCell chain k ≠ []) :
    ∃ c rest, FindCell (setCellValue chain k v) k = c :: rest ∧ c.value = v := by
  induction chain with
  | nil => simp [FindCell] at h
  | cons c link ih =>
    simp only [setCellValue]
    by_cases hk : c.key = k
    · rw [if_pos ((StringEqual_iff _ _).2 hk)]
      refine ⟨{ c with value := v }, link, ?_, rfl⟩
      simp only [FindCell]
      rw [if_pos ((StringEqual_iff _ _).2 hk)]
    · rw [StringEqual_ne hk]
      simp only [Bool.false_eq_true, if_false]
      simp only [FindCell, StringEqual_ne hk, Bool.false_eq_true, if_false] at h ⊢
      exact ih h

theorem Lookup_eq {α : Type} (tgt : CTarget) (t : symtabCDT α) (k : String) :
    Lookup tgt t k = chainValue (t.buckets.getD (Hash tgt k NBuckets) []) k := rfl

theorem chainValue_cons {α : Type} (c : cellT α) (link : List (cellT α)) (k : String) :
    chainValue (c :: link) k = if c.key = k then c.value else chainValue link k := by
  unfold chainValue
  simp only [FindCell]
  by_cases h : c.key = k
  · rw [if_pos ((StringEqual_iff _ _).2 h), if_pos h]
  · rw [StringEqual_ne h, if_neg h]; rfl

theorem chainValue_setCellValue_other {α : Type} (chain : List (cellT α)) (k k2 : String)
    (v : Option α) (h : k2 ≠ k) :
    chainValue (setCellValue chain k v) k2 = chainValue chain k2 := by
  induction chain with
  | nil => rfl
  | cons c link ih =>
    simp only [setCellValue]
    by_cases hk : c.key = k
    · rw [if_pos ((StringEqual_iff _ _).2 hk)]
      rw [chainValue_cons, chainValue_cons]
      have : c.key ≠ k2 := fun e => h (e.symm.trans hk)
      simp [this]
    · rw [StringEqual_ne hk]
      simp only [Bool.false_eq_true, if_false]
      rw [chainValue_cons, chainValue_cons, ih]

theorem unlinkCell_eq_none {α : Type} (chain : List (cellT α)) (k : String) :
    unlinkCell chain k = none ↔ k ∉ chainKeys chain := by
  induction chain with
  | nil => simp [unlinkCell, chainKeys]
  | cons c link ih =>
    simp only [unlinkCell]
    by_cases h : c.key = k
    · rw [if_pos ((StringEqual_iff _ _).2 h)]; simp [chainKeys, h]
    · rw [StringEqual_ne h]
      simp only [Bool.false_eq_true, if_false, Option.map_eq_none', ih]
      simp [chainKeys, Ne.symm h]

theorem unlinkCell_some {α : Type} (chain chain2 : List (cellT α)) (k : String)
    (h : unlinkCell chain k = some chain2) :
    chainKeys chain2 = (chainKeys chain).erase k ∧ (∀ c ∈ chain2, c ∈ chain) ∧
      ∀ k2, k2 ≠ k → chainValue chain2 k2 = chainValue chain k2 := by
  induction chain generalizing chain2 with
  | nil => simp [unlinkCell] at h
  | cons c link ih =>
    simp only [unlinkCell] at h
    by_cases hk : c.key = k
    · rw [if_pos ((StringEqual_iff _ _).2 hk)] at h
      cases h
      refine ⟨by simp [chainKeys, hk], fun d hd => List.mem_cons_of_mem _ hd, ?_⟩
      intro k2 hk2
      rw [chainValue_cons]
      have : c.key ≠ k2 := fun e => hk2 (e.symm.trans hk)
      simp [this]
    · rw [StringEqual_ne hk] at h
      simp only [Bool.false_eq_true, if_false, Option.map_eq_some'] at h
      obtain ⟨rest, hrest, rfl⟩ := h
      obtain ⟨h1, h2, h3⟩ := ih rest hrest
      refine ⟨?_, ?_, ?_⟩
      · simp only [chainKeys, List.map_cons] at h1 ⊢
        rw [h1, List.erase_cons_tail]
        simpa using hk
      · intro d hd
        rcases List.mem_cons.1 hd with rfl | hd
        · exact List.mem_cons_self _ _
        · exact List.mem_cons_of_mem _ (h2 d hd)
      · intro k2 hk2
        rw [chainValue_cons, chainValue_cons, h3 k2 hk2]

/-! ## The bucket index and the invariant of reachable tables -/

theorem toULong_natCast (tgt : CTarget) (n : Nat) : toULong tgt (n : Int) = n % ULONG_MOD tgt := by
  unfold toULong
  rw [← Int.natCast_mod, Int.toNat_natCast]

theorem toULong_NBuckets_le (tgt : CTarget) : toULong tgt NBuckets ≤ NBuckets := by
  rw [toULong_natCast]
  exact Nat.mod_le _ _

theorem hashStep_lt (tgt : CTarget) (h : Nat) (c : Char) : hashStep tgt h c < ULONG_MOD tgt := by
  unfold hashStep
  exact Nat.mod_lt _ (by unfold ULONG_MOD; positivity)

theorem foldl_hashStep_lt (tgt : CTarget) (cs : List Char) (a : Nat) (ha : a < ULONG_MOD tgt) :
    cs.foldl (hashStep tgt) a < ULONG_MOD tgt := by
  induction cs generalizing a with
  | nil => exact ha
  | cons c cs ih => exact ih _ (hashStep_lt tgt a c)

/-- The bucket index `Hash` computes lies inside the bucket array. -/
theorem Hash_lt (tgt : CTarget) (s : String) : Hash tgt s NBuckets < NBuckets := by
  unfold Hash
  by_cases h0 : toULong tgt NBuckets = 0
  · -- only possible when `unsigned long` has a single value
    rw [h0, Nat.mod_zero]
    have hw : tgt.ulongBits = 0 := by
      by_contra hne
      have h2 : (2 : Int) ∣ (ULONG_MOD tgt : Int) := by
        unfold ULONG_MOD
        push_cast
        exact dvd_pow_self 2 hne
      unfold toULong at h0
      have hnn : (0 : Int) ≤ ((NBuckets : Nat) : Int) % (ULONG_MOD tgt : Int) :=
        Int.emod_nonneg _ (by unfold ULONG_MOD; positivity)
      have hz : ((NBuckets : Nat) : Int) % (ULONG_MOD tgt : Int) = 0 := by omega
      have h3 : (2 : Int) ∣ ((NBuckets : Nat) : Int) :=
        dvd_trans h2 (Int.dvd_of_emod_eq_zero hz)
      unfold NBuckets at h3
      omega
    have hlt := foldl_hashStep_lt tgt s.data 0 (by unfold ULONG_MOD; positivity)
    have h1 : ULONG_MOD tgt = 1 := by unfold ULONG_MOD; rw [hw]; rfl
    unfold NBuckets
    omega
  · have := Nat.mod_lt (s.data.foldl (hashStep tgt) 0) (Nat.pos_of_ne_zero h0)
    have := toULong_NBuckets_le tgt
    omega

theorem WellFormed_new {α : Type} (tgt : CTarget) : WellFormed tgt (NewSymbolTable : symtabCDT α) := by
  refine ⟨by simp [NewSymbolTable], fun i => ?_⟩
  have : (NewSymbolTable : symtabCDT α).buckets.getD i [] = [] := by
    simp only [NewSymbolTable, Array.getD]
    split <;> simp
  rw [this]
  simp [chainKeys]

theorem WellFormed_setD {α : Type} (tgt : CTarget) (t : symtabCDT α) (i : Nat)
    (chain : List (cellT α)) (hwf : WellFormed tgt t)
    (hk : ∀ k ∈ chainKeys chain, Hash tgt k NBuckets = i) (hnd : (chainKeys chain).Nodup) :
    WellFormed tgt ⟨t.buckets.setD i chain⟩ := by
  refine ⟨by simpa using hwf.1, fun j => ?_⟩
  show (∀ k ∈ chainKeys ((t.buckets.setD i chain).getD j []), Hash tgt k NBuckets = j) ∧
    (chainKeys ((t.buckets.setD i chain).getD j [])).Nodup
  rw [getD_setD]
  split
  · rename_i h
    rw [← h.1]
    exact ⟨hk, hnd⟩
  · exact hwf.2 j

theorem WellFormed_Enter {α : Type} (tgt : CTarget) (t : symtabCDT α) (k : String)
    (v : Option α) (hwf : WellFormed tgt t) : WellFormed tgt (Enter tgt t k v) := by
  unfold Enter
  simp only
  split
  · rename_i hfind
    apply WellFormed_setD tgt t _ _ hwf
    · intro k2 hk2
      simp only [chainKeys, List.map_cons, List.mem_cons] at hk2
      rcases hk2 with rfl | hk2
      · rfl
      · exact (hwf.2 _).1 k2 hk2
    · simp only [chainKeys, List.map_cons]
      exact List.nodup_cons.2 ⟨(FindCell_eq_nil _ _).1 hfind, (hwf.2 _).2⟩
  · apply WellFormed_setD tgt t _ _ hwf
    · rw [chainKeys_setCellValue]; exact (hwf.2 _).1
    · rw [chainKeys_setCellValue]; exact (hwf.2 _).2

theorem WellFormed_DeleteSymbol {α : Type} (tgt : CTarget) (t : symtabCDT α) (k : String)
    (hwf : WellFormed tgt t) : WellFormed tgt (DeleteSymbol tgt t k) := by
  unfold DeleteSymbol
  simp only
  split
  · exact hwf
  · rename_i chain hchain
    have h := (unlinkCell_some _ _ _ hchain).1
    apply WellFormed_setD tgt t _ _ hwf
    · intro k2 hk2
      rw [h] at hk2
      exact (hwf.2 _).1 k2 (List.mem_of_mem_erase hk2)
    · rw [h]
      exact (hwf.2 _).2.erase _

theorem Reachable_wellFormed {α : Type} {tgt : CTarget} {t : symtabCDT α}
    (h : Reachable tgt t) : WellFormed tgt t := by
  induction h with
  | new => exact WellFormed_new tgt
  | enter t k v _ ih => exact WellFormed_Enter tgt t k v ih
  | delete t k _ ih => exact WellFormed_DeleteSymbol tgt t k ih

/-! ## Buckets after an operation, and the cells of a table -/

theorem bucket_toList {α : Type} (t : symtabCDT α) (i : Nat) :
    t.buckets.getD i [] = t.buckets.toList.getD i [] := by
  rw [Array.getD_eq_get?, List.getD_eq_getElem?_getD, Array.getElem?_eq_getElem?_toList]

theorem filter_flatten_single {β : Type} (p : β → Bool) (L : List (List β)) (h : Nat)
    (hother : ∀ i, i ≠ h → ∀ x ∈ L.getD i [], p x = false) :
    L.flatten.filter p = (L.getD h []).filter p := by
  induction L generalizing h with
  | nil => simp
  | cons l L ih =>
    rw [List.flatten_cons, List.filter_append]
    cases h with
    | zero =>
      have hrest := ih L.length (fun i _ x hx => hother (i + 1) (by omega) x (by simpa using hx))
      rw [hrest]
      simp
    | succ h =>
      have hl : l.filter p = [] := by
        rw [List.filter_eq_nil_iff]
        intro x hx
        have := hother 0 (by omega) x (by simpa using hx)
        simp [this]
      rw [hl, ih h (fun i hi x hx => hother (i + 1) (by omega) x (by simpa using hx))]
      simp

/-- The cells with a given key all sit in the bucket the key hashes to. -/
theorem filter_cells {α : Type} (tgt : CTarget) (t : symtabCDT α) (k : String)
    (hwf : WellFormed tgt t) :
    (cells t).filter (fun c => c.key == k) =
      (FindCell (t.buckets.getD (Hash tgt k NBuckets) []) k).take 1 := by
  rw [← filter_chain _ _ (hwf.2 _).2, bucket_toList]
  apply filter_flatten_single
  intro i hi x hx
  rw [← bucket_toList] at hx
  have hkey := (hwf.2 i).1 x.key (List.mem_map_of_mem _ hx)
  by_contra hp
  have : x.key = k := by simpa using hp
  rw [this] at hkey
  exact hi hkey.symm

theorem bucket_Enter {α : Type} (tgt : CTarget) (t : symtabCDT α) (k : String) (v : Option α)
    (hwf : WellFormed tgt t) (j : Nat) :
    (Enter tgt t k v).buckets.getD j [] =
      if j = Hash tgt k NBuckets then
        (match FindCell (t.buckets.getD j []) k with
         | [] => ⟨k, v⟩ :: t.buckets.getD j []
         | _ :: _ => setCellValue (t.buckets.getD j []) k v)
      else t.buckets.getD j [] := by
  have hlt : Hash tgt k NBuckets < t.buckets.size := by rw [hwf.1]; exact Hash_lt tgt k
  unfold Enter
  simp only
  by_cases hj : j = Hash tgt k NBuckets
  · subst hj
    rw [if_pos rfl]
    split <;> simp [getD_setD, hlt, -Array.getD_eq_get?]
  · rw [if_neg hj]
    split <;> simp [getD_setD, hlt, Ne.symm hj, -Array.getD_eq_get?]

theorem bucket_DeleteSymbol {α : Type} (tgt : CTarget) (t : symtabCDT α) (k : String)
    (hwf : WellFormed tgt t) (j : Nat) :
    (DeleteSymbol tgt t k).buckets.getD j [] =
      if j = Hash tgt k NBuckets then
        (match unlinkCell (t.buckets.getD j []) k with
         | none => t.buckets.getD j []
         | some chain => chain)
      else t.buckets.getD j [] := by
  have hlt : Hash tgt k NBuckets < t.buckets.size := by rw [hwf.1]; exact Hash_lt tgt k
  unfold DeleteSymbol
  simp only
  by_cases hj : j = Hash tgt k NBuckets
  · subst hj
    rw [if_pos rfl]
    split <;> simp [getD_setD, hlt, -Array.getD_eq_get?, *]
  · rw [if_neg hj]
    split <;> simp [getD_setD, hlt, Ne.symm hj, -Array.getD_eq_get?]

theorem FindCell_Enter {α : Type} (tgt : CTarget) (t : symtabCDT α) (k : String) (v : Option α)
    (hwf : WellFormed tgt t) :
    ∃ c rest, FindCell ((Enter tgt t k v).buckets.getD (Hash tgt k NBuckets) []) k = c :: rest ∧
      c.value = v := by
  rw [bucket_Enter tgt t k v hwf, if_pos rfl]
  split
  · refine ⟨⟨k, v⟩, t.buckets.getD (Hash tgt k NBuckets) [], ?_, rfl⟩
    simp only [FindCell]
    rw [if_pos (StringEqual_self k)]
  · rename_i c rest hfind
    exact chainValue_setCellValue_same _ k v (by rw [hfind]; simp)

theorem Lookup_Enter_same {α : Type} (tgt : CTarget) (t : symtabCDT α) (k : String)
    (v : Option α) (hwf : WellFormed tgt t) : Lookup tgt (Enter tgt t k v) k = v := by
  obtain ⟨c, rest, h1, h2⟩ := FindCell_Enter tgt t k v hwf
  unfold Lookup
  simp only
  rw [h1]
  exact h2

/-! ## Properties of the symbol table -/

theorem tableCollide_reachable : Reachable lp64 tableCollide :=
  .enter _ _ _ (.enter _ _ _ (.enter _ _ _ (.enter _ _ _ .new)))

theorem mem_cells_of_mem_bucket {α : Type} (t : symtabCDT α) (i : Nat) (c : cellT α)
    (h : c ∈ t.buckets.getD i []) : c ∈ cells t := by
  rw [bucket_toList, List.getD_eq_getElem?_getD] at h
  unfold cells
  rw [List.mem_flatten]
  by_cases hi : i < t.buckets.toList.length
  · rw [List.getElem?_eq_getElem hi] at h
    exact ⟨_, List.getElem_mem hi, h⟩
  · rw [List.getElem?_eq_none (by omega)] at h
    simp at h

/-- C1: for a reachable table, after `Enter(t,k,v1)` and `Enter(t,k,v2)` the
lookup of `k` returns `v2`, the table holds exactly one cell with key `k`, and
the second `Enter` left the keys of every chain as they were (it overwrote
in place). -/
theorem Enter_Enter_overwrites {α : Type} (tgt : CTarget) (t : symtabCDT α) (k : String)
    (v1 v2 : Option α) (h : Reachable tgt t) :
    Lookup tgt (Enter tgt (Enter tgt t k v1) k v2) k = v2 ∧
    (cells (Enter tgt (Enter tgt t k v1) k v2)).countP (fun c => c.key == k) = 1 ∧
    ∀ j, chainKeys ((Enter tgt (Enter tgt t k v1) k v2).buckets.getD j []) =
      chainKeys ((Enter tgt t k v1).buckets.getD j []) := by
  have hwf1 : WellFormed tgt (Enter tgt t k v1) := WellFormed_Enter tgt t k v1 (Reachable_wellFormed h)
  have hwf2 := WellFormed_Enter tgt _ k v2 hwf1
  refine ⟨Lookup_Enter_same tgt _ k v2 hwf1, ?_, ?_⟩
  · rw [List.countP_eq_length_filter, filter_cells tgt _ k hwf2]
    obtain ⟨c, rest, hc, _⟩ := FindCell_Enter tgt (Enter tgt t k v1) k v2 hwf1
    rw [hc]
    rfl
  · intro j
    rw [bucket_Enter tgt _ k v2 hwf1]
    split
    · rename_i hj
      obtain ⟨c, rest, hc, _⟩ := FindCell_Enter tgt t k v1 (Reachable_wellFormed h)
      rw [hj, hc]
      exact chainKeys_setCellValue _ _ _
    · rfl

theorem Enter_Enter_overwrites_witness :
    Reachable lp64 tableCollide ∧
    Lookup lp64 (Enter lp64 (Enter lp64 tableCollide "19" (some 1)) "19" (some 2)) "19" = some 2 ∧
    (cells (Enter lp64 (Enter lp64 tableCollide "19" (some 1)) "19" (some 2))).countP
      (fun c => c.key == "19") = 1 :=
  ⟨tableCollide_reachable,
    (Enter_Enter_overwrites lp64 tableCollide "19" (some 1) (some 2) tableCollide_reachable).1,
    (Enter_Enter_overwrites lp64 tableCollide "19" (some 1) (some 2) tableCollide_reachable).2.1⟩

/-- C2: for a reachable table and any key `k`, wherever `k` sits in its chain
or whether it is there at all, `Lookup` after `DeleteSymbol(t,k)` returns
`UNDEFINED`. -/
theorem Lookup_DeleteSymbol_same {α : Type} (tgt : CTarget) (t : symtabCDT α) (k : String)
    (h : Reachable tgt t) : Lookup tgt (DeleteSymbol tgt t k) k = UNDEFINED := by
  have hwf := (Reachable_wellFormed h)
  have hnil : FindCell ((DeleteSymbol tgt t k).buckets.getD (Hash tgt k NBuckets) []) k = [] := by
    rw [FindCell_eq_nil, bucket_DeleteSymbol tgt t k hwf, if_pos rfl]
    split
    · rename_i hnone
      exact (unlinkCell_eq_none _ _).1 hnone
    · rename_i chain hsome
      rw [(unlinkCell_some _ _ _ hsome).1]
      exact fun hmem => ((hwf.2 _).2.mem_erase_iff.1 hmem).1 rfl
  unfold Lookup
  simp only
  rw [hnil]

theorem Lookup_DeleteSymbol_same_witness :
    Reachable lp64 tableCollide ∧
    Lookup lp64 (DeleteSymbol lp64 tableCollide "19") "19" = UNDEFINED :=
  ⟨tableCollide_reachable, Lookup_DeleteSymbol_same lp64 tableCollide "19" tableCollide_reachable⟩

/-- C4: on a reachable table `DeleteSymbol(t,k)` leaves the lookup of every
other key as it was, and on a table with no cell of key `k` it returns the
table unchanged. -/
theorem DeleteSymbol_frame {α : Type} (tgt : CTarget) (t : symtabCDT α) (k : String)
    (h : Reachable tgt t) :
    (∀ k2, k2 ≠ k → Lookup tgt (DeleteSymbol tgt t k) k2 = Lookup tgt t k2) ∧
    ((∀ c ∈ cells t, c.key ≠ k) → DeleteSymbol tgt t k = t) := by
  have hwf := (Reachable_wellFormed h)
  constructor
  · intro k2 hk2
    rw [Lookup_eq, Lookup_eq, bucket_DeleteSymbol tgt t k hwf]
    split
    · split
      · rfl
      · rename_i chain hsome
        exact (unlinkCell_some _ _ _ hsome).2.2 k2 hk2
    · rfl
  · intro habs
    have hnone : unlinkCell (t.buckets.getD (Hash tgt k NBuckets) []) k = none := by
      rw [unlinkCell_eq_none]
      intro hmem
      obtain ⟨c, hc, hck⟩ := List.mem_map.1 hmem
      exact habs c (mem_cells_of_mem_bucket t _ c hc) hck
    unfold DeleteSymbol
    simp only
    rw [hnone]

theorem DeleteSymbol_frame_witness :
    Reachable lp64 tableCollide ∧
    Lookup lp64 (DeleteSymbol lp64 tableCollide "19") "0" = Lookup lp64 tableCollide "0" :=
  ⟨tableCollide_reachable,
    (DeleteSymbol_frame lp64 tableCollide "19" tableCollide_reachable).1 "0" (by decide)⟩

theorem toULong_cast (tgt : CTarget) (x : Int) :
    ((toULong tgt x : Nat) : Int) = x % (2 : Int) ^ tgt.ulongBits := by
  unfold toULong ULONG_MOD
  push_cast
  exact Int.toNat_of_nonneg (Int.emod_nonneg _ (by positivity))

theorem hashStep_cast (tgt : CTarget) (a : Nat) (c : Char) :
    ((hashStep tgt a c : Nat) : Int) =
      ((a : Int) * Multiplier + charValue tgt c) % (2 : Int) ^ tgt.ulongBits := by
  unfold hashStep
  rw [Int.natCast_mod]
  push_cast
  rw [toULong_cast, toULong_cast]
  have hm : (ULONG_MOD tgt : Int) = (2 : Int) ^ tgt.ulongBits := by
    unfold ULONG_MOD; push_cast; rfl
  rw [hm]
  exact Int.ModEq.add (Int.ModEq.mul_left _ (Int.mod_modEq _ _)) (Int.mod_modEq _ _)

theorem foldl_hashStep_cast (tgt : CTarget) (cs : List Char) (a : Nat) :
    ((cs.foldl (hashStep tgt) a : Nat) : Int) =
      cs.foldl (fun h c => (h * Multiplier + charValue tgt c) % (2 : Int) ^ tgt.ulongBits) a := by
  induction cs generalizing a with
  | nil => rfl
  | cons c cs ih =>
    simp only [List.foldl_cons]
    rw [ih, hashStep_cast]

/-- C5: on every target, plain `char` signed or not, `Hash(s, 101)` is a valid
index into the 101 buckets; and where `unsigned long` can hold 101 (7 bits or
more; C requires 32) it is the wraparound accumulator
`h = h * Multiplier + c` over the characters of `s`, reduced modulo 101. -/
theorem Hash_range (tgt : CTarget) (s : String) :
    Hash tgt s NBuckets < NBuckets ∧
    (7 ≤ tgt.ulongBits →
      (Hash tgt s NBuckets : Int) = wrapHashcode tgt s.data % 101 ∧
      0 ≤ wrapHashcode tgt s.data % 101 ∧ wrapHashcode tgt s.data % 101 < 101) := by
  refine ⟨Hash_lt tgt s, fun hbits => ?_⟩
  have hmod : toULong tgt NBuckets = 101 := by
    rw [toULong_natCast]
    have : 2 ^ 7 ≤ ULONG_MOD tgt := Nat.pow_le_pow_right (by decide) hbits
    exact Nat.mod_eq_of_lt (by unfold NBuckets; omega)
  refine ⟨?_, Int.emod_nonneg _ (by decide), Int.emod_lt_of_pos _ (by decide)⟩
  unfold Hash wrapHashcode
  rw [hmod, Int.natCast_mod, foldl_hashStep_cast]
  rfl

theorem Hash_range_witness :
    Hash lp64 "né" NBuckets < NBuckets ∧
    (Hash lp64 "né" NBuckets : Int) = wrapHashcode lp64 "né".data % 101 :=
  ⟨(Hash_range lp64 "né").1, ((Hash_range lp64 "né").2 (by decide)).1⟩

/-! ## The parser: fuel and consumption of tokens -/

theorem FuelLe_refl {β : Type} (r : Except failure β) : FuelLe r r := Or.inr rfl

theorem FuelLe_bind {β γ : Type} {x x2 : Except failure β} {g g2 : β → Except failure γ}
    (hx : FuelLe x x2) (hg : ∀ a, FuelLe (g a) (g2 a)) : FuelLe (x >>= g) (x2 >>= g2) := by
  rcases hx with rfl | rfl
  · exact Or.inl rfl
  · cases x with
    | error e => exact Or.inr rfl
    | ok a => exact hg a

theorem FuelLe_ite {β : Type} {c : Prop} [Decidable c] {a a2 b b2 : Except failure β}
    (ha : c → FuelLe a a2) (hb : ¬c → FuelLe b b2) :
    FuelLe (if c then a else b) (if c then a2 else b2) := by
  by_cases h : c
  · rw [if_pos h, if_pos h]; exact ha h
  · rw [if_neg h, if_neg h]; exact hb h

/-- One more unit of fuel changes no result but `outOfFuel`. -/
theorem Read_fuel_succ (f : Nat) :
    (∀ s, FuelLe (ReadE f s) (ReadE (f + 1) s)) ∧ (∀ s, FuelLe (ReadT f s) (ReadT (f + 1) s)) ∧
    (∀ s, FuelLe (ReadC f s) (ReadC (f + 1) s)) ∧ (∀ s, FuelLe (ReadF f s) (ReadF (f + 1) s)) := by
  induction f with
  | zero => exact ⟨fun _ => Or.inl rfl, fun _ => Or.inl rfl, fun _ => Or.inl rfl, fun _ => Or.inl rfl⟩
  | succ f ih =>
    obtain ⟨ihE, ihT, ihC, ihF⟩ := ih
    refine ⟨?_, ?_, ?_, ?_⟩ <;> intro s
    · rw [ReadE, ReadE]
      repeat (first
        | exact FuelLe_refl _
        | apply FuelLe_bind (ihE _)
        | apply FuelLe_bind (ihT _)
        | (apply FuelLe_ite <;> intro _)
        | rintro ⟨_, _⟩
        | dsimp only)
    · rw [ReadT, ReadT]
      repeat (first
        | exact FuelLe_refl _
        | apply FuelLe_bind (ihT _)
        | apply FuelLe_bind (ihC _)
        | (apply FuelLe_ite <;> intro _)
        | rintro ⟨_, _⟩
        | dsimp only)
    · rw [ReadC, ReadC]
      repeat (first
        | exact FuelLe_refl _
        | apply FuelLe_bind (ihE _)
        | apply FuelLe_bind (ihF _)
        | (apply FuelLe_ite <;> intro _)
        | rintro ⟨_, _⟩
        | dsimp only)
    · rw [ReadF, ReadF]
      repeat (first
        | exact FuelLe_refl _
        | apply FuelLe_bind (ihE _)
        | (apply FuelLe_ite <;> intro _)
        | rintro ⟨_, _⟩
        | dsimp only)

theorem length_ReadToken (s : scannerADT) : (ReadToken s).2.length = s.length - 1 := by
  cases s <;> rfl

theorem MoreTokensExist_iff (s : scannerADT) : MoreTokensExist s = true ↔ 0 < s.length := by
  cases s <;> simp [MoreTokensExist]

theorem Leaves_bind {n m : Nat} {x : Except failure (expADT × scannerADT)}
    {g : expADT × scannerADT → Except failure (expADT × scannerADT)}
    (hx : Leaves m x) (hg : ∀ e s, s.length < m → Leaves n (g (e, s))) : Leaves n (x >>= g) := by
  constructor
  intro e s2 h
  cases x with
  | error err => cases h
  | ok a => exact (hg a.1 a.2 (hx.lt a.1 a.2 rfl)).lt e s2 h

theorem Leaves_bind_other {n : Nat} {β : Type} {x : Except failure β}
    {g : β → Except failure (expADT × scannerADT)}
    (hg : ∀ a, Leaves n (g a)) : Leaves n (x >>= g) := by
  constructor
  intro e s2 h
  cases x with
  | error err => cases h
  | ok a => exact (hg a).lt e s2 h

theorem Leaves_ite {n : Nat} {c : Prop} [Decidable c] {a b : Except failure (expADT × scannerADT)}
    (ha : c → Leaves n a) (hb : ¬c → Leaves n b) : Leaves n (if c then a else b) := by
  by_cases h : c
  · rw [if_pos h]; exact ha h
  · rw [if_neg h]; exact hb h

theorem Leaves_Error {n : Nat} (msg : String) : Leaves n (Error msg) := by
  constructor; intro e s2 h; cases h

theorem Leaves_failure {n : Nat} (err : failure) : Leaves n (.error err) := by
  constructor; intro e s2 h; cases h

theorem Error_bind {β γ : Type} (msg : String) (g : β → Except failure γ) :
    (Error msg >>= g) = Error msg := rfl

theorem Leaves_pure {n : Nat} {e : expADT} {s : scannerADT} (h : s.length < n) :
    Leaves n (pure (e, s)) := by
  constructor
  intro e2 s2 h2
  cases h2
  exact h

/-- A successful call of a level of the parser consumes at least one token. -/
theorem Read_length (f : Nat) :
    (∀ s, Leaves s.length (ReadE f s)) ∧ (∀ s, Leaves s.length (ReadT f s)) ∧
    (∀ s, Leaves s.length (ReadC f s)) ∧ (∀ s, Leaves s.length (ReadF f s)) := by
  induction f with
  | zero =>
    exact ⟨fun _ => Leaves_failure _, fun _ => Leaves_failure _, fun _ => Leaves_failure _,
      fun _ => Leaves_failure _⟩
  | succ f ih =>
    obtain ⟨ihE, ihT, ihC, ihF⟩ := ih
    refine ⟨?_, ?_, ?_, ?_⟩ <;> intro s
    · rw [ReadE]
      repeat (first
        | exact Leaves_Error _
        | exact Leaves_failure _
        | simp only [pure_bind, Error_bind]
        | apply Leaves_bind (ihE _)
        | apply Leaves_bind (ihT _)
        | apply Leaves_bind (ihC _)
        | apply Leaves_bind (ihF _)
        | apply Leaves_bind_other
        | (apply Leaves_ite <;> intro _)
        | intro _ _ _
        | intro _
        | (apply Leaves_pure
           simp only [ReadToken, SaveToken, List.length_tail, List.length_cons,
             MoreTokensExist_iff, Bool.and_eq_true, Bool.not_eq_true', Bool.not_eq_false,
             Bool.not_eq_true] at *
           first
             | omega
             | (split_ifs at * <;>
                 simp only [ReadToken, SaveToken, List.length_tail, List.length_cons] at * <;>
                 omega))
        | dsimp only)
    · rw [ReadT]
      repeat (first
        | exact Leaves_Error _
        | exact Leaves_failure _
        | simp only [pure_bind, Error_bind]
        | apply Leaves_bind (ihE _)
        | apply Leaves_bind (ihT _)
        | apply Leaves_bind (ihC _)
        | apply Leaves_bind (ihF _)
        | apply Leaves_bind_other
        | (apply Leaves_ite <;> intro _)
        | intro _ _ _
        | intro _
        | (apply Leaves_pure
           simp only [ReadToken, SaveToken, List.length_tail, List.length_cons,
             MoreTokensExist_iff, Bool.and_eq_true, Bool.not_eq_true', Bool.not_eq_false,
             Bool.not_eq_true] at *
           first
             | omega
             | (split_ifs at * <;>
                 simp only [ReadToken, SaveToken, List.length_tail, List.length_cons] at * <;>
                 omega))
        | dsimp only)
    · rw [ReadC]
      repeat (first
        | exact Leaves_Error _
        | exact Leaves_failure _
        | simp only [pure_bind, Error_bind]
        | apply Leaves_bind (ihE _)
        | apply Leaves_bind (ihT _)
        | apply Leaves_bind (ihC _)
        | apply Leaves_bind (ihF _)
        | apply Leaves_bind_other
        | (apply Leaves_ite <;> intro _)
        | intro _ _ _
        | intro _
        | (apply Leaves_pure
           simp only [ReadToken, SaveToken, List.length_tail, List.length_cons,
             MoreTokensExist_iff, Bool.and_eq_true, Bool.not_eq_true', Bool.not_eq_false,
             Bool.not_eq_true] at *
           first
             | omega
             | (split_ifs at * <;>
                 simp only [ReadToken, SaveToken, List.length_tail, List.length_cons] at * <;>
                 omega))
        | dsimp only)
    · rw [ReadF]
      repeat (first
        | exact Leaves_Error _
        | exact Leaves_failure _
        | simp only [pure_bind, Error_bind]
        | apply Leaves_bind (ihE _)
        | apply Leaves_bind (ihT _)
        | apply Leaves_bind (ihC _)
        | apply Leaves_bind (ihF _)
        | apply Leaves_bind_other
        | (apply Leaves_ite <;> intro _)
        | intro _ _ _
        | intro _
        | (apply Leaves_pure
           simp only [ReadToken, SaveToken, List.length_tail, List.length_cons,
             MoreTokensExist_iff, Bool.and_eq_true, Bool.not_eq_true', Bool.not_eq_false,
             Bool.not_eq_true] at *
           first
             | omega
             | (split_ifs at * <;>
                 simp only [ReadToken, SaveToken, List.length_tail, List.length_cons] at * <;>
                 omega))
        | dsimp only)

theorem HasFuel_bind {n : Nat} {β : Type} {x : Except failure (expADT × scannerADT)}
    {g : expADT × scannerADT → Except failure β}
    (hx : HasFuel x) (hl : Leaves n x) (hg : ∀ e s, s.length < n → HasFuel (g (e, s))) :
    HasFuel (x >>= g) := by
  cases x with
  | error err => exact ⟨fun h => hx.ne (congrArg Except.error (Except.error.inj h))⟩
  | ok a => exact hg a.1 a.2 (hl.lt a.1 a.2 rfl)

theorem HasFuel_bind_other {β γ : Type} {x : Except failure β} {g : β → Except failure γ}
    (hx : HasFuel x) (hg : ∀ a, HasFuel (g a)) : HasFuel (x >>= g) := by
  cases x with
  | error err => exact ⟨fun h => hx.ne (congrArg Except.error (Except.error.inj h))⟩
  | ok a => exact hg a

theorem HasFuel_ite {β : Type} {c : Prop} [Decidable c] {a b : Except failure β}
    (ha : c → HasFuel a) (hb : ¬c → HasFuel b) : HasFuel (if c then a else b) := by
  by_cases h : c
  · rw [if_pos h]; exact ha h
  · rw [if_neg h]; exact hb h

theorem HasFuel_Error {β : Type} (msg : String) : HasFuel (Error msg : Except failure β) :=
  ⟨fun h => by cases h⟩

theorem HasFuel_undefined {β : Type} (what : String) :
    HasFuel (.error (.undefined what) : Except failure β) :=
  ⟨fun h => by cases h⟩

theorem HasFuel_pure {β : Type} (a : β) : HasFuel (pure a : Except failure β) :=
  ⟨fun h => by cases h⟩

theorem HasFuel_StringToInteger (s : String) : HasFuel (StringToInteger s) := by
  unfold DOPlab3.StringToInteger intResult
  split
  · split
    · exact ⟨fun h => by cases h⟩
    · exact HasFuel_undefined _
  · exact HasFuel_Error _

/-- With four units of fuel per token (and four more) no level of the parser
runs out of fuel. -/
theorem Read_hasFuel (f : Nat) :
    (∀ s, 4 * s.length + 4 ≤ f → HasFuel (ReadE f s)) ∧
    (∀ s, 4 * s.length + 3 ≤ f → HasFuel (ReadT f s)) ∧
    (∀ s, 4 * s.length + 2 ≤ f → HasFuel (ReadC f s)) ∧
    (∀ s, 4 * s.length + 1 ≤ f → HasFuel (ReadF f s)) := by
  induction f with
  | zero =>
    refine ⟨?_, ?_, ?_, ?_⟩ <;> intro s h <;> omega
  | succ f ih =>
    obtain ⟨ihE, ihT, ihC, ihF⟩ := ih
    have hlen := Read_length f
    refine ⟨?_, ?_, ?_, ?_⟩ <;> intro s hs
    · rw [ReadE]
      repeat (first
        | exact HasFuel_Error _
        | exact HasFuel_undefined _
        | exact HasFuel_pure _
        | exact HasFuel_StringToInteger _
        | simp only [pure_bind, Error_bind]
        | refine HasFuel_bind (ihE _ ?_) (hlen.1 _) ?_
        | refine HasFuel_bind (ihT _ ?_) (hlen.2.1 _) ?_
        | refine HasFuel_bind (ihC _ ?_) (hlen.2.2.1 _) ?_
        | refine HasFuel_bind (ihF _ ?_) (hlen.2.2.2 _) ?_
        | refine HasFuel_bind_other ?_ ?_
        | (apply HasFuel_ite <;> intro _)
        | intro _ _ _
        | intro _
        | (simp only [ReadToken, SaveToken, List.length_tail, List.length_cons,
             MoreTokensExist_iff, Bool.and_eq_true, Bool.not_eq_true', Bool.not_eq_false,
             Bool.not_eq_true] at *
           first
             | omega
             | (split_ifs at * <;>
                 simp only [ReadToken, SaveToken, List.length_tail, List.length_cons] at * <;>
                 omega))
        | dsimp only)
    · rw [ReadT]
      repeat (first
        | exact HasFuel_Error _
        | exact HasFuel_undefined _
        | exact HasFuel_pure _
        | exact HasFuel_StringToInteger _
        | simp only [pure_bind, Error_bind]
        | refine HasFuel_bind (ihE _ ?_) (hlen.1 _) ?_
        | refine HasFuel_bind (ihT _ ?_) (hlen.2.1 _) ?_
        | refine HasFuel_bind (ihC _ ?_) (hlen.2.2.1 _) ?_
        | refine HasFuel_bind (ihF _ ?_) (hlen.2.2.2 _) ?_
        | refine HasFuel_bind_other ?_ ?_
        | (apply HasFuel_ite <;> intro _)
        | intro _ _ _
        | intro _
        | (simp only [ReadToken, SaveToken, List.length_tail, List.length_cons,
             MoreTokensExist_iff, Bool.and_eq_true, Bool.not_eq_true', Bool.not_eq_false,
             Bool.not_eq_true] at *
           first
             | omega
             | (split_ifs at * <;>
                 simp only [ReadToken, SaveToken, List.length_tail, List.length_cons] at * <;>
                 omega))
        | dsimp only)
    · rw [ReadC]
      repeat (first
        | exact HasFuel_Error _
        | exact HasFuel_undefined _
        | exact HasFuel_pure _
        | exact HasFuel_StringToInteger _
        | simp only [pure_bind, Error_bind]
        | refine HasFuel_bind (ihE _ ?_) (hlen.1 _) ?_
        | refine HasFuel_bind (ihT _ ?_) (hlen.2.1 _) ?_
        | refine HasFuel_bind (ihC _ ?_) (hlen.2.2.1 _) ?_
        | refine HasFuel_bind (ihF _ ?_) (hlen.2.2.2 _) ?_
        | refine HasFuel_bind_other ?_ ?_
        | (apply HasFuel_ite <;> intro _)
        | intro _ _ _
        | intro _
        | (simp only [ReadToken, SaveToken, List.length_tail, List.length_cons,
             MoreTokensExist_iff, Bool.and_eq_true, Bool.not_eq_true', Bool.not_eq_false,
             Bool.not_eq_true] at *
           first
             | omega
             | (split_ifs at * <;>
                 simp only [ReadToken, SaveToken, List.length_tail, List.length_cons] at * <;>
                 omega))
        | dsimp only)
    · rw [ReadF]
      repeat (first
        | exact HasFuel_Error _
        | exact HasFuel_undefined _
        | exact HasFuel_pure _
        | exact HasFuel_StringToInteger _
        | simp only [pure_bind, Error_bind]
        | refine HasFuel_bind (ihE _ ?_) (hlen.1 _) ?_
        | refine HasFuel_bind (ihT _ ?_) (hlen.2.1 _) ?_
        | refine HasFuel_bind (ihC _ ?_) (hlen.2.2.1 _) ?_
        | refine HasFuel_bind (ihF _ ?_) (hlen.2.2.2 _) ?_
        | refine HasFuel_bind_other ?_ ?_
        | (apply HasFuel_ite <;> intro _)
        | intro _ _ _
        | intro _
        | (simp only [ReadToken, SaveToken, List.length_tail, List.length_cons,
             MoreTokensExist_iff, Bool.and_eq_true, Bool.not_eq_true', Bool.not_eq_false,
             Bool.not_eq_true] at *
           first
             | omega
             | (split_ifs at * <;>
                 simp only [ReadToken, SaveToken, List.length_tail, List.length_cons] at * <;>
                 omega))
        | dsimp only)

/-! ## The parser does not look beyond the tokens it leaves -/

theorem NoRest_Error (msg : String) : NoRest (Error msg) := ⟨fun _ _ h => by cases h⟩

theorem NoRest_failure (err : failure) : NoRest (.error err) := ⟨fun _ _ h => by cases h⟩

theorem NoRest_pure (e : expADT) : NoRest (pure (e, [])) :=
  ⟨fun _ _ h => by cases h; rfl⟩

theorem NoRest_ite {c : Prop} [Decidable c] {a b : Except failure (expADT × scannerADT)}
    (ha : c → NoRest a) (hb : ¬c → NoRest b) : NoRest (if c then a else b) := by
  by_cases h : c
  · rw [if_pos h]; exact ha h
  · rw [if_neg h]; exact hb h

theorem Extends_Error {ext : scannerADT} (msg : String)
    (r2 : Except failure (expADT × scannerADT)) : Extends ext (Error msg) r2 :=
  ⟨fun _ _ h => by cases h⟩

theorem Extends_failure {ext : scannerADT} (err : failure)
    (r2 : Except failure (expADT × scannerADT)) : Extends ext (.error err) r2 :=
  ⟨fun _ _ h => by cases h⟩

theorem Extends_pure {ext : scannerADT} (e : expADT) (s s2 : scannerADT) (h : s2 = s ++ ext) :
    Extends ext (pure (e, s)) (pure (e, s2)) :=
  ⟨fun _ _ h2 _ => by cases h2; rw [h]; rfl⟩

theorem Extends_ite {ext : scannerADT} {c : Prop} [Decidable c]
    {a a2 b b2 : Except failure (expADT × scannerADT)}
    (ha : c → Extends ext a a2) (hb : ¬c → Extends ext b b2) :
    Extends ext (if c then a else b) (if c then a2 else b2) := by
  by_cases h : c
  · rw [if_pos h, if_pos h]; exact ha h
  · rw [if_neg h, if_neg h]; exact hb h

theorem Extends_bind {ext : scannerADT} {x x2 : Except failure (expADT × scannerADT)}
    {g g2 : expADT × scannerADT → Except failure (expADT × scannerADT)}
    (hx : Extends ext x x2) (hnil : ∀ e, NoRest (g (e, [])))
    (hg : ∀ e t s, Extends ext (g (e, t :: s)) (g2 (e, (t :: s) ++ ext))) :
    Extends ext (x >>= g) (x2 >>= g2) := by
  constructor
  intro e s2 h hne
  cases x with
  | error err => cases h
  | ok a =>
    obtain ⟨e1, s1⟩ := a
    cases s1 with
    | nil => exact absurd ((hnil e1).nil e s2 h) hne
    | cons t s1 =>
      rw [hx.ok e1 (t :: s1) rfl (by simp)]
      exact (hg e1 t s1).ok e s2 h hne

theorem Extends_bind_other {ext : scannerADT} {β : Type} {x : Except failure β}
    {g g2 : β → Except failure (expADT × scannerADT)}
    (hg : ∀ a, Extends ext (g a) (g2 a)) : Extends ext (x >>= g) (x >>= g2) := by
  constructor
  intro e s2 h hne
  cases x with
  | error err => cases h
  | ok a => exact (hg a).ok e s2 h hne

theorem MoreTokensExist_cons_append (t : String) (s ext : scannerADT) :
    MoreTokensExist ((t :: s) ++ ext) = true := rfl

theorem ReadToken_cons_append (t : String) (s ext : scannerADT) :
    ReadToken ((t :: s) ++ ext) = (t, s ++ ext) := rfl

theorem MoreTokensExist_cons (t : String) (s : scannerADT) : MoreTokensExist (t :: s) = true := rfl

theorem MoreTokensExist_nil : MoreTokensExist [] = false := rfl

theorem ReadToken_cons (t : String) (s : scannerADT) : ReadToken (t :: s) = (t, s) := rfl

theorem ReadToken_nil : ReadToken [] = ("", []) := rfl

theorem StringEqual_empty_lparen : StringEqual "" "(" = false := by decide

theorem StringEqual_empty_rparen : StringEqual "" ")" = false := by decide

theorem StringEqual_empty_lbrace : StringEqual "" "\x7b" = false := by decide

theorem StringEqual_empty_rbrace : StringEqual "" "\x7d" = false := by decide

theorem Extends_nil {ext : scannerADT} (e : expADT) (r2 : Except failure (expADT × scannerADT)) :
    Extends ext (Pure.pure (e, [])) r2 :=
  ⟨fun _ _ h hne => by cases h; exact absurd rfl hne⟩

set_option maxRecDepth 20000 in
set_option maxHeartbeats 4000000 in
/-- Tokens appended after the tokens a level of the parser leaves do not change
its result. -/
theorem Read_extends (ext : scannerADT) (f : Nat) :
    (∀ s, Extends ext (ReadE f s) (ReadE f (s ++ ext))) ∧
    (∀ s, Extends ext (ReadT f s) (ReadT f (s ++ ext))) ∧
    (∀ s, Extends ext (ReadC f s) (ReadC f (s ++ ext))) ∧
    (∀ s, Extends ext (ReadF f s) (ReadF f (s ++ ext))) := by
  induction f with
  | zero =>
    exact ⟨fun _ => Extends_failure _ _, fun _ => Extends_failure _ _, fun _ => Extends_failure _ _,
      fun _ => Extends_failure _ _⟩
  | succ f ih =>
    obtain ⟨ihE, ihT, ihC, ihF⟩ := ih
    have ihE2 : ∀ t s, Extends ext (ReadE f (t :: s)) (ReadE f (t :: (s ++ ext))) :=
      fun t s => ihE (t :: s)
    refine ⟨?_, ?_, ?_, ?_⟩ <;> intro s
    · rw [ReadE, ReadE]
      repeat (first
        | exact Extends_Error _ _
        | exact Extends_failure _ _
        | exact NoRest_Error _
        | exact NoRest_failure _
        | exact NoRest_pure _
        | exact Extends_pure _ _ _ rfl
        | simp only [pure_bind, Error_bind]
        | refine Extends_bind (ihE _) ?_ ?_
        | refine Extends_bind (ihT _) ?_ ?_
        | (apply Extends_ite <;> intro _)
        | (apply NoRest_ite <;> intro _)
        | intro _ _ _
        | intro _
        | simp only [MoreTokensExist_cons_append, ReadToken_cons_append, MoreTokensExist_cons,
            MoreTokensExist_nil, ReadToken_cons, ReadToken_nil, SaveToken, Bool.not_false,
            Bool.not_true, Bool.false_eq_true, if_false, if_true, Bool.true_and, Bool.false_and]
        | dsimp only)
    · rcases s with _ | ⟨t1, s⟩
      · exact Extends_Error _ _
      rw [ReadT, ReadT]
      repeat (first
        | exact Extends_Error _ _
        | exact Extends_failure _ _
        | exact NoRest_Error _
        | exact NoRest_failure _
        | exact NoRest_pure _
        | exact Extends_pure _ _ _ rfl
        | simp only [pure_bind, Error_bind]
        | refine Extends_bind (ihT _) ?_ ?_
        | refine Extends_bind (ihC _) ?_ ?_
        | (apply Extends_ite <;> intro _)
        | (apply NoRest_ite <;> intro _)
        | intro _ _ _
        | intro _
        | simp only [MoreTokensExist_cons_append, ReadToken_cons_append, MoreTokensExist_cons,
            MoreTokensExist_nil, ReadToken_cons, ReadToken_nil, SaveToken, Bool.not_false,
            Bool.not_true, Bool.false_eq_true, if_false, if_true, Bool.true_and, Bool.false_and]
        | dsimp only)
    · rcases s with _ | ⟨t1, s⟩
      · exact Extends_Error _ _
      rw [ReadC, ReadC]
      repeat (first
        | exact Extends_Error _ _
        | exact Extends_failure _ _
        | exact NoRest_Error _
        | exact NoRest_failure _
        | exact NoRest_pure _
        | exact Extends_pure _ _ _ rfl
        | simp only [pure_bind, Error_bind]
        | refine Extends_bind (ihE _) ?_ ?_
        | refine Extends_bind (ihF _) ?_ ?_
        | (apply Extends_ite <;> intro _)
        | (apply NoRest_ite <;> intro _)
        | intro _ _ _
        | intro _
        | simp only [MoreTokensExist_cons_append, ReadToken_cons_append, MoreTokensExist_cons,
            MoreTokensExist_nil, ReadToken_cons, ReadToken_nil, SaveToken, Bool.not_false,
            Bool.not_true, Bool.false_eq_true, if_false, if_true, Bool.true_and, Bool.false_and]
        | dsimp only)
    · rcases s with _ | ⟨t1, _ | ⟨t2, s⟩⟩
      · exact Extends_Error _ _
      · rw [ReadF, ReadF]
        repeat (first
          | exact Extends_Error _ _
          | exact Extends_failure _ _
          | exact NoRest_Error _
          | exact NoRest_failure _
          | exact NoRest_pure _
          | exact Extends_pure _ _ _ rfl
          | exact Extends_nil _ _
          | simp only [pure_bind, Error_bind]
          | refine Extends_bind (ihE _) ?_ ?_
          | refine Extends_bind (ihE2 _ _) ?_ ?_
          | refine @Extends_bind_other _ _ (StringToInteger _) _ _ ?_
          | (apply Extends_ite <;> intro _)
          | (apply NoRest_ite <;> intro _)
          | (intro e t s; cases s)
          | intro _
          | simp only [MoreTokensExist_cons_append, ReadToken_cons_append, MoreTokensExist_cons,
            MoreTokensExist_nil, ReadToken_cons, ReadToken_nil, SaveToken, Bool.not_false,
            Bool.not_true, Bool.false_eq_true, if_false, if_true, Bool.true_and, Bool.false_and, StringEqual_empty_lparen,
              StringEqual_empty_rparen, StringEqual_empty_lbrace, StringEqual_empty_rbrace]
          | dsimp only)
      · rcases s with _ | ⟨t3, _ | ⟨t4, _ | ⟨t5, s⟩⟩⟩
        all_goals rw [ReadF, ReadF]
        all_goals by_cases hpc : StringEqual t2 "(" = true
        all_goals
          repeat (first
            | exact Extends_Error _ _
            | exact Extends_failure _ _
            | exact NoRest_Error _
            | exact NoRest_failure _
            | exact NoRest_pure _
            | exact Extends_pure _ _ _ rfl
            | exact Extends_nil _ _
            | simp only [pure_bind, Error_bind]
            | refine Extends_bind (ihE _) ?_ ?_
            | refine Extends_bind (ihE2 _ _) ?_ ?_
              | refine @Extends_bind_other _ _ (StringToInteger _) _ _ ?_
            | (apply Extends_ite <;> intro _)
            | (apply NoRest_ite <;> intro _)
            | (intro e t s; cases s)
            | intro _
            | simp only [MoreTokensExist_cons_append, ReadToken_cons_append, MoreTokensExist_cons,
            MoreTokensExist_nil, ReadToken_cons, ReadToken_nil, SaveToken, Bool.not_false,
            Bool.not_true, Bool.false_eq_true, if_false, if_true, Bool.true_and, Bool.false_and, hpc, StringEqual_empty_lparen,
                StringEqual_empty_rparen, StringEqual_empty_lbrace, StringEqual_empty_rbrace]
            | dsimp only)

/-! ## Results that do not depend on the fuel -/

theorem FuelLe_trans {β : Type} {a b c : Except failure β} (h1 : FuelLe a b) (h2 : FuelLe b c) :
    FuelLe a c := by
  rcases h1 with rfl | rfl
  · exact Or.inl rfl
  · exact h2

theorem Read_fuel_le {f f2 : Nat} (h : f ≤ f2) :
    (∀ s, FuelLe (ReadE f s) (ReadE f2 s)) ∧ (∀ s, FuelLe (ReadT f s) (ReadT f2 s)) ∧
    (∀ s, FuelLe (ReadC f s) (ReadC f2 s)) ∧ (∀ s, FuelLe (ReadF f s) (ReadF f2 s)) := by
  induction h with
  | refl => exact ⟨fun _ => FuelLe_refl _, fun _ => FuelLe_refl _, fun _ => FuelLe_refl _,
      fun _ => FuelLe_refl _⟩
  | step _ ih =>
    have h1 := Read_fuel_succ
    exact ⟨fun s => FuelLe_trans (ih.1 s) ((h1 _).1 s), fun s => FuelLe_trans (ih.2.1 s) ((h1 _).2.1 s),
      fun s => FuelLe_trans (ih.2.2.1 s) ((h1 _).2.2.1 s), fun s => FuelLe_trans (ih.2.2.2 s) ((h1 _).2.2.2 s)⟩

theorem ReadE_stable {s : scannerADT} {r : Except failure (expADT × scannerADT)}
    (h : Yields ReadE s r) (f : Nat) (hf : 4 * s.length + 4 ≤ f) : ReadE f s = r := by
  obtain ⟨f0, h0, hr⟩ := h
  rcases Nat.le_total f0 f with hle | hle
  · rcases (Read_fuel_le hle).1 s with h1 | h1
    · rw [h0] at h1; exact absurd h1 hr
    · rw [← h1, h0]
  · rcases (Read_fuel_le hle).1 s with h1 | h1
    · exact absurd h1 ((Read_hasFuel f).1 s hf).ne
    · rw [h1, h0]

theorem ReadT_stable {s : scannerADT} {r : Except failure (expADT × scannerADT)}
    (h : Yields ReadT s r) (f : Nat) (hf : 4 * s.length + 3 ≤ f) : ReadT f s = r := by
  obtain ⟨f0, h0, hr⟩ := h
  rcases Nat.le_total f0 f with hle | hle
  · rcases (Read_fuel_le hle).2.1 s with h1 | h1
    · rw [h0] at h1; exact absurd h1 hr
    · rw [← h1, h0]
  · rcases (Read_fuel_le hle).2.1 s with h1 | h1
    · exact absurd h1 ((Read_hasFuel f).2.1 s hf).ne
    · rw [h1, h0]

theorem ReadC_stable {s : scannerADT} {r : Except failure (expADT × scannerADT)}
    (h : Yields ReadC s r) (f : Nat) (hf : 4 * s.length + 2 ≤ f) : ReadC f s = r := by
  obtain ⟨f0, h0, hr⟩ := h
  rcases Nat.le_total f0 f with hle | hle
  · rcases (Read_fuel_le hle).2.2.1 s with h1 | h1
    · rw [h0] at h1; exact absurd h1 hr
    · rw [← h1, h0]
  · rcases (Read_fuel_le hle).2.2.1 s with h1 | h1
    · exact absurd h1 ((Read_hasFuel f).2.2.1 s hf).ne
    · rw [h1, h0]

theorem ReadF_stable {s : scannerADT} {r : Except failure (expADT × scannerADT)}
    (h : Yields ReadF s r) (f : Nat) (hf : 4 * s.length + 1 ≤ f) : ReadF f s = r := by
  obtain ⟨f0, h0, hr⟩ := h
  rcases Nat.le_total f0 f with hle | hle
  · rcases (Read_fuel_le hle).2.2.2 s with h1 | h1
    · rw [h0] at h1; exact absurd h1 hr
    · rw [← h1, h0]
  · rcases (Read_fuel_le hle).2.2.2 s with h1 | h1
    · exact absurd h1 ((Read_hasFuel f).2.2.2 s hf).ne
    · rw [h1, h0]

/-- Every level of the parser yields a result on every stream. -/
theorem Yields_total (s : scannerADT) :
    (∃ r, Yields ReadE s r) ∧ (∃ r, Yields ReadT s r) ∧ (∃ r, Yields ReadC s r) ∧
    (∃ r, Yields ReadF s r) :=
  ⟨⟨_, _, rfl, ((Read_hasFuel _).1 s (Nat.le_refl _)).ne⟩,
    ⟨_, _, rfl, ((Read_hasFuel _).2.1 s (Nat.le_refl _)).ne⟩,
    ⟨_, _, rfl, ((Read_hasFuel _).2.2.1 s (Nat.le_refl _)).ne⟩,
    ⟨_, _, rfl, ((Read_hasFuel _).2.2.2 s (Nat.le_refl _)).ne⟩⟩

theorem ok_ne_outOfFuel {β : Type} (a : β) :
    (Except.ok a : Except failure β) ≠ .error .outOfFuel := fun h => by cases h

theorem Error_ne_outOfFuel {β : Type} (msg : String) :
    (Error msg : Except failure β) ≠ .error .outOfFuel := fun h => by cases h

/-- `ParseExp` in terms of what the expression level yields. -/
theorem ParseExp_of_Yields {s : scannerADT} {r : Except failure (expADT × scannerADT)}
    (h : Yields ReadE s r) :
    ParseExp s = (r >>= fun p =>
      if MoreTokensExist p.2 then Error ("ParseExp: " ++ (ReadToken p.2).1 ++ " unexpected")
      else pure p.1) := by
  unfold ParseExp
  rw [ReadE_stable h (parseFuel s) (Nat.le_refl _)]

/-- The fuel of `ParseExp` always suffices. -/
theorem ParseExp_hasFuel (s : scannerADT) : ParseExp s ≠ .error .outOfFuel := by
  obtain ⟨r, hr⟩ := (Yields_total s).1
  rw [ParseExp_of_Yields hr]
  obtain ⟨_, _, hne⟩ := hr
  cases r with
  | error err => exact fun h => hne (congrArg Except.error (Except.error.inj h))
  | ok p =>
    show (if MoreTokensExist p.2 = true then _ else _) ≠ _
    split
    · exact Error_ne_outOfFuel _
    · exact ok_ne_outOfFuel _

theorem Yields_extends {read : Nat → scannerADT → Except failure (expADT × scannerADT)}
    (hread : ∀ ext f s, Extends ext (read f s) (read f (s ++ ext)))
    {s : scannerADT} {e : expADT} {t : String} {rest : scannerADT}
    (h : Yields read s (.ok (e, t :: rest))) (ext : scannerADT) :
    Yields read (s ++ ext) (.ok (e, t :: (rest ++ ext))) := by
  obtain ⟨f, hf, _⟩ := h
  exact ⟨f, (hread ext f s).ok e (t :: rest) hf (by simp), ok_ne_outOfFuel _⟩

theorem ReadC_extends {s : scannerADT} {e : expADT} {t : String} {rest : scannerADT}
    (h : Yields ReadC s (.ok (e, t :: rest))) (ext : scannerADT) :
    Yields ReadC (s ++ ext) (.ok (e, t :: (rest ++ ext))) :=
  Yields_extends (fun ext f s => (Read_extends ext f).2.2.1 s) h ext

theorem ReadE_extends {s : scannerADT} {e : expADT} {t : String} {rest : scannerADT}
    (h : Yields ReadE s (.ok (e, t :: rest))) (ext : scannerADT) :
    Yields ReadE (s ++ ext) (.ok (e, t :: (rest ++ ext))) :=
  Yields_extends (fun ext f s => (Read_extends ext f).1 s) h ext

/-! ## The grammar rules the levels of the parser obey -/

theorem Yields_ReadC_nil {r : Except failure (expADT × scannerADT)} (h : Yields ReadC [] r) :
    r = Error "Tried to read empty scanner" := by
  obtain ⟨f, hf, hr⟩ := h
  cases f with
  | zero => exact absurd hf.symm hr
  | succ f => rw [← hf]; rfl

theorem Yields_ReadF_nil {r : Except failure (expADT × scannerADT)} (h : Yields ReadF [] r) :
    r = Error "Tried to read empty scanner" := by
  obtain ⟨f, hf, hr⟩ := h
  cases f with
  | zero => exact absurd hf.symm hr
  | succ f => rw [← hf]; rfl

theorem ne_nil_of_ReadC {s : scannerADT} {p : expADT × scannerADT}
    (h : Yields ReadC s (.ok p)) : MoreTokensExist s = true := by
  cases s with
  | nil => have := Yields_ReadC_nil h; cases this
  | cons t s => rfl

theorem ne_nil_of_ReadF {s : scannerADT} {p : expADT × scannerADT}
    (h : Yields ReadF s (.ok p)) : MoreTokensExist s = true := by
  cases s with
  | nil => have := Yields_ReadF_nil h; cases this
  | cons t s => rfl

theorem ReadE_end {s : scannerADT} {A : expADT} (h : Yields ReadT s (.ok (A, []))) :
    Yields ReadE s (.ok (A, [])) := by
  refine ⟨4 * s.length + 3 + 1, ?_, ok_ne_outOfFuel _⟩
  rw [ReadE, ReadT_stable h _ (Nat.le_refl _)]
  rfl

theorem ReadE_stop {s rest : scannerADT} {A : expADT} {t : String}
    (h : Yields ReadT s (.ok (A, t :: rest)))
    (ht : (firstChar t == '+' || firstChar t == '-') = false) :
    Yields ReadE s (.ok (A, t :: rest)) := by
  refine ⟨4 * s.length + 3 + 1, ?_, ok_ne_outOfFuel _⟩
  rw [ReadE, ReadT_stable h _ (Nat.le_refl _)]
  simp only [bind, Except.bind, MoreTokensExist_cons, ReadToken_cons, if_true, ht,
    Bool.false_eq_true, if_false, SaveToken]
  rfl

theorem ReadE_op {s rest rest2 : scannerADT} {A B : expADT} {o : String}
    (hA : Yields ReadT s (.ok (A, o :: rest)))
    (ho : (firstChar o == '+' || firstChar o == '-') = true)
    (hB : Yields ReadE rest (.ok (B, rest2))) :
    Yields ReadE s (.ok (NewCompoundExp (firstChar o) A B, rest2)) := by
  refine ⟨max (4 * s.length + 3) (4 * rest.length + 4) + 1, ?_, ok_ne_outOfFuel _⟩
  rw [ReadE, ReadT_stable hA _ (Nat.le_max_left _ _)]
  simp only [bind, Except.bind, MoreTokensExist_cons, ReadToken_cons, if_true, ho]
  rw [ReadE_stable hB _ (Nat.le_max_right _ _)]
  rfl

theorem ReadE_error {s : scannerADT} {err : failure} (h : Yields ReadT s (.error err)) :
    Yields ReadE s (.error err) := by
  refine ⟨4 * s.length + 3 + 1, ?_, h.choose_spec.2⟩
  rw [ReadE, ReadT_stable h _ (Nat.le_refl _)]
  rfl

theorem ReadT_end {s : scannerADT} {A : expADT} (h : Yields ReadC s (.ok (A, []))) :
    Yields ReadT s (.ok (A, [])) := by
  refine ⟨4 * s.length + 2 + 1, ?_, ok_ne_outOfFuel _⟩
  rw [ReadT, ReadC_stable h _ (Nat.le_refl _)]
  simp only [ne_nil_of_ReadC h, Bool.not_true, Bool.false_eq_true, if_false]
  rfl

theorem ReadT_stop {s rest : scannerADT} {A : expADT} {t : String}
    (h : Yields ReadC s (.ok (A, t :: rest)))
    (ht : (firstChar t == '*' || firstChar t == '/') = false) :
    Yields ReadT s (.ok (A, t :: rest)) := by
  refine ⟨4 * s.length + 2 + 1, ?_, ok_ne_outOfFuel _⟩
  rw [ReadT, ReadC_stable h _ (Nat.le_refl _)]
  simp only [ne_nil_of_ReadC h, Bool.not_true, Bool.false_eq_true, if_false, bind, Except.bind,
    MoreTokensExist_cons, ReadToken_cons, if_true, ht, SaveToken]
  rfl

theorem ReadT_op {s rest rest2 : scannerADT} {A B : expADT} {o : String}
    (hA : Yields ReadC s (.ok (A, o :: rest)))
    (ho : (firstChar o == '*' || firstChar o == '/') = true)
    (hB : Yields ReadT rest (.ok (B, rest2))) :
    Yields ReadT s (.ok (NewCompoundExp (firstChar o) A B, rest2)) := by
  refine ⟨max (4 * s.length + 2) (4 * rest.length + 3) + 1, ?_, ok_ne_outOfFuel _⟩
  rw [ReadT, ReadC_stable hA _ (Nat.le_max_left _ _)]
  simp only [ne_nil_of_ReadC hA, Bool.not_true, Bool.false_eq_true, if_false, bind, Except.bind,
    MoreTokensExist_cons, ReadToken_cons, if_true, ho]
  rw [ReadT_stable hB _ (Nat.le_max_right _ _)]
  rfl

theorem ReadT_error {s : scannerADT} {err : failure} (h : Yields ReadC s (.error err)) :
    Yields ReadT s (.error err) := by
  cases s with
  | nil =>
    have := Yields_ReadC_nil h
    exact ⟨1, by rw [this]; rfl, h.choose_spec.2⟩
  | cons t s =>
    refine ⟨4 * (t :: s).length + 2 + 1, ?_, h.choose_spec.2⟩
    rw [ReadT, ReadC_stable h _ (Nat.le_refl _)]
    rfl

theorem ReadC_error {s : scannerADT} {err : failure} (h : Yields ReadF s (.error err)) :
    Yields ReadC s (.error err) := by
  cases s with
  | nil =>
    have := Yields_ReadF_nil h
    exact ⟨1, by rw [this]; rfl, h.choose_spec.2⟩
  | cons t s =>
    refine ⟨4 * (t :: s).length + 1 + 1, ?_, h.choose_spec.2⟩
    rw [ReadC, ReadF_stable h _ (Nat.le_refl _)]
    rfl

/-- A failure of the factor level at the start of the stream is the failure
of `ParseExp`. -/
theorem ParseExp_of_ReadF_error {s : scannerADT} {err : failure}
    (h : Yields ReadF s (.error err)) : ParseExp s = .error err := by
  rw [ParseExp_of_Yields (ReadE_error (ReadT_error (ReadC_error h)))]
  rfl

theorem ParseExp_of_ReadE_ok {s : scannerADT} {e : expADT}
    (h : Yields ReadE s (.ok (e, []))) : ParseExp s = .ok e := by
  rw [ParseExp_of_Yields h]
  rfl

theorem addOp_firstChar {o : String} (h : IsAddOp o) :
    (firstChar o == '+' || firstChar o == '-') = true ∧
    (firstChar o == '*' || firstChar o == '/') = false ∧ firstChar o ≠ '(' := by
  rcases h with rfl | rfl <;> decide

theorem mulOp_firstChar {o : String} (h : IsMulOp o) :
    (firstChar o == '*' || firstChar o == '/') = true ∧
    (firstChar o == '+' || firstChar o == '-') = false ∧ firstChar o ≠ '(' := by
  rcases h with rfl | rfl <;> decide

/-- An operand followed by a token that is not an opening parenthesis, and by
anything after that token, is read by the call level up to that token. -/
theorem Operand_readC {a : scannerADT} {A : expADT} (h : Operand a A) (t : String)
    (ht : firstChar t ≠ '(') (rest : scannerADT) :
    Yields ReadC (a ++ t :: rest) (.ok (A, t :: rest)) := by
  have := ReadC_extends (h t ht) rest
  simpa using this

/-! ## Operands -/

theorem firstChar_if : (firstChar "if" == '(') = false := by decide

theorem StringEqual_if : StringEqual "if" "if" = true := by decide

theorem StringEqual_lparen : StringEqual "(" "(" = true := by decide

theorem StringEqual_rparen : StringEqual ")" ")" = true := by decide

theorem StringEqual_rparen_then : StringEqual ")" "then" = false := by decide

theorem StringEqual_then : StringEqual "then" "then" = true := by decide

theorem StringEqual_else : StringEqual "else" "else" = true := by decide

theorem digit_token {n : String} (h : (firstChar n).isDigit = true) :
    (firstChar n == '(') = false ∧ StringEqual n "if" = false ∧ StringEqual n "func" = false := by
  refine ⟨?_, ?_, ?_⟩
  · cases hc : firstChar n == '(' with
    | false => rfl
    | true =>
      have : firstChar n = '(' := by simpa using hc
      rw [this] at h
      exact absurd h (by decide)
  · cases hc : StringEqual n "if" with
    | false => rfl
    | true =>
      have : n = "if" := (StringEqual_iff _ _).1 hc
      rw [this] at h
      exact absurd h (by decide)
  · cases hc : StringEqual n "func" with
    | false => rfl
    | true =>
      have : n = "func" := (StringEqual_iff _ _).1 hc
      rw [this] at h
      exact absurd h (by decide)

theorem not_lparen {t : String} (ht : firstChar t ≠ '(') :
    (firstChar t == '(') = false ∧ StringEqual t "(" = false := by
  refine ⟨by simpa using ht, ?_⟩
  cases hc : StringEqual t "(" with
  | false => rfl
  | true =>
    have : t = "(" := (StringEqual_iff _ _).1 hc
    rw [this] at ht
    exact absurd rfl ht

/-- An integer literal is an operand. -/
theorem Operand_integer (n : String) (v : Int) (hd : (firstChar n).isDigit = true)
    (hv : StringToInteger n = .ok v) : Operand [n] (NewIntegerExp v) := by
  intro t ht
  refine ⟨2, ?_, ok_ne_outOfFuel _⟩
  obtain ⟨h1, h2, h3⟩ := digit_token hd
  obtain ⟨h4, _⟩ := not_lparen ht
  simp only [ReadC, ReadF, List.singleton_append, MoreTokensExist_cons, ReadToken_cons,
    Bool.not_true, Bool.false_eq_true, if_false, h1, h2, h3, hd, if_true, hv, bind, Except.bind,
    pure, Except.pure, h4, SaveToken]

theorem alpha_token {x : String} (ha : (firstChar x).isAlpha = true) :
    (firstChar x == '(') = false ∧ (firstChar x).isDigit = false := by
  constructor
  · cases hc : firstChar x == '(' with
    | false => rfl
    | true =>
      have : firstChar x = '(' := by simpa using hc
      rw [this] at ha
      exact absurd ha (by decide)
  · cases hc : (firstChar x).isDigit with
    | false => rfl
    | true =>
      exfalso
      simp only [Char.isAlpha, Char.isUpper, Char.isLower, Char.isDigit, Bool.or_eq_true,
        Bool.and_eq_true, decide_eq_true_eq] at ha hc
      rcases ha with ha | ha
      · have := ha.1; have := hc.2
        exact absurd (UInt32.le_trans ‹65 ≤ (firstChar x).val› ‹(firstChar x).val ≤ 57›) (by decide)
      · have := ha.1; have := hc.2
        exact absurd (UInt32.le_trans ‹97 ≤ (firstChar x).val› ‹(firstChar x).val ≤ 57›) (by decide)


/-- An identifier is an operand. -/
theorem Operand_identifier (x : String) (ha : (firstChar x).isAlpha = true)
    (hif : x ≠ "if") (hfunc : x ≠ "func") : Operand [x] (NewIdentifierExp x) := by
  intro t ht
  refine ⟨2, ?_, ok_ne_outOfFuel _⟩
  obtain ⟨h4, h5⟩ := not_lparen ht
  obtain ⟨h1, h2⟩ := alpha_token ha
  simp only [ReadC, ReadF, List.singleton_append, MoreTokensExist_cons, ReadToken_cons,
    Bool.not_true, Bool.false_eq_true, if_false, h1, h2, StringEqual_ne hif, StringEqual_ne hfunc,
    ha, if_true, bind, Except.bind, pure, Except.pure, h4, h5, SaveToken]

/-- A parenthesised expression is an operand. -/
theorem Operand_paren (inner : scannerADT) (e : expADT)
    (h : Yields ReadE (inner ++ [")"]) (.ok (e, [")"]))) :
    Operand ("(" :: (inner ++ [")"])) e := by
  intro t ht
  have h2 := ReadE_extends h [t]
  obtain ⟨h4, _⟩ := not_lparen ht
  refine ⟨4 * ((inner ++ [")"]) ++ [t]).length + 4 + 1 + 1, ?_, ok_ne_outOfFuel _⟩
  rw [ReadC]
  simp only [List.cons_append, MoreTokensExist_cons, Bool.not_true, Bool.false_eq_true, if_false]
  rw [ReadF]
  simp only [MoreTokensExist_cons, Bool.not_true, Bool.false_eq_true, if_false, ReadToken_cons]
  rw [ReadE_stable h2 _ (Nat.le_refl _)]
  simp only [show (firstChar "(" == '(') = true from by decide, if_true, bind, Except.bind,
    List.nil_append, MoreTokensExist_cons, ReadToken_cons, Bool.true_and,
    show (firstChar ")" == ')') = true from by decide, pure, Except.pure, h4,
    Bool.false_eq_true, if_false, SaveToken]

/-- A call of an identifier is an operand. -/
theorem Operand_call (x : String) (arg : scannerADT) (e : expADT)
    (ha : (firstChar x).isAlpha = true) (hif : x ≠ "if") (hfunc : x ≠ "func")
    (h : Yields ReadE (arg ++ [")"]) (.ok (e, [")"]))) :
    Operand (x :: "(" :: (arg ++ [")"])) (NewCallExp (NewIdentifierExp x) e) := by
  intro t ht
  have h2 := ReadE_extends h [t]
  obtain ⟨h4, _⟩ := not_lparen ht
  obtain ⟨h1, h3⟩ := alpha_token ha
  refine ⟨4 * ((arg ++ [")"]) ++ [t]).length + 4 + 1 + 1, ?_, ok_ne_outOfFuel _⟩
  rw [ReadC]
  simp only [List.cons_append, MoreTokensExist_cons, Bool.not_true, Bool.false_eq_true, if_false]
  rw [ReadF]
  simp only [MoreTokensExist_cons, Bool.not_true, Bool.false_eq_true, if_false, ReadToken_cons,
    h1, h3, StringEqual_ne hif, StringEqual_ne hfunc, ha, if_true, StringEqual_lparen]
  rw [ReadE_stable h2 _ (Nat.le_refl _)]
  simp only [bind, Except.bind, List.nil_append, MoreTokensExist_cons, ReadToken_cons,
    Bool.true_and, StringEqual_rparen, if_true, pure, Except.pure, h4, Bool.false_eq_true,
    if_false, SaveToken]

/-- A function literal is an operand, whatever its parameter token. -/
theorem Operand_func (x : String) (body : scannerADT) (e : expADT)
    (h : Yields ReadE (body ++ ["\x7d"]) (.ok (e, ["\x7d"]))) :
    Operand ("func" :: "(" :: x :: ")" :: "\x7b" :: (body ++ ["\x7d"])) (NewFuncExp x e) := by
  intro t ht
  have h2 := ReadE_extends h [t]
  obtain ⟨h4, _⟩ := not_lparen ht
  refine ⟨4 * ((body ++ ["\x7d"]) ++ [t]).length + 4 + 1 + 1, ?_, ok_ne_outOfFuel _⟩
  rw [ReadC]
  simp only [List.cons_append, MoreTokensExist_cons, Bool.not_true, Bool.false_eq_true, if_false]
  rw [ReadF]
  simp only [MoreTokensExist_cons, Bool.not_true, Bool.false_eq_true, if_false, ReadToken_cons,
    show (firstChar "func" == '(') = false from by decide,
    show StringEqual "func" "if" = false from by decide,
    show StringEqual "func" "func" = true from by decide, if_true, StringEqual_lparen,
    StringEqual_rparen, show StringEqual "\x7b" "\x7b" = true from by decide]
  rw [ReadE_stable h2 _ (Nat.le_refl _)]
  simp only [bind, Except.bind, List.nil_append, MoreTokensExist_cons, ReadToken_cons,
    show StringEqual "\x7d" "\x7d" = true from by decide, Bool.not_true, Bool.false_eq_true,
    if_false, pure, Except.pure, h4, SaveToken, ite_self]

/-! ## The fuel of the evaluator -/

theorem CounterGe_bind {n m : Int} {x : Except failure (valueADT × evalState)}
    {g : valueADT × evalState → Except failure (valueADT × evalState)}
    (hx : CounterGe m x) (hg : ∀ v st, m ≤ st.recursions → CounterGe n (g (v, st))) :
    CounterGe n (x >>= g) := by
  constructor
  intro v st h
  cases x with
  | error err => cases h
  | ok a => exact (hg a.1 a.2 (hx.ge a.1 a.2 rfl)).ge v st h

theorem CounterGe_bind_other {n : Int} {β : Type} {x : Except failure β}
    {g : β → Except failure (valueADT × evalState)} (hg : ∀ a, CounterGe n (g a)) :
    CounterGe n (x >>= g) := by
  constructor
  intro v st h
  cases x with
  | error err => cases h
  | ok a => exact (hg a).ge v st h

theorem CounterGe_ite {n : Int} {c : Prop} [Decidable c]
    {a b : Except failure (valueADT × evalState)}
    (ha : c → CounterGe n a) (hb : ¬c → CounterGe n b) : CounterGe n (if c then a else b) := by
  by_cases h : c
  · rw [if_pos h]; exact ha h
  · rw [if_neg h]; exact hb h

theorem CounterGe_Error {n : Int} (msg : String) : CounterGe n (Error msg) :=
  ⟨fun _ _ h => by cases h⟩

theorem CounterGe_failure {n : Int} (err : failure) : CounterGe n (.error err) :=
  ⟨fun _ _ h => by cases h⟩

theorem CounterGe_pure {n : Int} (v : valueADT) (st : evalState) (h : n ≤ st.recursions) :
    CounterGe n (pure (v, st)) :=
  ⟨fun _ _ h2 => by cases h2; exact h⟩

theorem CounterGe_ok {n : Int} (v : valueADT) (st : evalState) (h : n ≤ st.recursions) :
    CounterGe n (.ok (v, st)) :=
  ⟨fun _ _ h2 => by cases h2; exact h⟩

theorem CounterGe_mono {n m : Int} {r : Except failure (valueADT × evalState)} (h : CounterGe m r)
    (hnm : n ≤ m) : CounterGe n r :=
  ⟨fun v st hr => Int.le_trans hnm (h.ge v st hr)⟩

/-- Every call of `Eval` that returns has incremented the counter. -/
theorem Eval_counter (fuel : Nat) (st : evalState) (exp : expADT) (env : environmentADT) :
    CounterGe (st.recursions + 1) (Eval fuel st exp env) := by
  induction fuel generalizing st exp env with
  | zero =>
    unfold Eval
    split
    · exact CounterGe_Error _
    · exact CounterGe_failure _
  | succ fuel ih =>
    have ih2 : ∀ (st : evalState) (exp : expADT) (env : environmentADT) (n : Int),
        n ≤ st.recursions → CounterGe n (Eval fuel st exp env) :=
      fun st exp env n hn => CounterGe_mono (ih st exp env) (by omega)
    unfold Eval
    split
    · exact CounterGe_Error _
    · cases exp with
      | NewIntegerExp n => exact CounterGe_ok _ _ (Int.le_refl _)
      | NewIdentifierExp id =>
        simp only [EvalIdentifier]
        repeat (first
          | exact CounterGe_Error _
          | exact CounterGe_failure _
          | (apply CounterGe_pure; simp only [DefineIdentifier, NewClosure] at *; omega)
          | (apply ih2; simp only [DefineIdentifier, NewClosure] at *; omega)
          | refine CounterGe_bind (ih2 _ _ _ _ (Int.le_refl _)) ?_
          | refine CounterGe_bind_other ?_
          | (apply CounterGe_ite <;> intro _)
          | intro _ _ _
          | intro _
          | dsimp only)
      | NewCompoundExp op lhs rhs =>
        simp only [EvalCompound]
        repeat (first
          | exact CounterGe_Error _
          | exact CounterGe_failure _
          | (apply CounterGe_pure; simp only [DefineIdentifier, NewClosure] at *; omega)
          | (apply ih2; simp only [DefineIdentifier, NewClosure] at *; omega)
          | refine CounterGe_bind (ih2 _ _ _ _ (Int.le_refl _)) ?_
          | refine CounterGe_bind_other ?_
          | (apply CounterGe_ite <;> intro _)
          | intro _ _ _
          | intro _
          | dsimp only)
      | NewFuncExp formalArg body =>
        exact CounterGe_ok _ _ (Int.le_refl _)
      | NewIfExp lhs relOp rhs thenPart elsePart =>
        simp only [EvalIfExp]
        repeat (first
          | exact CounterGe_Error _
          | exact CounterGe_failure _
          | (apply CounterGe_pure; simp only [DefineIdentifier, NewClosure] at *; omega)
          | (apply ih2; simp only [DefineIdentifier, NewClosure] at *; omega)
          | refine CounterGe_bind (ih2 _ _ _ _ (Int.le_refl _)) ?_
          | refine CounterGe_bind_other ?_
          | (apply CounterGe_ite <;> intro _)
          | intro _ _ _
          | intro _
          | dsimp only)
      | NewCallExp func arg =>
        simp only [evalCall]
        repeat (first
          | exact CounterGe_Error _
          | exact CounterGe_failure _
          | (apply CounterGe_pure; simp only [DefineIdentifier, NewClosure] at *; omega)
          | (apply ih2; simp only [DefineIdentifier, NewClosure] at *; omega)
          | refine CounterGe_bind (ih2 _ _ _ _ (Int.le_refl _)) ?_
          | refine CounterGe_bind_other ?_
          | (apply CounterGe_ite <;> intro _)
          | intro _ _ _
          | intro _
          | dsimp only)

theorem HasFuel_bind_eval {m : Int} {β : Type} {x : Except failure (valueADT × evalState)}
    {g : valueADT × evalState → Except failure β}
    (hx : HasFuel x) (hc : CounterGe m x) (hg : ∀ v st, m ≤ st.recursions → HasFuel (g (v, st))) :
    HasFuel (x >>= g) := by
  cases x with
  | error err => exact ⟨fun h => hx.ne (congrArg Except.error (Except.error.inj h))⟩
  | ok a => exact hg a.1 a.2 (hc.ge a.1 a.2 rfl)

theorem HasFuel_ok {β : Type} (a : β) : HasFuel (.ok a : Except failure β) :=
  ⟨fun h => by cases h⟩

theorem HasFuel_intResult (x : Int) : HasFuel (intResult x) := by
  unfold intResult
  split
  · exact HasFuel_ok _
  · exact HasFuel_undefined _

theorem HasFuel_GetIntValue (v : valueADT) : HasFuel (GetIntValue v) := by
  cases v
  · exact HasFuel_ok _
  · exact HasFuel_Error _

theorem HasFuel_GetFuncValue (v : valueADT) : HasFuel (GetFuncValue v) := by
  cases v
  · exact HasFuel_Error _
  · exact HasFuel_ok _

theorem HasFuel_GetIdentifierValue (st : evalState) (env : environmentADT) (name : String) :
    HasFuel (GetIdentifierValue st env name) := by
  unfold GetIdentifierValue
  split
  · exact HasFuel_ok _
  · exact HasFuel_Error _

/-- A call of `Eval` whose fuel covers what the counter leaves up to 1001
does not run out of fuel. -/
theorem Eval_hasFuel (fuel : Nat) (st : evalState) (exp : expADT) (env : environmentADT)
    (h : 1001 ≤ st.recursions + fuel) : HasFuel (Eval fuel st exp env) := by
  induction fuel generalizing st exp env with
  | zero =>
    unfold Eval
    split
    · exact HasFuel_Error _
    · rename_i hgt
      simp only [Nat.cast_zero, add_zero] at h
      omega
  | succ fuel ih =>
    have ihc : ∀ (st : evalState) (exp : expADT) (env : environmentADT),
        CounterGe st.recursions (Eval fuel st exp env) :=
      fun st exp env => CounterGe_mono (Eval_counter fuel st exp env) (by omega)
    unfold Eval
    split
    · exact HasFuel_Error _
    · push_cast at h
      cases exp with
      | NewIntegerExp n => exact HasFuel_ok _
      | NewIdentifierExp id =>
        simp only [EvalIdentifier]
        repeat (first
          | exact HasFuel_Error _
          | exact HasFuel_undefined _
          | exact HasFuel_pure _
          | exact HasFuel_intResult _
          | exact HasFuel_GetIntValue _
          | exact HasFuel_GetFuncValue _
          | exact HasFuel_GetIdentifierValue _ _ _
          | (apply ih; simp only [DefineIdentifier, NewClosure] at *; omega)
          | refine HasFuel_bind_eval (ih _ _ _ ?_) (ihc _ _ _) ?_
          | refine HasFuel_bind_other ?_ ?_
          | (apply HasFuel_ite <;> intro _)
          | intro _ _ _
          | intro _
          | (simp only [DefineIdentifier, NewClosure] at *; omega)
          | dsimp only)
      | NewCompoundExp op lhs rhs =>
        simp only [EvalCompound]
        repeat (first
          | exact HasFuel_Error _
          | exact HasFuel_undefined _
          | exact HasFuel_pure _
          | exact HasFuel_intResult _
          | exact HasFuel_GetIntValue _
          | exact HasFuel_GetFuncValue _
          | exact HasFuel_GetIdentifierValue _ _ _
          | (apply ih; simp only [DefineIdentifier, NewClosure] at *; omega)
          | refine HasFuel_bind_eval (ih _ _ _ ?_) (ihc _ _ _) ?_
          | refine HasFuel_bind_other ?_ ?_
          | (apply HasFuel_ite <;> intro _)
          | intro _ _ _
          | intro _
          | (simp only [DefineIdentifier, NewClosure] at *; omega)
          | dsimp only)
      | NewFuncExp formalArg body => exact HasFuel_ok _
      | NewIfExp lhs relOp rhs thenPart elsePart =>
        simp only [EvalIfExp]
        repeat (first
          | exact HasFuel_Error _
          | exact HasFuel_undefined _
          | exact HasFuel_pure _
          | exact HasFuel_intResult _
          | exact HasFuel_GetIntValue _
          | exact HasFuel_GetFuncValue _
          | exact HasFuel_GetIdentifierValue _ _ _
          | (apply ih; simp only [DefineIdentifier, NewClosure] at *; omega)
          | refine HasFuel_bind_eval (ih _ _ _ ?_) (ihc _ _ _) ?_
          | refine HasFuel_bind_other ?_ ?_
          | (apply HasFuel_ite <;> intro _)
          | intro _ _ _
          | intro _
          | (simp only [DefineIdentifier, NewClosure] at *; omega)
          | dsimp only)
      | NewCallExp func arg =>
        simp only [evalCall]
        repeat (first
          | exact HasFuel_Error _
          | exact HasFuel_undefined _
          | exact HasFuel_pure _
          | exact HasFuel_intResult _
          | exact HasFuel_GetIntValue _
          | exact HasFuel_GetFuncValue _
          | exact HasFuel_GetIdentifierValue _ _ _
          | (apply ih; simp only [DefineIdentifier, NewClosure] at *; omega)
          | refine HasFuel_bind_eval (ih _ _ _ ?_) (ihc _ _ _) ?_
          | refine HasFuel_bind_other ?_ ?_
          | (apply HasFuel_ite <;> intro _)
          | intro _ _ _
          | intro _
          | (simp only [DefineIdentifier, NewClosure] at *; omega)
          | dsimp only)

/-- The fuel of `Evaluating` always suffices: it returns a value or fails with
an error of the program. -/
theorem Evaluating_hasFuel (st : evalState) (exp : expADT) (env : environmentADT) :
    Evaluating st exp env ≠ .error .outOfFuel :=
  (Eval_hasFuel 1001 _ exp env (by simp)).ne

/-! ## Properties of the parser -/

theorem Operand_one : Operand ["1"] (NewIntegerExp 1) := Operand_integer "1" 1 (by decide) rfl

theorem Operand_two : Operand ["2"] (NewIntegerExp 2) := Operand_integer "2" 2 (by decide) rfl

theorem Yields_three : Yields ReadC ["3"] (.ok (NewIntegerExp 3, [])) :=
  ⟨2, rfl, ok_ne_outOfFuel _⟩

/-- Counterexample to C6 as stated: "if 1 < 2 then 3 else 4" is a factor, but
in "if 1 < 2 then 3 else 4 - 5 - 6" (and with `*` in place of `-`) its else
branch takes the whole chain, so the parse is not
`Compound(o1, A, Compound(o2, B, C))`. -/
theorem right_assoc_fails_after_if :
    ReadF 40 ifFactor = .ok (ifFactorExp, []) ∧ ParseExp ifFactor = .ok ifFactorExp ∧
    ParseExp ["5"] = .ok (NewIntegerExp 5) ∧ ParseExp ["6"] = .ok (NewIntegerExp 6) ∧
    ParseExp (ifFactor ++ "-" :: (["5"] ++ "-" :: ["6"])) ≠
      .ok (NewCompoundExp '-' ifFactorExp
        (NewCompoundExp '-' (NewIntegerExp 5) (NewIntegerExp 6))) ∧
    ParseExp (ifFactor ++ "*" :: (["5"] ++ "*" :: ["6"])) ≠
      .ok (NewCompoundExp '*' ifFactorExp
        (NewCompoundExp '*' (NewIntegerExp 5) (NewIntegerExp 6))) := by
  refine ⟨rfl, rfl, rfl, rfl, ?_, ?_⟩
  · have h : ParseExp (ifFactor ++ "-" :: (["5"] ++ "-" :: ["6"])) =
        .ok (NewIfExp (NewIntegerExp 1) '<' (NewIntegerExp 2) (NewIntegerExp 3)
          (NewCompoundExp '-' (NewIntegerExp 4)
            (NewCompoundExp '-' (NewIntegerExp 5) (NewIntegerExp 6)))) := rfl
    rw [h]
    intro hc
    cases hc
  · have h : ParseExp (ifFactor ++ "*" :: (["5"] ++ "*" :: ["6"])) =
        .ok (NewIfExp (NewIntegerExp 1) '<' (NewIntegerExp 2) (NewIntegerExp 3)
          (NewCompoundExp '*' (NewIntegerExp 4)
            (NewCompoundExp '*' (NewIntegerExp 5) (NewIntegerExp 6)))) := rfl
    rw [h]
    intro hc
    cases hc

/-- C6, amended: for operands `a` and `b` (token sequences the call level
parses entirely and no further when an operator follows: literals,
identifiers, calls, parenthesised expressions, function literals, but not an
`if` whose else branch is open), a token sequence `c` the call level parses
entirely, and operators `o1`, `o2` both in {+,-} or both in {*,/}, `ParseExp`
on `a o1 b o2 c` returns `Compound(o1, A, Compound(o2, B, C))`. -/
theorem ParseExp_right_assoc (a b c : scannerADT) (A B C : expADT) (o1 o2 : String)
    (hA : Operand a A) (hB : Operand b B) (hC : Yields ReadC c (.ok (C, [])))
    (ho : (IsAddOp o1 ∧ IsAddOp o2) ∨ (IsMulOp o1 ∧ IsMulOp o2)) :
    ParseExp (a ++ o1 :: (b ++ o2 :: c)) =
      .ok (NewCompoundExp (firstChar o1) A (NewCompoundExp (firstChar o2) B C)) := by
  apply ParseExp_of_ReadE_ok
  have hTc := ReadT_end hC
  rcases ho with ⟨h1, h2⟩ | ⟨h1, h2⟩
  · obtain ⟨h1a, h1m, h1p⟩ := addOp_firstChar h1
    obtain ⟨h2a, h2m, h2p⟩ := addOp_firstChar h2
    have hb := ReadE_op (ReadT_stop (Operand_readC hB o2 h2p c) h2m) h2a (ReadE_end hTc)
    exact ReadE_op (ReadT_stop (Operand_readC hA o1 h1p _) h1m) h1a hb
  · obtain ⟨h1m, h1a, h1p⟩ := mulOp_firstChar h1
    obtain ⟨h2m, h2a, h2p⟩ := mulOp_firstChar h2
    have hb := ReadT_op (Operand_readC hB o2 h2p c) h2m hTc
    exact ReadE_end (ReadT_op (Operand_readC hA o1 h1p _) h1m hb)

theorem ParseExp_right_assoc_witness :
    ParseExp (["1"] ++ "-" :: (["2"] ++ "-" :: ["3"])) =
      .ok (NewCompoundExp (firstChar "-") (NewIntegerExp 1)
        (NewCompoundExp (firstChar "-") (NewIntegerExp 2) (NewIntegerExp 3))) :=
  ParseExp_right_assoc ["1"] ["2"] ["3"] _ _ _ "-" "-" Operand_one Operand_two Yields_three
    (Or.inl ⟨Or.inr rfl, Or.inr rfl⟩)

/-- C7: the parse of "1 + 2 * 3" evaluates to 7 and the parse of "10 - 3 - 2"
to 9, in every state and environment; and for operands `a`, `b`, `c` a `*` or
`/` group binds tighter than a neighbouring `+` or `-` on either side. -/
theorem precedence (st : evalState) (env : environmentADT) :
    ParseExp ["1", "+", "2", "*", "3"] = .ok sumProductExp ∧
    (∃ st2, Evaluating st sumProductExp env = .ok (NewIntegerValue 7, st2)) ∧
    ParseExp ["10", "-", "3", "-", "2"] = .ok differenceExp ∧
    (∃ st2, Evaluating st differenceExp env = .ok (NewIntegerValue 9, st2)) ∧
    ∀ (a b c : scannerADT) (A B C : expADT) (p m : String),
      Operand a A → Operand b B → Yields ReadC c (.ok (C, [])) → IsAddOp p → IsMulOp m →
      ParseExp (a ++ p :: (b ++ m :: c)) =
        .ok (NewCompoundExp (firstChar p) A (NewCompoundExp (firstChar m) B C)) ∧
      ParseExp (a ++ m :: (b ++ p :: c)) =
        .ok (NewCompoundExp (firstChar p) (NewCompoundExp (firstChar m) A B) C) := by
  refine ⟨rfl, ⟨_, rfl⟩, rfl, ⟨_, rfl⟩, ?_⟩
  intro a b c A B C p m hA hB hC hp hm
  obtain ⟨hpa, hpm, hpp⟩ := addOp_firstChar hp
  obtain ⟨hmm, hma, hmp⟩ := mulOp_firstChar hm
  have hTc := ReadT_end hC
  constructor
  · apply ParseExp_of_ReadE_ok
    have hb := ReadE_end (ReadT_op (Operand_readC hB m hmp c) hmm hTc)
    exact ReadE_op (ReadT_stop (Operand_readC hA p hpp _) hpm) hpa hb
  · apply ParseExp_of_ReadE_ok
    have hb := ReadT_stop (Operand_readC hB p hpp c) hpm
    exact ReadE_op (ReadT_op (Operand_readC hA m hmp _) hmm hb) hpa (ReadE_end hTc)

theorem precedence_witness :
    ParseExp (["1"] ++ "+" :: (["2"] ++ "*" :: ["3"])) =
        .ok (NewCompoundExp (firstChar "+") (NewIntegerExp 1)
          (NewCompoundExp (firstChar "*") (NewIntegerExp 2) (NewIntegerExp 3))) ∧
    ParseExp (["1"] ++ "*" :: (["2"] ++ "+" :: ["3"])) =
        .ok (NewCompoundExp (firstChar "+")
          (NewCompoundExp (firstChar "*") (NewIntegerExp 1) (NewIntegerExp 2))
          (NewIntegerExp 3)) :=
  (precedence ⟨0, 1, []⟩ 0).2.2.2.2 ["1"] ["2"] ["3"] _ _ _ "+" "*" Operand_one Operand_two
    Yields_three (Or.inl rfl) (Or.inl rfl)

/-- C8: when the expression level leaves a token, `ParseExp` fails on that
token; a tree is returned only when the expression level consumed the whole
stream; and "(1 + 2", "1 + 2)", "1 + 2 3" are rejected. -/
theorem ParseExp_rejects_trailing :
    (∀ s e t rest, Yields ReadE s (.ok (e, t :: rest)) →
      ParseExp s = Error ("ParseExp: " ++ t ++ " unexpected")) ∧
    (∀ s e, ParseExp s = .ok e → Yields ReadE s (.ok (e, []))) ∧
    ParseExp ["(", "1", "+", "2"] = Error "Unbalanced parenthesis" ∧
    ParseExp ["1", "+", "2", ")"] = Error "ParseExp: ) unexpected" ∧
    ParseExp ["1", "+", "2", "3"] = Error "ParseExp: 3 unexpected" := by
  refine ⟨?_, ?_, rfl, rfl, rfl⟩
  · intro s e t rest h
    rw [ParseExp_of_Yields h]
    rfl
  · intro s e h
    obtain ⟨r, hr⟩ := (Yields_total s).1
    rw [ParseExp_of_Yields hr] at h
    cases r with
    | error err => cases h
    | ok p =>
      obtain ⟨e2, s2⟩ := p
      cases s2 with
      | nil => cases h; exact hr
      | cons t s2 => cases h

theorem ParseExp_rejects_trailing_witness :
    Yields ReadE ["1", "+", "2", "3"]
      (.ok (NewCompoundExp '+' (NewIntegerExp 1) (NewIntegerExp 2), ["3"])) ∧
    ParseExp ["1", "+", "2", "3"] = Error ("ParseExp: " ++ "3" ++ " unexpected") :=
  ⟨⟨20, rfl, ok_ne_outOfFuel _⟩,
    ParseExp_rejects_trailing.1 ["1", "+", "2", "3"] _ "3" [] ⟨20, rfl, ok_ne_outOfFuel _⟩⟩

/-- C9, the code at the failing inputs: `func` followed by `(`, a token that
is no identifier (an integer, a closing parenthesis), `)`, `{`, a body and `}`
is accepted, the token becoming the formal parameter. -/
theorem func_parameter_unchecked :
    ParseExp ["func", "(", "5", ")", "\x7b", "1", "\x7d"] = .ok (NewFuncExp "5" (NewIntegerExp 1)) ∧
    ParseExp ["func", "(", ")", ")", "\x7b", "1", "\x7d"] = .ok (NewFuncExp ")" (NewIntegerExp 1)) :=
  ⟨rfl, rfl⟩

/-! ## The `if` factor -/

theorem relOp_firstChar {op : String} (h : IsRelOp op) :
    (firstChar op == '<' || firstChar op == '>' || firstChar op == '=') = true := by
  rcases h with rfl | rfl | rfl <;> decide

theorem not_relOp_firstChar {op : String} (htok : IsToken op) (h : ¬ IsRelOp op) :
    (firstChar op == '<' || firstChar op == '>' || firstChar op == '=') = false := by
  obtain ⟨cs⟩ := op
  cases cs with
  | nil => exact absurd rfl htok.1
  | cons c cs =>
    have hfc : firstChar ⟨c :: cs⟩ = c := rfl
    rw [hfc]
    rcases htok.2 with hlen | halnum
    · have hcs : cs = [] := by
        cases cs with
        | nil => rfl
        | cons d ds => simp at hlen
      subst hcs
      cases h1 : c == '<' with
      | true =>
        have : c = '<' := by simpa using h1
        subst this
        exact absurd (Or.inl rfl) h
      | false =>
        cases h2 : c == '>' with
        | true =>
          have : c = '>' := by simpa using h2
          subst this
          exact absurd (Or.inr (Or.inr rfl)) h
        | false =>
          cases h3 : c == '=' with
          | true =>
            have : c = '=' := by simpa using h3
            subst this
            exact absurd (Or.inr (Or.inl rfl)) h
          | false => rfl
    · have hc : c.isAlphanum = true := halnum c (List.mem_cons_self _ _)
      cases h1 : c == '<' with
      | true =>
        have : c = '<' := by simpa using h1
        subst this
        exact absurd hc (by decide)
      | false =>
        cases h2 : c == '>' with
        | true =>
          have : c = '>' := by simpa using h2
          subst this
          exact absurd hc (by decide)
        | false =>
          cases h3 : c == '=' with
          | true =>
            have : c = '=' := by simpa using h3
            subst this
            exact absurd hc (by decide)
          | false => rfl

/-- The `if` factor with an opening parenthesis, up to the right operand. -/
theorem ReadF_if_paren {s s1 s2 : scannerADT} {e1 e2 : expADT} {op : String} (F : Nat)
    (h1 : Yields ReadE s (.ok (e1, op :: s1))) (hop : IsRelOp op)
    (h2 : Yields ReadE s1 (.ok (e2, s2)))
    (hF1 : 4 * s.length + 4 ≤ F) (hF2 : 4 * s1.length + 4 ≤ F) :
    ReadF (F + 1) ("if" :: "(" :: s) =
      if StringEqual (ReadToken s2).1 ")" then
        if MoreTokensExist (ReadToken s2).2 && StringEqual (ReadToken (ReadToken s2).2).1 "then" then
          (ReadE F (ReadToken (ReadToken s2).2).2 >>= fun p3 =>
            if MoreTokensExist p3.2 && StringEqual (ReadToken p3.2).1 "else" then
              (ReadE F (ReadToken p3.2).2 >>= fun p4 =>
                pure (NewIfExp e1 (firstChar op) e2 p3.1 p4.1, p4.2))
            else Error "No Else statement found")
        else Error "No Then statement found"
      else Error "Unbalanced parenthesis in If-statement" := by
  rw [ReadF]
  simp only [MoreTokensExist_cons, ReadToken_cons, Bool.not_true, Bool.false_eq_true, if_false,
    firstChar_if, StringEqual_if, if_true, StringEqual_lparen]
  rw [ReadE_stable h1 F hF1]
  simp only [bind, Except.bind, ReadToken_cons, relOp_firstChar hop, if_true]
  rw [ReadE_stable h2 F hF2]
  simp only [Except.bind]
  cases hc : StringEqual (ReadToken s2).1 ")" <;>
    simp only [Bool.not_true, Bool.not_false, Bool.false_eq_true, if_false, if_true, Error,
      Except.bind, pure, Except.pure]

/-- The `if` factor without an opening parenthesis, up to the right operand. -/
theorem ReadF_if_bare {s s1 s2 : scannerADT} {e1 e2 : expADT} {t op : String} (F : Nat)
    (ht : t ≠ "(")
    (h1 : Yields ReadE (t :: s) (.ok (e1, op :: s1))) (hop : IsRelOp op)
    (h2 : Yields ReadE s1 (.ok (e2, s2)))
    (hF1 : 4 * (t :: s).length + 4 ≤ F) (hF2 : 4 * s1.length + 4 ≤ F) :
    ReadF (F + 1) ("if" :: t :: s) =
      if MoreTokensExist s2 && StringEqual (ReadToken s2).1 "then" then
        (ReadE F (ReadToken s2).2 >>= fun p3 =>
          if MoreTokensExist p3.2 && StringEqual (ReadToken p3.2).1 "else" then
            (ReadE F (ReadToken p3.2).2 >>= fun p4 =>
              pure (NewIfExp e1 (firstChar op) e2 p3.1 p4.1, p4.2))
          else Error "No Else statement found")
      else Error "No Then statement found" := by
  rw [ReadF]
  simp only [MoreTokensExist_cons, ReadToken_cons, Bool.not_true, Bool.false_eq_true, if_false,
    firstChar_if, StringEqual_if, if_true, StringEqual_ne ht, Bool.not_false, SaveToken]
  rw [ReadE_stable h1 F hF1]
  simp only [bind, Except.bind, ReadToken_cons, relOp_firstChar hop, if_true]
  rw [ReadE_stable h2 F hF2]
  simp only [Except.bind, pure, Except.pure]

/-- The `if` factor whose left operand is not followed by a relational
operator. -/
theorem ReadF_if_relOp {s s1 : scannerADT} {e1 : expADT} {t : String}
    (h1 : Yields ReadE (if StringEqual t "(" then s else t :: s) (.ok (e1, s1)))
    (hop : (firstChar (ReadToken s1).1 == '<' || firstChar (ReadToken s1).1 == '>' ||
      firstChar (ReadToken s1).1 == '=') = false) :
    Yields ReadF ("if" :: t :: s) (Error "Unknown RelOp") := by
  refine ⟨4 * (if StringEqual t "(" then s else t :: s).length + 4 + 1, ?_, Error_ne_outOfFuel _⟩
  rw [ReadF]
  simp only [MoreTokensExist_cons, ReadToken_cons, Bool.not_true, Bool.false_eq_true, if_false,
    firstChar_if, StringEqual_if, if_true, SaveToken]
  cases hc : StringEqual t "("
  · simp only [hc, Bool.false_eq_true, if_false] at h1
    simp only [Bool.not_false, if_true, Bool.false_eq_true, if_false]
    rw [ReadE_stable h1 _ (Nat.le_refl _)]
    simp only [bind, Except.bind, hop, Bool.false_eq_true, if_false]
  · simp only [hc, if_true] at h1
    simp only [Bool.not_true, Bool.false_eq_true, if_false, if_true]
    rw [ReadE_stable h1 _ (Nat.le_refl _)]
    simp only [bind, Except.bind, hop, Bool.false_eq_true, if_false]


theorem relOp_of_firstChar {op : String} (htok : IsToken op)
    (h : (firstChar op == '<' || firstChar op == '>' || firstChar op == '=') = true) :
    IsRelOp op := by
  by_contra hn
  rw [not_relOp_firstChar htok hn] at h
  cases h

theorem tokens_of_then {sc : scannerADT}
    (h : (MoreTokensExist sc && StringEqual (ReadToken sc).1 "then") = true) :
    sc = "then" :: (ReadToken sc).2 := by
  cases sc with
  | nil => simp [MoreTokensExist] at h
  | cons t sc =>
    simp only [MoreTokensExist_cons, ReadToken_cons, Bool.true_and] at h
    rw [(StringEqual_iff _ _).1 h]
    rfl

theorem tokens_of_else {sc : scannerADT}
    (h : (MoreTokensExist sc && StringEqual (ReadToken sc).1 "else") = true) :
    sc = "else" :: (ReadToken sc).2 := by
  cases sc with
  | nil => simp [MoreTokensExist] at h
  | cons t sc =>
    simp only [MoreTokensExist_cons, ReadToken_cons, Bool.true_and] at h
    rw [(StringEqual_iff _ _).1 h]
    rfl

/-- The part of the `if` factor after the right operand: what a success of the
checks of `then` and `else` means. -/
theorem if_tail_inv {F : Nat} {sc rest : scannerADT} {e e1 e2 : expADT} {relOp : Char}
    (h : (if (MoreTokensExist sc && StringEqual (ReadToken sc).1 "then") = true then
        (ReadE F (ReadToken sc).2 >>= fun p3 =>
          if (MoreTokensExist p3.2 && StringEqual (ReadToken p3.2).1 "else") = true then
            (ReadE F (ReadToken p3.2).2 >>= fun p4 =>
              pure (NewIfExp e1 relOp e2 p3.1 p4.1, p4.2))
          else Error "No Else statement found")
      else Error "No Then statement found") = .ok (e, rest)) :
    ∃ s2 e3 s3 e4, sc = "then" :: s2 ∧ Yields ReadE s2 (.ok (e3, "else" :: s3)) ∧
      Yields ReadE s3 (.ok (e4, rest)) ∧ e = NewIfExp e1 relOp e2 e3 e4 := by
  by_cases hthen : (MoreTokensExist sc && StringEqual (ReadToken sc).1 "then") = true
  · rw [if_pos hthen] at h
    cases h3 : ReadE F (ReadToken sc).2 with
    | error err => rw [h3] at h; cases h
    | ok p3 =>
      rw [h3] at h
      simp only [bind, Except.bind] at h
      by_cases helse : (MoreTokensExist p3.2 && StringEqual (ReadToken p3.2).1 "else") = true
      · rw [if_pos helse] at h
        cases h4 : ReadE F (ReadToken p3.2).2 with
        | error err => rw [h4] at h; cases h
        | ok p4 =>
          rw [h4] at h
          simp only [pure, Except.pure] at h
          cases h
          refine ⟨(ReadToken sc).2, p3.1, (ReadToken p3.2).2, p4.1, tokens_of_then hthen,
            ⟨F, ?_, ok_ne_outOfFuel _⟩, ⟨F, h4, ok_ne_outOfFuel _⟩, rfl⟩
          rw [h3, ← tokens_of_else helse]
      · rw [if_neg helse] at h; cases h
  · rw [if_neg hthen] at h; cases h

/-- A successful `if` factor with an opening parenthesis has the full shape. -/
theorem ReadF_if_paren_inv {s rest : scannerADT} {e : expADT}
    (h : Yields ReadF ("if" :: "(" :: s) (.ok (e, rest))) :
    ∃ e1 op s1 e2 s2 e3 s3 e4, Yields ReadE s (.ok (e1, op :: s1)) ∧
      (firstChar op == '<' || firstChar op == '>' || firstChar op == '=') = true ∧
      Yields ReadE s1 (.ok (e2, ")" :: "then" :: s2)) ∧
      Yields ReadE s2 (.ok (e3, "else" :: s3)) ∧ Yields ReadE s3 (.ok (e4, rest)) ∧
      e = NewIfExp e1 (firstChar op) e2 e3 e4 := by
  obtain ⟨f, hf, _⟩ := h
  cases f with
  | zero => cases hf
  | succ F =>
    rw [ReadF] at hf
    simp only [MoreTokensExist_cons, ReadToken_cons, Bool.not_true, Bool.false_eq_true, if_false,
      firstChar_if, StringEqual_if, if_true, StringEqual_lparen] at hf
    cases h1 : ReadE F s with
    | error err => rw [h1] at hf; cases hf
    | ok p1 =>
      obtain ⟨e1, sc1⟩ := p1
      rw [h1] at hf
      simp only [bind, Except.bind] at hf
      cases sc1 with
      | nil =>
        simp only [ReadToken_nil, show (firstChar "" == '<' || firstChar "" == '>' ||
          firstChar "" == '=') = false from by decide, Bool.false_eq_true, if_false] at hf
        cases hf
      | cons op s1 =>
        simp only [ReadToken_cons] at hf
        by_cases hop : (firstChar op == '<' || firstChar op == '>' || firstChar op == '=') = true
        · rw [if_pos hop] at hf
          cases h2 : ReadE F s1 with
          | error err => rw [h2] at hf; cases hf
          | ok p2 =>
            obtain ⟨e2, sc2⟩ := p2
            rw [h2] at hf
            simp only [Except.bind] at hf
            cases hclose : StringEqual (ReadToken sc2).1 ")" with
            | false =>
              simp only [hclose, Bool.not_false, if_true, Error, Except.bind] at hf
              cases hf
            | true =>
              simp only [hclose, Bool.not_true, Bool.false_eq_true, if_false, pure, Except.pure,
                Except.bind] at hf
              obtain ⟨s2, e3, s3, e4, hsc, h3, h4, he⟩ := if_tail_inv hf
              have hsc2 : sc2 = ")" :: "then" :: s2 := by
                cases sc2 with
                | nil => cases hclose
                | cons t sc2 =>
                  simp only [ReadToken_cons] at hclose hsc
                  rw [(StringEqual_iff _ _).1 hclose, hsc]
              exact ⟨e1, op, s1, e2, s2, e3, s3, e4, ⟨F, h1, ok_ne_outOfFuel _⟩, hop,
                ⟨F, by rw [h2, hsc2], ok_ne_outOfFuel _⟩, h3, h4, he⟩
        · rw [if_neg hop] at hf; cases hf

/-- A successful `if` factor without an opening parenthesis has the full
shape. -/
theorem ReadF_if_bare_inv {t : String} {s rest : scannerADT} {e : expADT} (ht : t ≠ "(")
    (h : Yields ReadF ("if" :: t :: s) (.ok (e, rest))) :
    ∃ e1 op s1 e2 s2 e3 s3 e4, Yields ReadE (t :: s) (.ok (e1, op :: s1)) ∧
      (firstChar op == '<' || firstChar op == '>' || firstChar op == '=') = true ∧
      Yields ReadE s1 (.ok (e2, "then" :: s2)) ∧
      Yields ReadE s2 (.ok (e3, "else" :: s3)) ∧ Yields ReadE s3 (.ok (e4, rest)) ∧
      e = NewIfExp e1 (firstChar op) e2 e3 e4 := by
  obtain ⟨f, hf, _⟩ := h
  cases f with
  | zero => cases hf
  | succ F =>
    rw [ReadF] at hf
    simp only [MoreTokensExist_cons, ReadToken_cons, Bool.not_true, Bool.false_eq_true, if_false,
      firstChar_if, StringEqual_if, if_true, StringEqual_ne ht, Bool.not_false, SaveToken] at hf
    cases h1 : ReadE F (t :: s) with
    | error err => rw [h1] at hf; cases hf
    | ok p1 =>
      obtain ⟨e1, sc1⟩ := p1
      rw [h1] at hf
      simp only [bind, Except.bind] at hf
      cases sc1 with
      | nil =>
        simp only [ReadToken_nil, show (firstChar "" == '<' || firstChar "" == '>' ||
          firstChar "" == '=') = false from by decide, Bool.false_eq_true, if_false] at hf
        cases hf
      | cons op s1 =>
        simp only [ReadToken_cons] at hf
        by_cases hop : (firstChar op == '<' || firstChar op == '>' || firstChar op == '=') = true
        · rw [if_pos hop] at hf
          cases h2 : ReadE F s1 with
          | error err => rw [h2] at hf; cases hf
          | ok p2 =>
            obtain ⟨e2, sc2⟩ := p2
            rw [h2] at hf
            simp only [Except.bind, pure, Except.pure] at hf
            obtain ⟨s2, e3, s3, e4, hsc, h3, h4, he⟩ := if_tail_inv hf
            exact ⟨e1, op, s1, e2, s2, e3, s3, e4, ⟨F, h1, ok_ne_outOfFuel _⟩, hop,
              ⟨F, by rw [h2, hsc], ok_ne_outOfFuel _⟩, h3, h4, he⟩
        · rw [if_neg hop] at hf; cases hf

/-- C10: an `if` factor whose next token is `(` is read successfully only in
the shape `if ( E relop E ) then E else E`, one whose next token is not `(`
only in the shape `if E relop E then E else E`, the relational operator being
a token that is exactly `<`, `=` or `>`; in particular a missing `)` in the
first, a `)` after the right operand in the second and any other token in
place of the relational operator make `ReadF` and `ParseExp` fail with a
syntax error. When the checks pass the factor is
`NewIfExp left relOp right thenPart elsePart` in source order. -/
theorem ReadF_if_checks :
    (∀ s e rest, Yields ReadF ("if" :: "(" :: s) (.ok (e, rest)) →
      ∃ e1 op s1 e2 s2 e3 s3 e4, Yields ReadE s (.ok (e1, op :: s1)) ∧
        (IsToken op → IsRelOp op) ∧ Yields ReadE s1 (.ok (e2, ")" :: "then" :: s2)) ∧
        Yields ReadE s2 (.ok (e3, "else" :: s3)) ∧ Yields ReadE s3 (.ok (e4, rest)) ∧
        e = NewIfExp e1 (firstChar op) e2 e3 e4) ∧
    (∀ t s e rest, t ≠ "(" → Yields ReadF ("if" :: t :: s) (.ok (e, rest)) →
      ∃ e1 op s1 e2 s2 e3 s3 e4, Yields ReadE (t :: s) (.ok (e1, op :: s1)) ∧
        (IsToken op → IsRelOp op) ∧ Yields ReadE s1 (.ok (e2, "then" :: s2)) ∧
        Yields ReadE s2 (.ok (e3, "else" :: s3)) ∧ Yields ReadE s3 (.ok (e4, rest)) ∧
        e = NewIfExp e1 (firstChar op) e2 e3 e4) ∧
    (∀ s e1 op s1 e2 s2, Yields ReadE s (.ok (e1, op :: s1)) → IsRelOp op →
      Yields ReadE s1 (.ok (e2, s2)) → (ReadToken s2).1 ≠ ")" →
      Yields ReadF ("if" :: "(" :: s) (Error "Unbalanced parenthesis in If-statement") ∧
      ParseExp ("if" :: "(" :: s) = Error "Unbalanced parenthesis in If-statement") ∧
    (∀ t s e1 op s1 e2 s2, t ≠ "(" → Yields ReadE (t :: s) (.ok (e1, op :: s1)) → IsRelOp op →
      Yields ReadE s1 (.ok (e2, ")" :: s2)) →
      Yields ReadF ("if" :: t :: s) (Error "No Then statement found") ∧
      ParseExp ("if" :: t :: s) = Error "No Then statement found") ∧
    (∀ t s e1 op s1, Yields ReadE (if t = "(" then s else t :: s) (.ok (e1, op :: s1)) →
      IsToken op → ¬ IsRelOp op →
      Yields ReadF ("if" :: t :: s) (Error "Unknown RelOp") ∧
      ParseExp ("if" :: t :: s) = Error "Unknown RelOp") ∧
    (∀ s e1 op s1 e2 s2 e3 s3 e4 s4, Yields ReadE s (.ok (e1, op :: s1)) → IsRelOp op →
      Yields ReadE s1 (.ok (e2, ")" :: "then" :: s2)) →
      Yields ReadE s2 (.ok (e3, "else" :: s3)) → Yields ReadE s3 (.ok (e4, s4)) →
      Yields ReadF ("if" :: "(" :: s) (.ok (NewIfExp e1 (firstChar op) e2 e3 e4, s4))) ∧
    (∀ t s e1 op s1 e2 s2 e3 s3 e4 s4, t ≠ "(" → Yields ReadE (t :: s) (.ok (e1, op :: s1)) →
      IsRelOp op → Yields ReadE s1 (.ok (e2, "then" :: s2)) →
      Yields ReadE s2 (.ok (e3, "else" :: s3)) → Yields ReadE s3 (.ok (e4, s4)) →
      Yields ReadF ("if" :: t :: s) (.ok (NewIfExp e1 (firstChar op) e2 e3 e4, s4))) := by
  refine ⟨?_, ?_, ?_, ?_, ?_, ?_, ?_⟩
  · intro s e rest h
    obtain ⟨e1, op, s1, e2, s2, e3, s3, e4, h1, hop, h2, h3, h4, he⟩ := ReadF_if_paren_inv h
    exact ⟨e1, op, s1, e2, s2, e3, s3, e4, h1, fun htok => relOp_of_firstChar htok hop, h2, h3,
      h4, he⟩
  · intro t s e rest ht h
    obtain ⟨e1, op, s1, e2, s2, e3, s3, e4, h1, hop, h2, h3, h4, he⟩ := ReadF_if_bare_inv ht h
    exact ⟨e1, op, s1, e2, s2, e3, s3, e4, h1, fun htok => relOp_of_firstChar htok hop, h2, h3,
      h4, he⟩
  · intro s e1 op s1 e2 s2 h1 hop h2 hclose
    have hF : Yields ReadF ("if" :: "(" :: s) (Error "Unbalanced parenthesis in If-statement") := by
      refine ⟨max (4 * s.length + 4) (4 * s1.length + 4) + 1, ?_, Error_ne_outOfFuel _⟩
      rw [ReadF_if_paren _ h1 hop h2 (Nat.le_max_left _ _) (Nat.le_max_right _ _),
        StringEqual_ne hclose]
      rfl
    exact ⟨hF, ParseExp_of_ReadF_error hF⟩
  · intro t s e1 op s1 e2 s2 ht h1 hop h2
    have hF : Yields ReadF ("if" :: t :: s) (Error "No Then statement found") := by
      refine ⟨max (4 * (t :: s).length + 4) (4 * s1.length + 4) + 1, ?_, Error_ne_outOfFuel _⟩
      rw [ReadF_if_bare _ ht h1 hop h2 (Nat.le_max_left _ _) (Nat.le_max_right _ _)]
      simp only [MoreTokensExist_cons, ReadToken_cons, StringEqual_rparen_then, Bool.and_false,
        Bool.false_eq_true, if_false]
    exact ⟨hF, ParseExp_of_ReadF_error hF⟩
  · intro t s e1 op s1 h1 htok hop
    have h1b : Yields ReadE (if StringEqual t "(" = true then s else t :: s)
        (.ok (e1, op :: s1)) := by
      by_cases ht : t = "("
      · rw [if_pos ht] at h1
        rw [if_pos ((StringEqual_iff _ _).2 ht)]
        exact h1
      · rw [if_neg ht] at h1
        rw [StringEqual_ne ht]
        exact h1
    have hF := ReadF_if_relOp h1b (not_relOp_firstChar htok hop)
    exact ⟨hF, ParseExp_of_ReadF_error hF⟩
  · intro s e1 op s1 e2 s2 e3 s3 e4 s4 h1 hop h2 h3 h4
    refine ⟨max (max (4 * s.length + 4) (4 * s1.length + 4))
      (max (4 * s2.length + 4) (4 * s3.length + 4)) + 1, ?_, ok_ne_outOfFuel _⟩
    rw [ReadF_if_paren _ h1 hop h2 (by omega) (by omega)]
    simp only [MoreTokensExist_cons, ReadToken_cons, StringEqual_rparen, StringEqual_then,
      Bool.and_self, if_true]
    rw [ReadE_stable h3 _ (by omega)]
    simp only [bind, Except.bind, MoreTokensExist_cons, ReadToken_cons, StringEqual_else,
      Bool.and_self, if_true]
    rw [ReadE_stable h4 _ (by omega)]
    rfl
  · intro t s e1 op s1 e2 s2 e3 s3 e4 s4 ht h1 hop h2 h3 h4
    refine ⟨max (max (4 * (t :: s).length + 4) (4 * s1.length + 4))
      (max (4 * s2.length + 4) (4 * s3.length + 4)) + 1, ?_, ok_ne_outOfFuel _⟩
    rw [ReadF_if_bare _ ht h1 hop h2 (by omega) (by omega)]
    simp only [MoreTokensExist_cons, ReadToken_cons, StringEqual_then, Bool.and_self, if_true]
    rw [ReadE_stable h3 _ (by omega)]
    simp only [bind, Except.bind, MoreTokensExist_cons, ReadToken_cons, StringEqual_else,
      Bool.and_self, if_true]
    rw [ReadE_stable h4 _ (by omega)]
    rfl

theorem ReadF_if_checks_witness :
    Yields ReadF ("if" :: "(" :: ["1", "<", "2", "then", "3", "else", "4"])
      (Error "Unbalanced parenthesis in If-statement") ∧
    ParseExp ("if" :: "(" :: ["1", "<", "2", "then", "3", "else", "4"]) =
      Error "Unbalanced parenthesis in If-statement" :=
  ReadF_if_checks.2.2.1 ["1", "<", "2", "then", "3", "else", "4"] (NewIntegerExp 1) "<"
    ["2", "then", "3", "else", "4"] (NewIntegerExp 2) ["then", "3", "else", "4"]
    ⟨20, rfl, ok_ne_outOfFuel _⟩ (Or.inl rfl) ⟨20, rfl, ok_ne_outOfFuel _⟩ (by decide)

/-! ## Application does not iterate -/

theorem CalleeLe_bind {n : Nat} {α : Type} {x : Except failure α}
    {g : α → Except failure (expADT × scannerADT)} (hg : ∀ a, CalleeLe n (g a)) :
    CalleeLe n (x >>= g) := by
  constructor
  intro e s2 h
  cases x with
  | error err => exact absurd h (by intro h2; cases h2)
  | ok a => exact (hg a).le e s2 h

theorem CalleeLe_ite {n : Nat} {c : Prop} [Decidable c]
    {a b : Except failure (expADT × scannerADT)} (ha : c → CalleeLe n a)
    (hb : ¬c → CalleeLe n b) : CalleeLe n (if c then a else b) := by
  by_cases h : c
  · rw [if_pos h]; exact ha h
  · rw [if_neg h]; exact hb h

theorem CalleeLe_Error {n : Nat} (msg : String) : CalleeLe n (Error msg) :=
  ⟨fun _ _ h => by cases h⟩

theorem CalleeLe_failure {n : Nat} (err : failure) : CalleeLe n (.error err) :=
  ⟨fun _ _ h => by cases h⟩

theorem CalleeLe_pure {n : Nat} {e : expADT} {s : scannerADT} (h : calleeDepth e ≤ n) :
    CalleeLe n (pure (e, s)) :=
  ⟨fun e2 s2 h2 => by cases h2; exact h⟩

/-- A factor that does not begin with an opening parenthesis has at most one
call on its callee side. -/
theorem ReadF_callee (fuel : Nat) (s : scannerADT)
    (h : (firstChar (ReadToken s).1 == '(') = false) : CalleeLe 1 (ReadF fuel s) := by
  cases fuel with
  | zero => exact CalleeLe_failure _
  | succ fuel =>
    rw [ReadF]
    apply CalleeLe_ite <;> intro _
    · exact CalleeLe_Error _
    dsimp only
    rw [if_neg (by rw [h]; exact Bool.false_ne_true)]
    repeat (first
      | exact CalleeLe_Error _
      | exact CalleeLe_failure _
      | exact CalleeLe_pure (by simp [calleeDepth])
      | (apply CalleeLe_ite <;> intro _)
      | (apply CalleeLe_bind; intro _)
      | dsimp only)

/-- The call level wraps what the factor level returns in at most one call. -/
theorem ReadC_wraps (fuel : Nat) (s : scannerADT) (e : expADT) (rest : scannerADT)
    (h : ReadC (fuel + 1) s = .ok (e, rest)) :
    ∃ e0 rest0, ReadF fuel s = .ok (e0, rest0) ∧ (e = e0 ∨ ∃ arg, e = NewCallExp e0 arg) := by
  rw [ReadC] at h
  by_cases hm : (!MoreTokensExist s) = true
  · rw [if_pos hm] at h; cases h
  rw [if_neg hm] at h
  cases hF : ReadF fuel s with
  | error err => rw [hF] at h; cases h
  | ok p =>
    obtain ⟨e0, rest0⟩ := p
    rw [hF] at h
    refine ⟨e0, rest0, rfl, ?_⟩
    simp only [bind, Except.bind] at h
    by_cases h1 : MoreTokensExist rest0 = true
    · rw [if_pos h1] at h
      try dsimp only at h
      by_cases h2 : (firstChar (ReadToken rest0).1 == '(') = true
      · rw [if_pos h2] at h
        cases hE : ReadE fuel (ReadToken rest0).2 with
        | error err => rw [hE] at h; cases h
        | ok q =>
          rw [hE] at h
          try dsimp only at h
          by_cases h3 : (!StringEqual (ReadToken q.2).1 ")") = true
          · rw [if_pos h3] at h; cases h
          · rw [if_neg h3] at h
            cases h
            exact Or.inr ⟨_, rfl⟩
      · rw [if_neg h2] at h
        cases h
        exact Or.inl rfl
    · rw [if_neg h1] at h
      cases h
      exact Or.inl rfl

/-- What the call level returns for a factor that does not begin with an
opening parenthesis has at most two calls on its callee side. -/
theorem ReadC_callee (fuel : Nat) (s : scannerADT) (e : expADT) (rest : scannerADT)
    (hs : (firstChar (ReadToken s).1 == '(') = false) (h : ReadC fuel s = .ok (e, rest)) :
    calleeDepth e ≤ 2 := by
  cases fuel with
  | zero => cases h
  | succ fuel =>
    obtain ⟨e0, rest0, hF, he⟩ := ReadC_wraps fuel s e rest h
    have h0 := (ReadF_callee fuel s hs).le e0 rest0 hF
    rcases he with he | ⟨arg, he⟩
    · rw [he]; omega
    · rw [he]; simp only [calleeDepth]; omega

theorem Argument_extends {a : scannerADT} {A : expADT} (h : Argument a A) (rest : scannerADT) :
    Yields ReadE (a ++ ")" :: rest) (.ok (A, ")" :: rest)) := by
  have h2 := ReadE_extends h rest
  simpa using h2

/-- The factor level reads an integer literal whatever follows it. -/
theorem ReadF_integer (n : String) (v : Int) (rest : scannerADT)
    (hd : (firstChar n).isDigit = true) (hv : StringToInteger n = .ok v) :
    Yields ReadF (n :: rest) (.ok (NewIntegerExp v, rest)) := by
  refine ⟨1, ?_, ok_ne_outOfFuel _⟩
  obtain ⟨h1, h2, h3⟩ := digit_token hd
  simp only [ReadF, MoreTokensExist_cons, ReadToken_cons, Bool.not_true, Bool.false_eq_true,
    if_false, h1, h2, h3, hd, if_true, hv, bind, Except.bind, pure, Except.pure]

/-- The factor level reads a parenthesised expression whatever follows it. -/
theorem ReadF_paren (inner : scannerADT) (e : expADT) (rest : scannerADT)
    (h : Argument inner e) :
    Yields ReadF ("(" :: (inner ++ ")" :: rest)) (.ok (e, rest)) := by
  have h2 := Argument_extends h rest
  refine ⟨4 * (inner ++ ")" :: rest).length + 4 + 1, ?_, ok_ne_outOfFuel _⟩
  rw [ReadF]
  simp only [MoreTokensExist_cons, Bool.not_true, Bool.false_eq_true, if_false, ReadToken_cons]
  rw [ReadE_stable h2 _ (Nat.le_refl _)]
  simp only [show (firstChar "(" == '(') = true from by decide, if_true, bind, Except.bind,
    MoreTokensExist_cons, ReadToken_cons, Bool.true_and,
    show (firstChar ")" == ')') = true from by decide, pure, Except.pure]

/-- The factor level reads an identifier followed by a parenthesised argument
as one call, whatever follows it. -/
theorem ReadF_call (x : String) (a : scannerADT) (A : expADT) (rest : scannerADT)
    (ha : (firstChar x).isAlpha = true) (hif : x ≠ "if") (hfunc : x ≠ "func")
    (h : Argument a A) :
    Yields ReadF (x :: "(" :: (a ++ ")" :: rest))
      (.ok (NewCallExp (NewIdentifierExp x) A, rest)) := by
  have h2 := Argument_extends h rest
  obtain ⟨h1, h3⟩ := alpha_token ha
  refine ⟨4 * (a ++ ")" :: rest).length + 4 + 1, ?_, ok_ne_outOfFuel _⟩
  rw [ReadF]
  simp only [MoreTokensExist_cons, Bool.not_true, Bool.false_eq_true, if_false, ReadToken_cons,
    h1, h3, StringEqual_ne hif, StringEqual_ne hfunc, ha, if_true, StringEqual_lparen]
  rw [ReadE_stable h2 _ (Nat.le_refl _)]
  simp only [bind, Except.bind, MoreTokensExist_cons, ReadToken_cons,
    Bool.true_and, StringEqual_rparen, if_true, pure, Except.pure]

/-- The call level wraps a factor followed by a parenthesised argument in one
call, whatever follows it. -/
theorem ReadC_call {s : scannerADT} {F : expADT} (a : scannerADT) (A : expADT)
    (rest : scannerADT) (hF : Yields ReadF s (.ok (F, "(" :: (a ++ ")" :: rest))))
    (h : Argument a A) : Yields ReadC s (.ok (NewCallExp F A, rest)) := by
  have h2 := Argument_extends h rest
  refine ⟨max (4 * s.length + 1) (4 * (a ++ ")" :: rest).length + 4) + 1, ?_, ok_ne_outOfFuel _⟩
  rw [ReadC, ReadF_stable hF _ (Nat.le_max_left _ _)]
  simp only [ne_nil_of_ReadF hF, Bool.not_true, Bool.false_eq_true, if_false, bind, Except.bind,
    MoreTokensExist_cons, ReadToken_cons, if_true,
    show (firstChar "(" == '(') = true from by decide]
  rw [ReadE_stable h2 _ (Nat.le_max_right _ _)]
  simp only [ReadToken_cons, StringEqual_rparen, Bool.not_true, Bool.false_eq_true, if_false]
  rfl

/-- An opening parenthesis left over by the call level is rejected by
`ParseExp`. -/
theorem ParseExp_trailing_paren {s rest : scannerADT} {e : expADT}
    (h : Yields ReadC s (.ok (e, "(" :: rest))) :
    ParseExp s = Error "ParseExp: ( unexpected" := by
  rw [ParseExp_of_Yields (ReadE_stop (ReadT_stop h (by decide)) (by decide))]
  rfl

theorem ParseExp_of_ReadC {s : scannerADT} {e : expADT}
    (h : Yields ReadC s (.ok (e, []))) : ParseExp s = .ok e :=
  ParseExp_of_ReadE_ok (ReadE_end (ReadT_end h))

theorem CalleeLe_bind_of {n : Nat} {x : Except failure (expADT × scannerADT)}
    {g : expADT × scannerADT → Except failure (expADT × scannerADT)} (hx : CalleeLe n x)
    (hg : ∀ e s, calleeDepth e ≤ n → CalleeLe n (g (e, s))) : CalleeLe n (x >>= g) := by
  constructor
  intro e s2 h
  cases x with
  | error err => exact absurd h (by intro h2; cases h2)
  | ok p => exact (hg p.1 p.2 (hx.le p.1 p.2 rfl)).le e s2 h

theorem ReadC_calleeLe (fuel : Nat) (s : scannerADT)
    (hs : (firstChar (ReadToken s).1 == '(') = false) : CalleeLe 2 (ReadC fuel s) :=
  ⟨fun e rest h => ReadC_callee fuel s e rest hs h⟩

theorem ReadT_callee (fuel : Nat) (s : scannerADT)
    (hs : (firstChar (ReadToken s).1 == '(') = false) : CalleeLe 2 (ReadT fuel s) := by
  cases fuel with
  | zero => exact CalleeLe_failure _
  | succ fuel =>
    rw [ReadT]
    apply CalleeLe_ite <;> intro _
    · exact CalleeLe_Error _
    refine CalleeLe_bind_of (ReadC_calleeLe fuel s hs) ?_
    intro e s2 he
    repeat (first
      | exact CalleeLe_pure he
      | exact CalleeLe_pure (by simp [calleeDepth])
      | (apply CalleeLe_ite <;> intro _)
      | (apply CalleeLe_bind; intro _)
      | dsimp only)

theorem ReadE_callee (fuel : Nat) (s : scannerADT)
    (hs : (firstChar (ReadToken s).1 == '(') = false) : CalleeLe 2 (ReadE fuel s) := by
  cases fuel with
  | zero => exact CalleeLe_failure _
  | succ fuel =>
    rw [ReadE]
    refine CalleeLe_bind_of (ReadT_callee fuel s hs) ?_
    intro e s2 he
    repeat (first
      | exact CalleeLe_pure he
      | exact CalleeLe_pure (by simp [calleeDepth])
      | (apply CalleeLe_ite <;> intro _)
      | (apply CalleeLe_bind; intro _)
      | dsimp only)

theorem ParseExp_callee (s : scannerADT) (e : expADT)
    (hs : (firstChar (ReadToken s).1 == '(') = false) (h : ParseExp s = .ok e) :
    calleeDepth e ≤ 2 := by
  unfold ParseExp at h
  cases hE : ReadE (parseFuel s) s with
  | error err => rw [hE] at h; cases h
  | ok p =>
    rw [hE] at h
    have hp := (ReadE_callee (parseFuel s) s hs).le p.1 p.2 hE
    simp only [bind, Except.bind] at h
    by_cases hm : MoreTokensExist p.2 = true
    · rw [if_pos hm] at h; cases h
    · rw [if_neg hm] at h
      cases h
      exact hp

/-- C20: application does not iterate.  The call level wraps what the factor
level returns in at most one call.  For an integer literal or a parenthesised
expression `F` and an argument `a`, `ParseExp` rejects the stream
`F ( a ) ( b )` at the second opening parenthesis.  For an identifier `f` and
arguments `a`, `b`, the stream `f ( a ) ( b )` parses to
`Call(Call(Identifier f, A), B)` and `f ( a ) ( b ) ( c )` is rejected at the
third opening parenthesis.  For every token stream, what the call level (and
so `ParseExp` at the root) returns for a factor that does not begin with an
opening parenthesis has at most two calls nested on its callee side. -/
theorem application_does_not_iterate :
    (∀ fuel s e rest, ReadC (fuel + 1) s = .ok (e, rest) →
      ∃ e0 rest0, ReadF fuel s = .ok (e0, rest0) ∧ (e = e0 ∨ ∃ arg, e = NewCallExp e0 arg)) ∧
    (∀ n v a A b, (firstChar n).isDigit = true → StringToInteger n = .ok v → Argument a A →
      ParseExp (n :: "(" :: (a ++ ")" :: "(" :: (b ++ [")"]))) =
        Error "ParseExp: ( unexpected") ∧
    (∀ inner e a A b, Argument inner e → Argument a A →
      ParseExp ("(" :: (inner ++ ")" :: "(" :: (a ++ ")" :: "(" :: (b ++ [")"])))) =
        Error "ParseExp: ( unexpected") ∧
    (∀ f a A b B, (firstChar f).isAlpha = true → f ≠ "if" → f ≠ "func" →
      Argument a A → Argument b B →
      ParseExp (f :: "(" :: (a ++ ")" :: "(" :: (b ++ [")"]))) =
        .ok (NewCallExp (NewCallExp (NewIdentifierExp f) A) B)) ∧
    (∀ f a A b B c, (firstChar f).isAlpha = true → f ≠ "if" → f ≠ "func" →
      Argument a A → Argument b B →
      ParseExp (f :: "(" :: (a ++ ")" :: "(" :: (b ++ ")" :: "(" :: (c ++ [")"])))) =
        Error "ParseExp: ( unexpected") ∧
    (∀ fuel s e rest, (firstChar (ReadToken s).1 == '(') = false →
      ReadC fuel s = .ok (e, rest) → calleeDepth e ≤ 2) ∧
    (∀ s e, (firstChar (ReadToken s).1 == '(') = false → ParseExp s = .ok e →
      calleeDepth e ≤ 2) := by
  refine ⟨ReadC_wraps, ?_, ?_, ?_, ?_, ReadC_callee, ParseExp_callee⟩
  · intro n v a A b hd hv ha
    exact ParseExp_trailing_paren (ReadC_call a A _ (ReadF_integer n v _ hd hv) ha)
  · intro inner e a A b hi ha
    exact ParseExp_trailing_paren (ReadC_call a A _ (ReadF_paren inner e _ hi) ha)
  · intro f a A b B hf hif hfunc ha hb
    have h := ReadC_call b B [] (ReadF_call f a A ("(" :: (b ++ [")"])) hf hif hfunc ha) hb
    exact ParseExp_of_ReadC h
  · intro f a A b B c hf hif hfunc ha hb
    exact ParseExp_trailing_paren
      (ReadC_call b B _ (ReadF_call f a A _ hf hif hfunc ha) hb)

theorem application_does_not_iterate_witness :
    ParseExp ["1", "(", "2", ")", "(", "3", ")"] = Error "ParseExp: ( unexpected" ∧
    ParseExp ["(", "1", ")", "(", "2", ")", "(", "3", ")"] = Error "ParseExp: ( unexpected" ∧
    ParseExp ["f", "(", "2", ")", "(", "3", ")"] =
      .ok (NewCallExp (NewCallExp (NewIdentifierExp "f") (NewIntegerExp 2)) (NewIntegerExp 3)) ∧
    ParseExp ["f", "(", "2", ")", "(", "3", ")", "(", "4", ")"] =
      Error "ParseExp: ( unexpected" ∧
    calleeDepth (NewCallExp (NewCallExp (NewIdentifierExp "f") (NewIntegerExp 2))
      (NewIntegerExp 3)) ≤ 2 :=
  ⟨application_does_not_iterate.2.1 "1" 1 ["2"] (NewIntegerExp 2) ["3"] (by decide) rfl
      ⟨20, rfl, ok_ne_outOfFuel _⟩,
   application_does_not_iterate.2.2.1 ["1"] (NewIntegerExp 1) ["2"] (NewIntegerExp 2) ["3"]
      ⟨20, rfl, ok_ne_outOfFuel _⟩ ⟨20, rfl, ok_ne_outOfFuel _⟩,
   application_does_not_iterate.2.2.2.1 "f" ["2"] (NewIntegerExp 2) ["3"] (NewIntegerExp 3)
      (by decide) (by decide) (by decide) ⟨20, rfl, ok_ne_outOfFuel _⟩
      ⟨20, rfl, ok_ne_outOfFuel _⟩,
   application_does_not_iterate.2.2.2.2.1 "f" ["2"] (NewIntegerExp 2) ["3"] (NewIntegerExp 3)
      ["4"] (by decide) (by decide) (by decide) ⟨20, rfl, ok_ne_outOfFuel _⟩
      ⟨20, rfl, ok_ne_outOfFuel _⟩,
   application_does_not_iterate.2.2.2.2.2.2 ["f", "(", "2", ")", "(", "3", ")"] _ (by decide)
      rfl⟩


/-! ## Truncated input -/

theorem ReadE_op_error {s rest : scannerADT} {A : expADT} {o : String} {err : failure}
    (hA : Yields ReadT s (.ok (A, o :: rest)))
    (ho : (firstChar o == '+' || firstChar o == '-') = true)
    (hB : Yields ReadE rest (.error err)) : Yields ReadE s (.error err) := by
  refine ⟨max (4 * s.length + 3) (4 * rest.length + 4) + 1, ?_, hB.choose_spec.2⟩
  rw [ReadE, ReadT_stable hA _ (Nat.le_max_left _ _)]
  simp only [bind, Except.bind, MoreTokensExist_cons, ReadToken_cons, if_true, ho]
  rw [ReadE_stable hB _ (Nat.le_max_right _ _)]

theorem ReadT_op_error {s rest : scannerADT} {A : expADT} {o : String} {err : failure}
    (hA : Yields ReadC s (.ok (A, o :: rest)))
    (ho : (firstChar o == '*' || firstChar o == '/') = true)
    (hB : Yields ReadT rest (.error err)) : Yields ReadT s (.error err) := by
  refine ⟨max (4 * s.length + 2) (4 * rest.length + 3) + 1, ?_, hB.choose_spec.2⟩
  rw [ReadT, ReadC_stable hA _ (Nat.le_max_left _ _)]
  simp only [ne_nil_of_ReadC hA, Bool.not_true, Bool.false_eq_true, if_false, bind, Except.bind,
    MoreTokensExist_cons, ReadToken_cons, if_true, ho]
  rw [ReadT_stable hB _ (Nat.le_max_right _ _)]

theorem ReadC_call_error {s rest : scannerADT} {F : expADT} {t : String} {err : failure}
    (hF : Yields ReadF s (.ok (F, t :: rest))) (ht : (firstChar t == '(') = true)
    (hB : Yields ReadE rest (.error err)) : Yields ReadC s (.error err) := by
  refine ⟨max (4 * s.length + 1) (4 * rest.length + 4) + 1, ?_, hB.choose_spec.2⟩
  rw [ReadC, ReadF_stable hF _ (Nat.le_max_left _ _)]
  simp only [ne_nil_of_ReadF hF, Bool.not_true, Bool.false_eq_true, if_false, bind, Except.bind,
    MoreTokensExist_cons, ReadToken_cons, if_true, ht]
  rw [ReadE_stable hB _ (Nat.le_max_right _ _)]

theorem ParseExp_of_ReadE_error {s : scannerADT} {err : failure}
    (h : Yields ReadE s (.error err)) : ParseExp s = .error err := by
  rw [ParseExp_of_Yields h]
  rfl

theorem Yields_ReadE_nil : Yields ReadE [] (Error "Tried to read empty scanner") :=
  ⟨2, rfl, Error_ne_outOfFuel _⟩

theorem Yields_ReadT_nil : Yields ReadT [] (Error "Tried to read empty scanner") :=
  ⟨1, rfl, Error_ne_outOfFuel _⟩

theorem Yields_ReadE_if :
    Yields ReadE ["if"] (.error (.undefined "ReadF returns no value")) :=
  ⟨4, rfl, fun h => (by cases h)⟩

theorem Yields_ReadT_if :
    Yields ReadT ["if"] (.error (.undefined "ReadF returns no value")) :=
  ⟨3, rfl, fun h => (by cases h)⟩

/-- A stream that ends in `+` or `-` after a term is rejected: the expression
level finds the stream empty. -/
theorem dangling_addOp_rejected (s : scannerADT) (A : expADT) (o : String) (ho : IsAddOp o)
    (h : Yields ReadT s (.ok (A, [o]))) :
    ParseExp s = Error "Tried to read empty scanner" :=
  ParseExp_of_ReadE_error (ReadE_op_error h (addOp_firstChar ho).1 Yields_ReadE_nil)

/-- A stream that ends in `*` or `/` after a call-level operand is rejected. -/
theorem dangling_mulOp_rejected (s : scannerADT) (A : expADT) (o : String) (ho : IsMulOp o)
    (h : Yields ReadC s (.ok (A, [o]))) :
    ParseExp s = Error "Tried to read empty scanner" :=
  ParseExp_of_ReadE_error (ReadE_error (ReadT_op_error h (mulOp_firstChar ho).1 Yields_ReadT_nil))

/-- A stream that ends in the opening parenthesis of a call is rejected. -/
theorem dangling_call_rejected (s : scannerADT) (F : expADT)
    (h : Yields ReadF s (.ok (F, ["("]))) :
    ParseExp s = Error "Tried to read empty scanner" :=
  ParseExp_of_ReadE_error
    (ReadE_error (ReadT_error (ReadC_call_error h (by decide) Yields_ReadE_nil)))

/-- A stream that ends in the keyword "if" after `+` or `-` is not rejected:
the value of the factor is undefined. -/
theorem dangling_if_undefined (s : scannerADT) (A : expADT) (o : String) (ho : IsAddOp o)
    (h : Yields ReadT s (.ok (A, [o, "if"]))) :
    ParseExp s = .error (.undefined "ReadF returns no value") :=
  ParseExp_of_ReadE_error (ReadE_op_error h (addOp_firstChar ho).1 Yields_ReadE_if)

/-- A stream that ends in the keyword "if" after `*` or `/` is not rejected
either. -/
theorem dangling_if_undefined_term (s : scannerADT) (A : expADT) (o : String) (ho : IsMulOp o)
    (h : Yields ReadC s (.ok (A, [o, "if"]))) :
    ParseExp s = .error (.undefined "ReadF returns no value") :=
  ParseExp_of_ReadE_error (ReadE_error (ReadT_op_error h (mulOp_firstChar ho).1 Yields_ReadT_if))

/-- C11: a stream that ends in the keyword "if" where a factor is expected is
not rejected with a syntax error: `ReadF` tests `MoreTokensExist` after the
keyword and, when no token is left, reaches its end without a `return` and
without calling `Error`, so the value it gives back is undefined.  The other
truncated streams (the empty one, one ending in an operator or in an opening
parenthesis) are rejected with "Tried to read empty scanner". -/
theorem truncated_if_not_rejected :
    ParseExp ["if"] = .error (.undefined "ReadF returns no value") ∧
    ParseExp ["1", "+", "if"] = .error (.undefined "ReadF returns no value") ∧
    ParseExp ["(", "if"] = .error (.undefined "ReadF returns no value") ∧
    ParseExp ["if", "1", "<", "2", "then", "if"] =
      .error (.undefined "ReadF returns no value") ∧
    (∀ msg, ParseExp ["if"] ≠ Error msg) ∧
    ParseExp [] = Error "Tried to read empty scanner" ∧
    ParseExp ["1", "+"] = Error "Tried to read empty scanner" ∧
    ParseExp ["1", "-"] = Error "Tried to read empty scanner" ∧
    ParseExp ["1", "*"] = Error "Tried to read empty scanner" ∧
    ParseExp ["1", "/"] = Error "Tried to read empty scanner" ∧
    ParseExp ["("] = Error "Tried to read empty scanner" ∧
    ParseExp ["f", "("] = Error "Tried to read empty scanner" ∧
    ParseExp ["1", "("] = Error "Tried to read empty scanner" := by
  refine ⟨rfl, rfl, rfl, rfl, ?_, rfl, rfl, rfl, rfl, rfl, rfl, rfl, rfl⟩
  intro msg h
  have h2 : ParseExp ["if"] = .error (.undefined "ReadF returns no value") := rfl
  rw [h2] at h
  cases h

/-! ## The evaluator: independence of the fuel -/

/-- One more unit of fuel changes no result of `Eval` but `outOfFuel`. -/
theorem Eval_fuel_succ (f : Nat) (st : evalState) (exp : expADT) (env : environmentADT) :
    FuelLe (Eval f st exp env) (Eval (f + 1) st exp env) := by
  induction f generalizing st exp env with
  | zero =>
    unfold Eval
    split
    · exact FuelLe_refl _
    · exact Or.inl rfl
  | succ f ih =>
    rw [Eval, Eval]
    apply FuelLe_ite <;> intro _
    · exact FuelLe_refl _
    dsimp only
    cases exp with
    | NewIntegerExp n => exact FuelLe_refl _
    | NewFuncExp formalArg body => exact FuelLe_refl _
    | NewIdentifierExp id =>
      simp only [EvalIdentifier]
      repeat (first
        | exact FuelLe_refl _
        | exact ih _ _ _
        | apply FuelLe_bind (ih _ _ _)
        | apply FuelLe_bind (FuelLe_refl _)
        | (apply FuelLe_ite <;> intro _)
        | rintro ⟨_, _⟩
        | intro _
        | dsimp only)
    | NewCompoundExp op lhs rhs =>
      simp only [EvalCompound]
      repeat (first
        | exact FuelLe_refl _
        | exact ih _ _ _
        | apply FuelLe_bind (ih _ _ _)
        | apply FuelLe_bind (FuelLe_refl _)
        | (apply FuelLe_ite <;> intro _)
        | rintro ⟨_, _⟩
        | intro _
        | dsimp only)
    | NewIfExp lhs relOp rhs thenPart elsePart =>
      simp only [EvalIfExp]
      repeat (first
        | exact FuelLe_refl _
        | exact ih _ _ _
        | apply FuelLe_bind (ih _ _ _)
        | apply FuelLe_bind (FuelLe_refl _)
        | (apply FuelLe_ite <;> intro _)
        | rintro ⟨_, _⟩
        | intro _
        | dsimp only)
    | NewCallExp func arg =>
      simp only [evalCall]
      repeat (first
        | exact FuelLe_refl _
        | exact ih _ _ _
        | apply FuelLe_bind (ih _ _ _)
        | apply FuelLe_bind (FuelLe_refl _)
        | (apply FuelLe_ite <;> intro _)
        | rintro ⟨_, _⟩
        | intro _
        | dsimp only)

theorem Eval_fuel_le {f f2 : Nat} (h : f ≤ f2) (st : evalState) (exp : expADT)
    (env : environmentADT) : FuelLe (Eval f st exp env) (Eval f2 st exp env) := by
  induction h with
  | refl => exact FuelLe_refl _
  | step _ ih => exact FuelLe_trans ih (Eval_fuel_succ _ _ _ _)

/-- Fuel that covers what the counter leaves gives the result of `EvalTotal`. -/
theorem Eval_eq_total (f : Nat) (st : evalState) (exp : expADT) (env : environmentADT)
    (h : 1001 ≤ st.recursions + f) : Eval f st exp env = EvalTotal st exp env := by
  have h1 : (1001 - st.recursions).toNat ≤ f := by omega
  have h2 := Eval_hasFuel (1001 - st.recursions).toNat st exp env (by omega)
  rcases Eval_fuel_le h1 st exp env with h3 | h3
  · exact absurd h3 h2.ne
  · exact h3.symm

theorem Evaluating_eq_total (st : evalState) (exp : expADT) (env : environmentADT) :
    Evaluating st exp env = EvalTotal { st with recursions := 0 } exp env := rfl

theorem EvalTotal_hasFuel (st : evalState) (exp : expADT) (env : environmentADT) :
    EvalTotal st exp env ≠ .error .outOfFuel :=
  (Eval_hasFuel _ st exp env (by omega)).ne

theorem EvalTotal_counter (st : evalState) (exp : expADT) (env : environmentADT) :
    CounterGe (st.recursions + 1) (EvalTotal st exp env) :=
  Eval_counter _ st exp env

theorem bind_congr_counter {β : Type} {m : Int} {x x2 : Except failure (valueADT × evalState)}
    {g g2 : valueADT × evalState → Except failure β} (hx : x = x2) (hc : CounterGe m x)
    (hg : ∀ v st, m ≤ st.recursions → g (v, st) = g2 (v, st)) : x >>= g = x2 >>= g2 := by
  subst hx
  cases x with
  | error err => rfl
  | ok a => exact hg a.1 a.2 (hc.ge a.1 a.2 rfl)

theorem bind_congr_other {α β : Type} {x : Except failure α} {g g2 : α → Except failure β}
    (hg : ∀ a, g a = g2 a) : x >>= g = x >>= g2 := by
  cases x with
  | error err => rfl
  | ok a => exact hg a

theorem ite_congr_branches {β : Type} {c : Prop} [Decidable c] {a a2 b b2 : β}
    (ha : c → a = a2) (hb : ¬c → b = b2) : (if c then a else b) = (if c then a2 else b2) := by
  by_cases h : c
  · rw [if_pos h, if_pos h]; exact ha h
  · rw [if_neg h, if_neg h]; exact hb h

theorem EvalTotal_guard (st : evalState) (exp : expADT) (env : environmentADT)
    (h : st.recursions > 1000) : EvalTotal st exp env = stackOverflow := by
  unfold EvalTotal Eval
  rw [if_pos h]
  rfl

theorem EvalTotal_unfold (st : evalState) (exp : expADT) (env : environmentADT)
    (h : st.recursions ≤ 1000) :
    EvalTotal st exp env = Eval ((1000 - st.recursions).toNat + 1) st exp env := by
  unfold EvalTotal
  congr 1
  omega

theorem Eval_entered (f : Nat) (st : evalState) (exp : expADT) (env : environmentADT)
    (h : st.recursions ≤ 1000) :
    Eval (f + 1) st exp env =
      match exp with
      | NewIntegerExp n => .ok (NewIntegerValue n, entered st)
      | NewIdentifierExp id => EvalIdentifier (Eval f) (entered st) id env
      | NewCompoundExp op lhs rhs => EvalCompound (Eval f) (entered st) op lhs rhs env
      | NewFuncExp formalArg body =>
        evalFunc (NewClosure (entered st) env).2 formalArg body (NewClosure (entered st) env).1
      | NewIfExp lhs relOp rhs thenPart elsePart =>
        EvalIfExp (Eval f) (NewClosure (entered st) env).2 relOp lhs rhs thenPart elsePart
          (NewClosure (entered st) env).1
      | NewCallExp func arg => evalCall (Eval f) (entered st) func arg env := by
  rw [Eval, if_neg (by omega)]
  cases exp <;> rfl

theorem EvalTotal_integer (st : evalState) (n : Int) (env : environmentADT)
    (h : st.recursions ≤ 1000) :
    EvalTotal st (NewIntegerExp n) env = .ok (NewIntegerValue n, entered st) := by
  rw [EvalTotal_unfold st _ env h, Eval_entered _ st _ env h]

theorem EvalTotal_func (st : evalState) (formalArg : String) (body : expADT)
    (env : environmentADT) (h : st.recursions ≤ 1000) :
    EvalTotal st (NewFuncExp formalArg body) env =
      .ok (NewFuncValue formalArg body st.scopes,
        { entered st with scopes := st.scopes + 1 }) := by
  rw [EvalTotal_unfold st _ env h, Eval_entered _ st _ env h]
  rfl

theorem EvalTotal_identifier (st : evalState) (id : String) (env : environmentADT)
    (h : st.recursions ≤ 1000) :
    EvalTotal st (NewIdentifierExp id) env = EvalIdentifier EvalTotal (entered st) id env := by
  rw [EvalTotal_unfold st _ env h, Eval_entered _ st _ env h]
  have ihc : ∀ (f : Nat) (st : evalState) (exp : expADT) (env : environmentADT),
      CounterGe st.recursions (Eval f st exp env) :=
    fun f st exp env => CounterGe_mono (Eval_counter f st exp env) (by omega)
  simp only [EvalIdentifier]
  repeat (first
    | with_reducible rfl
    | (apply Eval_eq_total; simp only [entered, DefineIdentifier, NewClosure] at *; omega)
    | refine bind_congr_counter (Eval_eq_total _ _ _ _ ?_) (ihc _ _ _ _) ?_
    | refine bind_congr_other ?_
    | (apply ite_congr_branches <;> intro _)
    | intro _ _ _
    | intro _
    | (simp only [entered, DefineIdentifier, NewClosure] at *; omega)
    | dsimp only)

theorem EvalTotal_compound (st : evalState) (op : Char) (lhs rhs : expADT)
    (env : environmentADT) (h : st.recursions ≤ 1000) :
    EvalTotal st (NewCompoundExp op lhs rhs) env =
      EvalCompound EvalTotal (entered st) op lhs rhs env := by
  rw [EvalTotal_unfold st _ env h, Eval_entered _ st _ env h]
  have ihc : ∀ (f : Nat) (st : evalState) (exp : expADT) (env : environmentADT),
      CounterGe st.recursions (Eval f st exp env) :=
    fun f st exp env => CounterGe_mono (Eval_counter f st exp env) (by omega)
  simp only [EvalCompound]
  repeat (first
    | with_reducible rfl
    | (apply Eval_eq_total; simp only [entered, DefineIdentifier, NewClosure] at *; omega)
    | refine bind_congr_counter (Eval_eq_total _ _ _ _ ?_) (ihc _ _ _ _) ?_
    | refine bind_congr_other ?_
    | (apply ite_congr_branches <;> intro _)
    | intro _ _ _
    | intro _
    | (simp only [entered, DefineIdentifier, NewClosure] at *; omega)
    | dsimp only)

theorem EvalTotal_if (st : evalState) (relOp : Char) (lhs rhs thenPart elsePart : expADT)
    (env : environmentADT) (h : st.recursions ≤ 1000) :
    EvalTotal st (NewIfExp lhs relOp rhs thenPart elsePart) env =
      EvalIfExp EvalTotal (NewClosure (entered st) env).2 relOp lhs rhs thenPart elsePart
        (NewClosure (entered st) env).1 := by
  rw [EvalTotal_unfold st _ env h, Eval_entered _ st _ env h]
  have ihc : ∀ (f : Nat) (st : evalState) (exp : expADT) (env : environmentADT),
      CounterGe st.recursions (Eval f st exp env) :=
    fun f st exp env => CounterGe_mono (Eval_counter f st exp env) (by omega)
  simp only [EvalIfExp]
  repeat (first
    | with_reducible rfl
    | (apply Eval_eq_total; simp only [entered, DefineIdentifier, NewClosure] at *; omega)
    | refine bind_congr_counter (Eval_eq_total _ _ _ _ ?_) (ihc _ _ _ _) ?_
    | refine bind_congr_other ?_
    | (apply ite_congr_branches <;> intro _)
    | intro _ _ _
    | intro _
    | (simp only [entered, DefineIdentifier, NewClosure] at *; omega)
    | dsimp only)

theorem EvalTotal_call (st : evalState) (func arg : expADT)
    (env : environmentADT) (h : st.recursions ≤ 1000) :
    EvalTotal st (NewCallExp func arg) env = evalCall EvalTotal (entered st) func arg env := by
  rw [EvalTotal_unfold st _ env h, Eval_entered _ st _ env h]
  have ihc : ∀ (f : Nat) (st : evalState) (exp : expADT) (env : environmentADT),
      CounterGe st.recursions (Eval f st exp env) :=
    fun f st exp env => CounterGe_mono (Eval_counter f st exp env) (by omega)
  simp only [evalCall]
  repeat (first
    | with_reducible rfl
    | (apply Eval_eq_total; simp only [entered, DefineIdentifier, NewClosure] at *; omega)
    | refine bind_congr_counter (Eval_eq_total _ _ _ _ ?_) (ihc _ _ _ _) ?_
    | refine bind_congr_other ?_
    | (apply ite_congr_branches <;> intro _)
    | intro _ _ _
    | intro _
    | (simp only [entered, DefineIdentifier, NewClosure] at *; omega)
    | dsimp only)


/-! ## Arithmetic -/

/-- What `EvalCompound` returns when its operands evaluate to the integers
`l` and `r`, for any evaluator of the operands. -/
theorem EvalCompound_ints (eval : evalFn) (st st2 st3 : evalState) (op : Char)
    (lhs rhs : expADT) (env : environmentADT) (l r : Int)
    (hl : eval st lhs env = .ok (NewIntegerValue l, st2))
    (hr : eval st2 rhs env = .ok (NewIntegerValue r, st3)) :
    EvalCompound eval st op lhs rhs env =
      if op = '+' then (intResult (l + r)).map (fun x => (NewIntegerValue x, st3))
      else if op = '-' then (intResult (l - r)).map (fun x => (NewIntegerValue x, st3))
      else if op = '*' then (intResult (l * r)).map (fun x => (NewIntegerValue x, st3))
      else if op = '/' then
        if r ≠ 0 then (intResult (Int.tdiv l r)).map (fun x => (NewIntegerValue x, st3))
        else Error "Division by zero!"
      else Error "Illegal operator" := by
  simp only [EvalCompound, hl, hr, bind, Except.bind, GetIntValue]
  repeat (first
    | with_reducible rfl
    | (apply ite_congr_branches <;> intro _)
    | (cases intResult _ <;> rfl))

theorem intResult_ok {x : Int} (h1 : INT_MIN ≤ x) (h2 : x ≤ INT_MAX) : intResult x = .ok x := by
  unfold intResult
  rw [if_pos ⟨h1, h2⟩]

theorem intResult_overflow {x : Int} (h : ¬(INT_MIN ≤ x ∧ x ≤ INT_MAX)) :
    intResult x = .error (.undefined "signed integer overflow") := by
  unfold intResult
  rw [if_neg h]

theorem intResult_map_ne_Error (x : Int) (st : evalState) (msg : String) :
    (intResult x).map (fun y => (NewIntegerValue y, st)) ≠ Error msg := by
  unfold intResult
  split
  · intro h; cases h
  · intro h; cases h

/-- Counterexample to C12 as stated: the operands of "2147483647 + 1" evaluate
to the integers 2147483647 and 1, but their sum is outside the range of `int`
and the evaluation does not return it. -/
theorem sum_overflows :
    ParseExp ["2147483647", "+", "1"] =
      .ok (NewCompoundExp '+' (NewIntegerExp 2147483647) (NewIntegerExp 1)) ∧
    EvalTotal (entered startState) (NewIntegerExp 2147483647) 0 =
      .ok (NewIntegerValue 2147483647, ⟨2, 1, []⟩) ∧
    EvalTotal ⟨2, 1, []⟩ (NewIntegerExp 1) 0 = .ok (NewIntegerValue 1, ⟨3, 1, []⟩) ∧
    Evaluating startState (NewCompoundExp '+' (NewIntegerExp 2147483647) (NewIntegerExp 1)) 0 =
      .error (.undefined "signed integer overflow") ∧
    Evaluating startState (NewCompoundExp '+' (NewIntegerExp 2147483647) (NewIntegerExp 1)) 0 ≠
      .ok (NewIntegerValue (2147483647 + 1), ⟨3, 1, []⟩) := by
  refine ⟨rfl, ?_, ?_, rfl, ?_⟩
  · exact EvalTotal_integer _ _ _ (by decide)
  · exact EvalTotal_integer _ _ _ (by decide)
  · intro h
    have h2 : Evaluating startState
        (NewCompoundExp '+' (NewIntegerExp 2147483647) (NewIntegerExp 1)) 0 =
        .error (.undefined "signed integer overflow") := rfl
    rw [h2] at h
    cases h

/-- C12, amended: for a Compound whose operands evaluate to the integers `l`
and `r` with the invocation let through by the recursion guard, `/` fails with
the division-by-zero error when `r = 0` and returns the quotient of `l` by `r`
truncated toward zero when `r ≠ 0` and that quotient is in the range of `int`;
`+`, `-`, `*` return `l + r`, `l - r`, `l * r` when that number is in the range
of `int`, and never fail with the division error.  A result outside the range
of `int` is a signed overflow and is not returned.  The parse of "5 / 0" fails
with the division-by-zero error. -/
theorem Compound_arithmetic (st st2 st3 : evalState) (lhs rhs : expADT) (env : environmentADT)
    (l r : Int) (hst : st.recursions ≤ 1000)
    (hl : EvalTotal (entered st) lhs env = .ok (NewIntegerValue l, st2))
    (hr : EvalTotal st2 rhs env = .ok (NewIntegerValue r, st3)) :
    (r = 0 → EvalTotal st (NewCompoundExp '/' lhs rhs) env = Error "Division by zero!") ∧
    (r ≠ 0 → INT_MIN ≤ Int.tdiv l r → Int.tdiv l r ≤ INT_MAX →
      EvalTotal st (NewCompoundExp '/' lhs rhs) env =
        .ok (NewIntegerValue (Int.tdiv l r), st3)) ∧
    (INT_MIN ≤ l + r → l + r ≤ INT_MAX →
      EvalTotal st (NewCompoundExp '+' lhs rhs) env = .ok (NewIntegerValue (l + r), st3)) ∧
    (INT_MIN ≤ l - r → l - r ≤ INT_MAX →
      EvalTotal st (NewCompoundExp '-' lhs rhs) env = .ok (NewIntegerValue (l - r), st3)) ∧
    (INT_MIN ≤ l * r → l * r ≤ INT_MAX →
      EvalTotal st (NewCompoundExp '*' lhs rhs) env = .ok (NewIntegerValue (l * r), st3)) ∧
    (¬(INT_MIN ≤ l + r ∧ l + r ≤ INT_MAX) →
      EvalTotal st (NewCompoundExp '+' lhs rhs) env =
        .error (.undefined "signed integer overflow")) ∧
    (¬(INT_MIN ≤ l - r ∧ l - r ≤ INT_MAX) →
      EvalTotal st (NewCompoundExp '-' lhs rhs) env =
        .error (.undefined "signed integer overflow")) ∧
    (¬(INT_MIN ≤ l * r ∧ l * r ≤ INT_MAX) →
      EvalTotal st (NewCompoundExp '*' lhs rhs) env =
        .error (.undefined "signed integer overflow")) ∧
    (r ≠ 0 → ¬(INT_MIN ≤ Int.tdiv l r ∧ Int.tdiv l r ≤ INT_MAX) →
      EvalTotal st (NewCompoundExp '/' lhs rhs) env =
        .error (.undefined "signed integer overflow")) ∧
    (∀ op, op = '+' ∨ op = '-' ∨ op = '*' →
      EvalTotal st (NewCompoundExp op lhs rhs) env ≠ Error "Division by zero!") ∧
    ParseExp ["5", "/", "0"] = .ok (NewCompoundExp '/' (NewIntegerExp 5) (NewIntegerExp 0)) ∧
    (∀ st0 env0, Evaluating st0 (NewCompoundExp '/' (NewIntegerExp 5) (NewIntegerExp 0)) env0 =
      Error "Division by zero!") := by
  have key := fun op => (EvalTotal_compound st op lhs rhs env hst).trans
    (EvalCompound_ints EvalTotal _ _ _ op lhs rhs env l r hl hr)
  refine ⟨?_, ?_, ?_, ?_, ?_, ?_, ?_, ?_, ?_, ?_, rfl, fun _ _ => rfl⟩
  · intro h0
    rw [key, if_neg (by decide), if_neg (by decide), if_neg (by decide), if_pos rfl,
      if_neg (by simpa using h0)]
  · intro h0 h1 h2
    rw [key, if_neg (by decide), if_neg (by decide), if_neg (by decide), if_pos rfl,
      if_pos h0, intResult_ok h1 h2]
    rfl
  · intro h1 h2
    rw [key, if_pos rfl, intResult_ok h1 h2]
    rfl
  · intro h1 h2
    rw [key, if_neg (by decide), if_pos rfl, intResult_ok h1 h2]
    rfl
  · intro h1 h2
    rw [key, if_neg (by decide), if_neg (by decide), if_pos rfl, intResult_ok h1 h2]
    rfl
  · intro h
    rw [key, if_pos rfl, intResult_overflow h]
    rfl
  · intro h
    rw [key, if_neg (by decide), if_pos rfl, intResult_overflow h]
    rfl
  · intro h
    rw [key, if_neg (by decide), if_neg (by decide), if_pos rfl, intResult_overflow h]
    rfl
  · intro h0 h
    rw [key, if_neg (by decide), if_neg (by decide), if_neg (by decide), if_pos rfl,
      if_pos h0, intResult_overflow h]
    rfl
  · intro op hop
    rw [key]
    rcases hop with rfl | rfl | rfl
    · rw [if_pos rfl]; exact intResult_map_ne_Error _ _ _
    · rw [if_neg (by decide), if_pos rfl]; exact intResult_map_ne_Error _ _ _
    · rw [if_neg (by decide), if_neg (by decide), if_pos rfl]
      exact intResult_map_ne_Error _ _ _

theorem Compound_arithmetic_witness :
    EvalTotal startState (NewCompoundExp '/' (NewIntegerExp 7) (NewIntegerExp 2)) 0 =
      .ok (NewIntegerValue 3, ⟨3, 1, []⟩) ∧
    EvalTotal startState (NewCompoundExp '/' (NewIntegerExp 7) (NewIntegerExp 0)) 0 =
      Error "Division by zero!" ∧
    EvalTotal startState (NewCompoundExp '*' (NewIntegerExp 7) (NewIntegerExp 2)) 0 =
      .ok (NewIntegerValue 14, ⟨3, 1, []⟩) :=
  ⟨(Compound_arithmetic startState ⟨2, 1, []⟩ ⟨3, 1, []⟩ (NewIntegerExp 7) (NewIntegerExp 2) 0
      7 2 (by decide) (EvalTotal_integer _ _ _ (by decide))
      (EvalTotal_integer _ _ _ (by decide))).2.1 (by decide) (by decide) (by decide),
   (Compound_arithmetic startState ⟨2, 1, []⟩ ⟨3, 1, []⟩ (NewIntegerExp 7) (NewIntegerExp 0) 0
      7 0 (by decide) (EvalTotal_integer _ _ _ (by decide))
      (EvalTotal_integer _ _ _ (by decide))).1 rfl,
   (Compound_arithmetic startState ⟨2, 1, []⟩ ⟨3, 1, []⟩ (NewIntegerExp 7) (NewIntegerExp 2) 0
      7 2 (by decide) (EvalTotal_integer _ _ _ (by decide))
      (EvalTotal_integer _ _ _ (by decide))).2.2.2.2.1 (by decide) (by decide)⟩


/-! ## Conditionals -/

/-- What `EvalIfExp` returns when its operands evaluate to the integers `l`
and `r`, for any evaluator of the operands and branches. -/
theorem EvalIfExp_ints (eval : evalFn) (st st2 st3 : evalState) (op : Char)
    (lhs rhs thenPart elsePart : expADT) (env : environmentADT) (l r : Int)
    (hl : eval st lhs env = .ok (NewIntegerValue l, st2))
    (hr : eval st2 rhs env = .ok (NewIntegerValue r, st3)) :
    EvalIfExp eval st op lhs rhs thenPart elsePart env =
      if op = '<' then (if l < r then eval st3 thenPart env else eval st3 elsePart env)
      else if op = '=' then (if l = r then eval st3 thenPart env else eval st3 elsePart env)
      else if op = '>' then (if l > r then eval st3 thenPart env else eval st3 elsePart env)
      else Error "Unknown operator" := by
  simp only [EvalIfExp, hl, hr, bind, Except.bind, GetIntValue]

theorem EvalIfExp_then (eval : evalFn) (st st2 st3 : evalState) (op : Char)
    (lhs rhs thenPart elsePart : expADT) (env : environmentADT) (l r : Int)
    (hl : eval st lhs env = .ok (NewIntegerValue l, st2))
    (hr : eval st2 rhs env = .ok (NewIntegerValue r, st3)) (h : relHolds op l r) :
    EvalIfExp eval st op lhs rhs thenPart elsePart env = eval st3 thenPart env := by
  rw [EvalIfExp_ints eval st st2 st3 op lhs rhs thenPart elsePart env l r hl hr]
  rcases h with ⟨rfl, h⟩ | ⟨rfl, h⟩ | ⟨rfl, h⟩
  · rw [if_pos rfl, if_pos h]
  · rw [if_neg (by decide), if_pos rfl, if_pos h]
  · rw [if_neg (by decide), if_neg (by decide), if_pos rfl, if_pos h]

theorem EvalIfExp_else (eval : evalFn) (st st2 st3 : evalState) (op : Char)
    (lhs rhs thenPart elsePart : expADT) (env : environmentADT) (l r : Int)
    (hl : eval st lhs env = .ok (NewIntegerValue l, st2))
    (hr : eval st2 rhs env = .ok (NewIntegerValue r, st3))
    (hop : op = '<' ∨ op = '=' ∨ op = '>') (h : ¬relHolds op l r) :
    EvalIfExp eval st op lhs rhs thenPart elsePart env = eval st3 elsePart env := by
  rw [EvalIfExp_ints eval st st2 st3 op lhs rhs thenPart elsePart env l r hl hr]
  rcases hop with rfl | rfl | rfl
  · rw [if_pos rfl, if_neg (fun h2 => h (Or.inl ⟨rfl, h2⟩))]
  · rw [if_neg (by decide), if_pos rfl, if_neg (fun h2 => h (Or.inr (Or.inl ⟨rfl, h2⟩)))]
  · rw [if_neg (by decide), if_neg (by decide), if_pos rfl,
      if_neg (fun h2 => h (Or.inr (Or.inr ⟨rfl, h2⟩)))]

theorem EvalTotal_if_child (st : evalState) (relOp : Char)
    (lhs rhs thenPart elsePart : expADT) (env : environmentADT) (h : st.recursions ≤ 1000) :
    EvalTotal st (NewIfExp lhs relOp rhs thenPart elsePart) env =
      EvalIfExp EvalTotal (childState st env) relOp lhs rhs thenPart elsePart
        (childScope st env) :=
  EvalTotal_if st relOp lhs rhs thenPart elsePart env h

/-- C13: a Conditional evaluates exactly one branch.  When the invocation is
let through by the recursion guard and the operands evaluate (in the child
scope) to the integers `l` and `r`, the result is that of the then-branch if
`l relOp r` holds and that of the else-branch otherwise, each evaluated in the
child scope in the state the operands left; the branch not taken is not
evaluated, so the result is the same whatever expression stands there.  The
parse of "if 1 < 2 then 10 else (5/0)" evaluates to 10. -/
theorem Conditional_one_branch (st st2 st3 : evalState) (op : Char)
    (lhs rhs thenPart elsePart : expADT) (env : environmentADT) (l r : Int)
    (hst : st.recursions ≤ 1000) (hop : op = '<' ∨ op = '=' ∨ op = '>')
    (hl : EvalTotal (childState st env) lhs (childScope st env) = .ok (NewIntegerValue l, st2))
    (hr : EvalTotal st2 rhs (childScope st env) = .ok (NewIntegerValue r, st3)) :
    (relHolds op l r →
      EvalTotal st (NewIfExp lhs op rhs thenPart elsePart) env =
        EvalTotal st3 thenPart (childScope st env) ∧
      ∀ other, EvalTotal st (NewIfExp lhs op rhs thenPart other) env =
        EvalTotal st (NewIfExp lhs op rhs thenPart elsePart) env) ∧
    (¬relHolds op l r →
      EvalTotal st (NewIfExp lhs op rhs thenPart elsePart) env =
        EvalTotal st3 elsePart (childScope st env) ∧
      ∀ other, EvalTotal st (NewIfExp lhs op rhs other elsePart) env =
        EvalTotal st (NewIfExp lhs op rhs thenPart elsePart) env) ∧
    ParseExp ["if", "1", "<", "2", "then", "10", "else", "(", "5", "/", "0", ")"] =
      .ok (NewIfExp (NewIntegerExp 1) '<' (NewIntegerExp 2) (NewIntegerExp 10)
        (NewCompoundExp '/' (NewIntegerExp 5) (NewIntegerExp 0))) ∧
    (∀ st0 env0, ∃ st1, Evaluating st0 (NewIfExp (NewIntegerExp 1) '<' (NewIntegerExp 2)
        (NewIntegerExp 10) (NewCompoundExp '/' (NewIntegerExp 5) (NewIntegerExp 0))) env0 =
      .ok (NewIntegerValue 10, st1)) := by
  refine ⟨fun h => ⟨?_, fun other => ?_⟩, fun h => ⟨?_, fun other => ?_⟩, rfl,
    fun _ _ => ⟨_, rfl⟩⟩
  · rw [EvalTotal_if_child _ _ _ _ _ _ _ hst, EvalIfExp_then EvalTotal _ _ _ _ _ _ _ _ _ l r hl hr h]
  · rw [EvalTotal_if_child _ _ _ _ _ _ _ hst, EvalTotal_if_child _ _ _ _ _ _ _ hst,
      EvalIfExp_then EvalTotal _ _ _ _ _ _ _ _ _ l r hl hr h,
      EvalIfExp_then EvalTotal _ _ _ _ _ _ _ _ _ l r hl hr h]
  · rw [EvalTotal_if_child _ _ _ _ _ _ _ hst,
      EvalIfExp_else EvalTotal _ _ _ _ _ _ _ _ _ l r hl hr hop h]
  · rw [EvalTotal_if_child _ _ _ _ _ _ _ hst, EvalTotal_if_child _ _ _ _ _ _ _ hst,
      EvalIfExp_else EvalTotal _ _ _ _ _ _ _ _ _ l r hl hr hop h,
      EvalIfExp_else EvalTotal _ _ _ _ _ _ _ _ _ l r hl hr hop h]

theorem Conditional_one_branch_witness :
    EvalTotal startState (NewIfExp (NewIntegerExp 1) '<' (NewIntegerExp 2) (NewIntegerExp 10)
        (NewCompoundExp '/' (NewIntegerExp 5) (NewIntegerExp 0))) 0 =
      EvalTotal ⟨3, 2, []⟩ (NewIntegerExp 10) 1 ∧
    EvalTotal startState (NewIfExp (NewIntegerExp 2) '<' (NewIntegerExp 1)
        (NewCompoundExp '/' (NewIntegerExp 5) (NewIntegerExp 0)) (NewIntegerExp 10)) 0 =
      EvalTotal ⟨3, 2, []⟩ (NewIntegerExp 10) 1 :=
  ⟨((Conditional_one_branch startState ⟨2, 2, []⟩ ⟨3, 2, []⟩ '<' (NewIntegerExp 1)
      (NewIntegerExp 2) (NewIntegerExp 10)
      (NewCompoundExp '/' (NewIntegerExp 5) (NewIntegerExp 0)) 0 1 2 (by decide)
      (Or.inl rfl) (EvalTotal_integer _ _ _ (by decide))
      (EvalTotal_integer _ _ _ (by decide))).1 (Or.inl ⟨rfl, by decide⟩)).1,
   ((Conditional_one_branch startState ⟨2, 2, []⟩ ⟨3, 2, []⟩ '<' (NewIntegerExp 2)
      (NewIntegerExp 1) (NewCompoundExp '/' (NewIntegerExp 5) (NewIntegerExp 0))
      (NewIntegerExp 10) 0 2 1 (by decide)
      (Or.inl rfl) (EvalTotal_integer _ _ _ (by decide))
      (EvalTotal_integer _ _ _ (by decide))).2.1
      (by unfold relHolds; decide)).1⟩


/-! ## Calls and identifiers -/

theorem evalCall_func (eval : evalFn) (st st2 : evalState) (func arg : expADT)
    (env : environmentADT) (x : String) (body : expADT) (s : environmentADT)
    (h : eval st func env = .ok (NewFuncValue x body s, st2)) :
    evalCall eval st func arg env = eval (DefineIdentifier st2 s x arg env) body s := by
  simp only [evalCall, h, bind, Except.bind, GetFuncValue]

theorem EvalIdentifier_bound (eval : evalFn) (st : evalState) (id : String)
    (env : environmentADT) (body : expADT) (closure : environmentADT)
    (h : GetIdentifierValue st env id = .ok (body, closure)) :
    EvalIdentifier eval st id env = eval st body closure := by
  simp only [EvalIdentifier, h, bind, Except.bind]

theorem EvalIdentifier_unbound (eval : evalFn) (st : evalState) (id : String)
    (env : environmentADT) (h : GetIdentifierValue st env id = Error "Undefined identifier") :
    EvalIdentifier eval st id env = Error "Undefined identifier" := by
  simp only [EvalIdentifier, h, bind, Except.bind, Error]

theorem GetIdentifierValue_define (st : evalState) (env : environmentADT) (x : String)
    (exp : expADT) (closure : environmentADT) :
    GetIdentifierValue (DefineIdentifier st env x exp closure) env x = .ok (exp, closure) := by
  simp [GetIdentifierValue, DefineIdentifier]

theorem GetIdentifierValue_unbound (st : evalState) (env : environmentADT) (id : String)
    (h : ∀ b ∈ st.bindings, ¬(b.1 = env ∧ b.2.1 = id)) :
    GetIdentifierValue st env id = Error "Undefined identifier" := by
  unfold GetIdentifierValue
  have : st.bindings.find? (fun b => b.1 == env && b.2.1 == id) = none := by
    rw [List.find?_eq_none]
    intro b hb
    simpa using h b hb
  rw [this]

theorem GetIdentifierValue_entered (st : evalState) (env : environmentADT) (id : String) :
    GetIdentifierValue (entered st) env id = GetIdentifierValue st env id := rfl

theorem EvalTotal_func_child (st : evalState) (x : String) (body : expADT)
    (d : environmentADT) (h : st.recursions ≤ 1000) :
    EvalTotal st (NewFuncExp x body) d =
      .ok (NewFuncValue x body (childScope st d), childState st d) :=
  EvalTotal_func st x body d h

/-- A call evaluates the body of the function value of its callee in the
closure scope of that value, with the parameter bound there to the argument
expression and the scope of the call. -/
theorem EvalTotal_call_func (st st2 : evalState) (callee arg : expADT) (c : environmentADT)
    (x : String) (body : expADT) (s : environmentADT) (hst : st.recursions ≤ 1000)
    (h : EvalTotal (entered st) callee c = .ok (NewFuncValue x body s, st2)) :
    EvalTotal st (NewCallExp callee arg) c =
      EvalTotal (DefineIdentifier st2 s x arg c) body s := by
  rw [EvalTotal_call _ _ _ _ hst, evalCall_func EvalTotal _ _ _ _ _ _ _ _ h]

/-- A reference to a bound identifier evaluates the expression bound to it in
the scope bound with it. -/
theorem EvalTotal_reference (st : evalState) (x : String) (s : environmentADT)
    (arg : expADT) (c : environmentADT) (hst : st.recursions ≤ 1000)
    (h : GetIdentifierValue st s x = .ok (arg, c)) :
    EvalTotal st (NewIdentifierExp x) s = EvalTotal (entered st) arg c := by
  rw [EvalTotal_identifier _ _ _ hst]
  exact EvalIdentifier_bound EvalTotal _ _ _ _ _ h

theorem EvalTotal_unbound (st : evalState) (y : String) (s : environmentADT)
    (hst : st.recursions ≤ 1000) (h : ∀ b ∈ st.bindings, ¬(b.1 = s ∧ b.2.1 = y)) :
    EvalTotal st (NewIdentifierExp y) s = Error "Undefined identifier" := by
  rw [EvalTotal_identifier _ _ _ hst]
  exact EvalIdentifier_unbound EvalTotal _ _ _ (GetIdentifierValue_unbound _ _ _ h)

/-- C16: closure capture.  A func literal evaluated under `d` gives a function
value whose closure is the child scope created for it; a call from a scope `c`
evaluates the body of that value in the closure scope, extended with the
binding of the parameter, and not in `c`; an identifier of the body other than
the parameter that has no binding in the closure scope fails as undefined,
whatever `c` binds; a reference to the parameter evaluates the argument
expression in `c`.  With `y` bound in scope 0 only, "(func (x) { y })(1)"
called from scope 0 fails as undefined and "(func (x) { x })(y)" returns the
value of `y`. -/
theorem closure_capture :
    (∀ st x body d, st.recursions ≤ 1000 →
      EvalTotal st (NewFuncExp x body) d =
        .ok (NewFuncValue x body (childScope st d), childState st d)) ∧
    (∀ st st2 callee arg c x body s, st.recursions ≤ 1000 →
      EvalTotal (entered st) callee c = .ok (NewFuncValue x body s, st2) →
      EvalTotal st (NewCallExp callee arg) c =
        EvalTotal (DefineIdentifier st2 s x arg c) body s) ∧
    (∀ st st2 callee arg c x y s, st.recursions ≤ 1000 →
      EvalTotal (entered st) callee c = .ok (NewFuncValue x (NewIdentifierExp y) s, st2) →
      st2.recursions ≤ 1000 → y ≠ x → (∀ b ∈ st2.bindings, ¬(b.1 = s ∧ b.2.1 = y)) →
      EvalTotal st (NewCallExp callee arg) c = Error "Undefined identifier") ∧
    (∀ st s x arg c, st.recursions ≤ 1000 →
      EvalTotal (DefineIdentifier st s x arg c) (NewIdentifierExp x) s =
        EvalTotal (entered (DefineIdentifier st s x arg c)) arg c) ∧
    ParseExp ["(", "func", "(", "x", ")", "\x7b", "y", "\x7d", ")", "(", "1", ")"] =
      .ok (NewCallExp (NewFuncExp "x" (NewIdentifierExp "y")) (NewIntegerExp 1)) ∧
    ParseExp ["(", "func", "(", "x", ")", "\x7b", "x", "\x7d", ")", "(", "y", ")"] =
      .ok (NewCallExp (NewFuncExp "x" (NewIdentifierExp "x")) (NewIdentifierExp "y")) ∧
    (∃ st, Evaluating boundState (NewIdentifierExp "y") 0 = .ok (NewIntegerValue 5, st)) ∧
    Evaluating boundState
      (NewCallExp (NewFuncExp "x" (NewIdentifierExp "y")) (NewIntegerExp 1)) 0 =
      Error "Undefined identifier" ∧
    (∃ st, Evaluating boundState
      (NewCallExp (NewFuncExp "x" (NewIdentifierExp "x")) (NewIdentifierExp "y")) 0 =
      .ok (NewIntegerValue 5, st)) := by
  refine ⟨EvalTotal_func_child, EvalTotal_call_func, ?_, ?_, rfl, rfl, ⟨_, rfl⟩, rfl, ⟨_, rfl⟩⟩
  · intro st st2 callee arg c x y s hst h hst2 hyx hb
    rw [EvalTotal_call_func st st2 callee arg c x _ s hst h]
    refine EvalTotal_unbound _ _ _ hst2 ?_
    intro b hb2
    simp only [DefineIdentifier, List.mem_cons] at hb2
    rcases hb2 with rfl | hb2
    · exact fun h2 => hyx h2.2.symm
    · exact hb b hb2
  · intro st s x arg c hst
    exact EvalTotal_reference _ _ _ _ _ hst (GetIdentifierValue_define _ _ _ _ _)

theorem closure_capture_witness :
    EvalTotal boundState
      (NewCallExp (NewFuncExp "x" (NewIdentifierExp "y")) (NewIntegerExp 1)) 0 =
      Error "Undefined identifier" ∧
    EvalTotal (DefineIdentifier startState 1 "x" (NewIntegerExp 7) 0) (NewIdentifierExp "x") 1 =
      EvalTotal (entered (DefineIdentifier startState 1 "x" (NewIntegerExp 7) 0))
        (NewIntegerExp 7) 0 :=
  ⟨closure_capture.2.2.1 boundState ⟨2, 2, [(0, "y", NewIntegerExp 5, 0)]⟩
      (NewFuncExp "x" (NewIdentifierExp "y")) (NewIntegerExp 1) 0 "x" "y" 1 (by decide)
      (EvalTotal_func _ _ _ _ (by decide)) (by decide) (by decide) (by decide),
   closure_capture.2.2.2.1 startState 1 "x" (NewIntegerExp 7) 0 (by decide)⟩


/-! ## Call by name: what is bound to a name that is not mentioned has no effect -/

theorem find?_filter_of_imp {α : Type} (p q : α → Bool) (l : List α)
    (h : ∀ a, p a = true → q a = true) : (l.filter q).find? p = l.find? p := by
  induction l with
  | nil => rfl
  | cons a l ih =>
    by_cases hq : q a = true
    · rw [List.filter_cons_of_pos hq, List.find?_cons, List.find?_cons, ih]
    · have hp : p a = false := by
        cases hpa : p a with
        | false => rfl
        | true => exact absurd (h a hpa) hq
      rw [List.filter_cons_of_neg hq, List.find?_cons, hp]
      exact ih

theorem AgreeOff_refl (x : String) (st : evalState) : AgreeOff x st st := ⟨rfl, rfl, rfl⟩

theorem AgreeOff_symm {x : String} {st st2 : evalState} (h : AgreeOff x st st2) :
    AgreeOff x st2 st := ⟨h.recursions.symm, h.scopes.symm, h.bindings.symm⟩

theorem AgreeOff_trans {x : String} {st st2 st3 : evalState} (h : AgreeOff x st st2)
    (h2 : AgreeOff x st2 st3) : AgreeOff x st st3 :=
  ⟨h.recursions.trans h2.recursions, h.scopes.trans h2.scopes, h.bindings.trans h2.bindings⟩

theorem AgreeOff_entered {x : String} {st st2 : evalState} (h : AgreeOff x st st2) :
    AgreeOff x (entered st) (entered st2) :=
  ⟨by simp only [entered, h.recursions], h.scopes, h.bindings⟩

theorem AgreeOff_closure {x : String} {st st2 : evalState} (h : AgreeOff x st st2)
    (env : environmentADT) : AgreeOff x (NewClosure st env).2 (NewClosure st2 env).2 :=
  ⟨h.recursions, by simp only [NewClosure, h.scopes], h.bindings⟩

theorem AgreeOff_define {x : String} {st st2 : evalState} (h : AgreeOff x st st2)
    (env : environmentADT) (name : String) (exp : expADT) (closure : environmentADT) :
    AgreeOff x (DefineIdentifier st env name exp closure)
      (DefineIdentifier st2 env name exp closure) := by
  refine ⟨h.recursions, h.scopes, ?_⟩
  simp only [DefineIdentifier, List.filter_cons]
  rw [h.bindings]

/-- Binding the name `x` itself leaves the state as it is for every other
name. -/
theorem AgreeOff_define_self (x : String) (st : evalState) (env : environmentADT)
    (exp : expADT) (closure : environmentADT) :
    AgreeOff x (DefineIdentifier st env x exp closure) st := by
  refine ⟨rfl, rfl, ?_⟩
  simp [DefineIdentifier, List.filter_cons]

theorem Clean_entered {x : String} {st : evalState} (h : Clean x st) : Clean x (entered st) := h

theorem Clean_closure {x : String} {st : evalState} (h : Clean x st) (env : environmentADT) :
    Clean x (NewClosure st env).2 := h

theorem Clean_define {x : String} {st : evalState} (h : Clean x st) (env : environmentADT)
    (name : String) (exp : expADT) (closure : environmentADT)
    (he : name ≠ x → mentions x exp = false) :
    Clean x (DefineIdentifier st env name exp closure) := by
  intro b hb
  simp only [DefineIdentifier, List.mem_cons] at hb
  rcases hb with rfl | hb
  · exact he
  · exact h b hb

theorem Clean_of_agree {x : String} {st st2 : evalState} (h : AgreeOff x st st2)
    (hc : Clean x st) : Clean x st2 := by
  intro b hb hne
  have hmem : b ∈ st2.bindings.filter (fun b => b.2.1 != x) := by
    rw [List.mem_filter]
    exact ⟨hb, by simpa using hne⟩
  rw [← h.bindings, List.mem_filter] at hmem
  exact hc b hmem.1 hne

theorem lookup_agree {x : String} {st st2 : evalState} (h : AgreeOff x st st2)
    (env : environmentADT) (id : String) (hid : id ≠ x) :
    GetIdentifierValue st2 env id = GetIdentifierValue st env id := by
  unfold GetIdentifierValue
  have himp : ∀ b : environmentADT × String × expADT × environmentADT,
      (b.1 == env && b.2.1 == id) = true → (b.2.1 != x) = true := by
    intro b hb
    simp only [Bool.and_eq_true, beq_iff_eq] at hb
    simpa [hb.2] using hid
  rw [← find?_filter_of_imp _ _ st.bindings himp, ← find?_filter_of_imp _ _ st2.bindings himp,
    h.bindings]

theorem lookup_clean {x : String} {st : evalState} (hc : Clean x st) (env : environmentADT)
    (id : String) (hid : id ≠ x) (body : expADT) (closure : environmentADT)
    (h : GetIdentifierValue st env id = .ok (body, closure)) : mentions x body = false := by
  unfold GetIdentifierValue at h
  cases hf : st.bindings.find? (fun b => b.1 == env && b.2.1 == id) with
  | none => rw [hf] at h; cases h
  | some b =>
    rw [hf] at h
    have hmem := List.mem_of_find?_eq_some hf
    have hp := List.find?_some hf
    simp only [Bool.and_eq_true, beq_iff_eq] at hp
    have := hc b hmem (by rw [hp.2]; exact hid)
    have hb : b.2.2 = (body, closure) := Except.ok.inj h
    rw [hb] at this
    exact this

theorem Agree_bind {x : String} {r r2 : Except failure (valueADT × evalState)}
    {g g2 : valueADT × evalState → Except failure (valueADT × evalState)} (hx : Agree x r r2)
    (hg : ∀ v st st2, AgreeOff x st st2 → Clean x st → ValClean x v →
      Agree x (g (v, st)) (g2 (v, st2))) : Agree x (r >>= g) (r2 >>= g2) := by
  cases r with
  | error err =>
    rw [hx.error err rfl]
    exact ⟨fun _ _ h => (by cases h), fun _ h => h⟩
  | ok a =>
    obtain ⟨st2, h2, hA, hC, hV⟩ := hx.ok a.1 a.2 rfl
    rw [h2]
    exact hg a.1 a.2 st2 hA hC hV

theorem Agree_bind_other {x : String} {β : Type} {y : Except failure β}
    {g g2 : β → Except failure (valueADT × evalState)} (hg : ∀ a, Agree x (g a) (g2 a)) :
    Agree x (y >>= g) (y >>= g2) := by
  cases y with
  | error err => exact ⟨fun _ _ h => (by cases h), fun _ h => h⟩
  | ok a => exact hg a

theorem Agree_ite {x : String} {c : Prop} [Decidable c]
    {a a2 b b2 : Except failure (valueADT × evalState)}
    (ha : c → Agree x a a2) (hb : ¬c → Agree x b b2) :
    Agree x (if c then a else b) (if c then a2 else b2) := by
  by_cases h : c
  · rw [if_pos h, if_pos h]; exact ha h
  · rw [if_neg h, if_neg h]; exact hb h

theorem Agree_Error (x : String) (msg : String) : Agree x (Error msg) (Error msg) :=
  ⟨fun _ _ h => (by cases h), fun _ h => h⟩

theorem Agree_failure (x : String) (err : failure) : Agree x (.error err) (.error err) :=
  ⟨fun _ _ h => (by cases h), fun _ h => h⟩

theorem Agree_pure {x : String} {v : valueADT} {st st2 : evalState} (hA : AgreeOff x st st2)
    (hC : Clean x st) (hV : ValClean x v) : Agree x (pure (v, st)) (pure (v, st2)) :=
  ⟨fun _ _ h => (by cases h; exact ⟨st2, rfl, hA, hC, hV⟩), fun _ h => (by cases h)⟩

theorem Agree_ok {x : String} {v : valueADT} {st st2 : evalState} (hA : AgreeOff x st st2)
    (hC : Clean x st) (hV : ValClean x v) : Agree x (.ok (v, st)) (.ok (v, st2)) :=
  ⟨fun _ _ h => (by cases h; exact ⟨st2, rfl, hA, hC, hV⟩), fun _ h => (by cases h)⟩

theorem Eval_guard (fuel : Nat) (st : evalState) (exp : expADT) (env : environmentADT)
    (h : st.recursions > 1000) : Eval fuel st exp env = stackOverflow := by
  unfold Eval
  rw [if_pos h]
  rfl

/-- Evaluation of an expression that does not mention `x`, in states whose
bound expressions under other names do not mention `x` either, does not depend
on what is bound to `x`. -/
theorem Eval_agree (x : String) (fuel : Nat) (st st2 : evalState) (exp : expADT)
    (env : environmentADT) (hm : mentions x exp = false) (hA : AgreeOff x st st2)
    (hC : Clean x st) : Agree x (Eval fuel st exp env) (Eval fuel st2 exp env) := by
  induction fuel generalizing st st2 exp env with
  | zero =>
    unfold Eval
    rw [← hA.recursions]
    split
    · exact Agree_Error _ _
    · exact Agree_failure _ _
  | succ f ih =>
    by_cases hg : st.recursions ≤ 1000
    · have hg2 : st2.recursions ≤ 1000 := hA.recursions ▸ hg
      rw [Eval_entered f st exp env hg, Eval_entered f st2 exp env hg2]
      have hA1 := AgreeOff_entered hA
      have hC1 : Clean x (entered st) := hC
      have hA2 := AgreeOff_closure hA1 env
      have hC2 : Clean x (NewClosure (entered st) env).2 := hC
      have hs : (NewClosure (entered st2) env).1 = (NewClosure (entered st) env).1 :=
        hA.scopes.symm
      cases exp with
      | NewIntegerExp n => exact Agree_ok hA1 hC1 True.intro
      | NewFuncExp formalArg body =>
        dsimp only
        rw [hs]
        exact Agree_ok hA2 hC2 hm
      | NewIdentifierExp id =>
        have hid : id ≠ x := by simpa [mentions] using hm
        dsimp only [EvalIdentifier]
        rw [lookup_agree hA1 env id hid]
        cases hl : GetIdentifierValue (entered st) env id with
        | error err => exact Agree_failure _ _
        | ok p =>
          exact ih _ _ _ _ (lookup_clean hC1 env id hid p.1 p.2 hl) hA1 hC1
      | NewCompoundExp op lhs rhs =>
        simp only [mentions, Bool.or_eq_false_iff] at hm
        obtain ⟨hm1, hm2⟩ := hm
        simp only [EvalCompound]
        repeat (first
          | exact Agree_Error _ _
          | exact Agree_failure _ _
          | exact Agree_pure (by assumption) (by assumption) True.intro
          | (apply ih <;> assumption)
          | (refine Agree_bind (ih _ _ _ _ ?_ ?_ ?_) ?_ <;> try assumption)
          | refine Agree_bind_other ?_
          | (apply Agree_ite <;> intro _)
          | intro _ _ _ _ _ _
          | intro _
          | dsimp only)
      | NewIfExp lhs relOp rhs thenPart elsePart =>
        simp only [mentions, Bool.or_eq_false_iff] at hm
        obtain ⟨⟨⟨hm1, hm2⟩, hm3⟩, hm4⟩ := hm
        dsimp only
        rw [hs]
        simp only [EvalIfExp]
        repeat (first
          | exact Agree_Error _ _
          | exact Agree_failure _ _
          | exact Agree_pure (by assumption) (by assumption) True.intro
          | (apply ih <;> assumption)
          | (refine Agree_bind (ih _ _ _ _ ?_ ?_ ?_) ?_ <;> try assumption)
          | refine Agree_bind_other ?_
          | (apply Agree_ite <;> intro _)
          | intro _ _ _ _ _ _
          | intro _
          | dsimp only)
      | NewCallExp func arg =>
        simp only [mentions, Bool.or_eq_false_iff] at hm
        obtain ⟨hm1, hm2⟩ := hm
        simp only [evalCall]
        refine Agree_bind (ih _ _ _ _ hm1 hA1 hC1) ?_
        intro v st3 st4 hA3 hC3 hV
        cases v with
        | NewIntegerValue n => exact Agree_failure _ _
        | NewFuncValue formalArg body closure =>
          exact ih _ _ _ _ hV (AgreeOff_define hA3 _ _ _ _)
            (Clean_define hC3 _ _ _ _ (fun _ => hm2))
    · have hg1 : st.recursions > 1000 := by omega
      have hg2 : st2.recursions > 1000 := hA.recursions ▸ hg1
      rw [Eval_guard _ _ _ _ hg1, Eval_guard _ _ _ _ hg2]
      exact Agree_Error _ _

theorem EvalTotal_agree (x : String) (st st2 : evalState) (exp : expADT)
    (env : environmentADT) (hm : mentions x exp = false) (hA : AgreeOff x st st2)
    (hC : Clean x st) : Agree x (EvalTotal st exp env) (EvalTotal st2 exp env) := by
  unfold EvalTotal
  rw [← hA.recursions]
  exact Eval_agree x _ st st2 exp env hm hA hC

theorem valueOf_agree {x : String} {r r2 : Except failure (valueADT × evalState)}
    (h : Agree x r r2) : valueOf r = valueOf r2 := by
  cases r with
  | error err => rw [h.error err rfl]
  | ok a =>
    obtain ⟨st2, h2, _⟩ := h.ok a.1 a.2 rfl
    rw [h2]
    rfl

/-- The value of a call of a func literal whose body does not mention the
parameter is the value of the body, whatever the argument. -/
theorem unused_parameter (st : evalState) (x : String) (body arg : expADT)
    (c : environmentADT) (hst : st.recursions < 1000) (hm : mentions x body = false)
    (hC : Clean x st) :
    valueOf (EvalTotal st (NewCallExp (NewFuncExp x body) arg) c) =
      valueOf (EvalTotal (childState (entered st) c) body (childScope (entered st) c)) := by
  have h1 : (entered st).recursions ≤ 1000 := by simp only [entered]; omega
  rw [EvalTotal_call_func st _ _ arg c x body _ (by omega)
    (EvalTotal_func_child (entered st) x body c h1)]
  refine valueOf_agree (EvalTotal_agree x _ _ body _ hm (AgreeOff_define_self x _ _ _ _) ?_)
  exact Clean_define hC _ _ _ _ (fun h => absurd rfl h)

/-- C15: argument passing is call by name.  A call whose callee evaluates to a
function value binds the parameter, in the closure scope, to the argument
expression and the scope of the call, and evaluates the body; the argument is
not evaluated at the call.  Each reference to the parameter evaluates the
bound expression anew in the scope bound with it.  For every argument, a call
of a func literal whose body does not mention the parameter (no expression
bound in the state under another name mentioning it either) has the value of
the body.  The parse of "(func (x) { 1 })(5/0)" evaluates to 1 although
"5/0" fails, and "(func (x) { x + x })(2 * 3)" evaluates the argument twice:
eleven invocations of `Eval`. -/
theorem call_by_name :
    (∀ st st2 callee arg c x body s, st.recursions ≤ 1000 →
      EvalTotal (entered st) callee c = .ok (NewFuncValue x body s, st2) →
      EvalTotal st (NewCallExp callee arg) c =
        EvalTotal (DefineIdentifier st2 s x arg c) body s ∧
      GetIdentifierValue (DefineIdentifier st2 s x arg c) s x = .ok (arg, c)) ∧
    (∀ st s x arg c, st.recursions ≤ 1000 → GetIdentifierValue st s x = .ok (arg, c) →
      EvalTotal st (NewIdentifierExp x) s = EvalTotal (entered st) arg c) ∧
    (∀ st x body arg c, st.recursions < 1000 → mentions x body = false → Clean x st →
      valueOf (EvalTotal st (NewCallExp (NewFuncExp x body) arg) c) =
        valueOf (EvalTotal (childState (entered st) c) body (childScope (entered st) c))) ∧
    ParseExp ["(", "func", "(", "x", ")", "\x7b", "1", "\x7d", ")", "(", "5", "/", "0", ")"] =
      .ok (NewCallExp (NewFuncExp "x" (NewIntegerExp 1))
        (NewCompoundExp '/' (NewIntegerExp 5) (NewIntegerExp 0))) ∧
    (∀ st env, ∃ st1, Evaluating st (NewCallExp (NewFuncExp "x" (NewIntegerExp 1))
        (NewCompoundExp '/' (NewIntegerExp 5) (NewIntegerExp 0))) env =
      .ok (NewIntegerValue 1, st1)) ∧
    (∀ st env, Evaluating st (NewCompoundExp '/' (NewIntegerExp 5) (NewIntegerExp 0)) env =
      Error "Division by zero!") ∧
    ParseExp ["(", "func", "(", "x", ")", "\x7b", "x", "+", "x", "\x7d", ")",
        "(", "2", "*", "3", ")"] =
      .ok (NewCallExp
        (NewFuncExp "x" (NewCompoundExp '+' (NewIdentifierExp "x") (NewIdentifierExp "x")))
        (NewCompoundExp '*' (NewIntegerExp 2) (NewIntegerExp 3))) ∧
    Evaluating startState (NewCallExp
        (NewFuncExp "x" (NewCompoundExp '+' (NewIdentifierExp "x") (NewIdentifierExp "x")))
        (NewCompoundExp '*' (NewIntegerExp 2) (NewIntegerExp 3))) 0 =
      .ok (NewIntegerValue 12,
        ⟨11, 2, [(1, "x", NewCompoundExp '*' (NewIntegerExp 2) (NewIntegerExp 3), 0)]⟩) := by
  refine ⟨?_, ?_, unused_parameter, rfl, fun _ _ => ⟨_, rfl⟩, fun _ _ => rfl, rfl, rfl⟩
  · intro st st2 callee arg c x body s hst h
    exact ⟨EvalTotal_call_func st st2 callee arg c x body s hst h,
      GetIdentifierValue_define _ _ _ _ _⟩
  · intro st s x arg c hst h
    exact EvalTotal_reference st x s arg c hst h

theorem call_by_name_witness :
    valueOf (EvalTotal startState (NewCallExp (NewFuncExp "x" (NewIntegerExp 1))
        (NewCompoundExp '/' (NewIntegerExp 5) (NewIntegerExp 0))) 0) =
      valueOf (EvalTotal (childState (entered startState) 0) (NewIntegerExp 1)
        (childScope (entered startState) 0)) ∧
    EvalTotal (DefineIdentifier startState 1 "x" (NewIntegerExp 7) 0) (NewIdentifierExp "x") 1 =
      EvalTotal (entered (DefineIdentifier startState 1 "x" (NewIntegerExp 7) 0))
        (NewIntegerExp 7) 0 ∧
    (EvalTotal startState (NewCallExp (NewFuncExp "x" (NewIntegerExp 1)) (NewIntegerExp 2)) 0 =
      EvalTotal (DefineIdentifier ⟨2, 2, []⟩ 1 "x" (NewIntegerExp 2) 0) (NewIntegerExp 1) 1 ∧
     GetIdentifierValue (DefineIdentifier ⟨2, 2, []⟩ 1 "x" (NewIntegerExp 2) 0) 1 "x" =
      .ok (NewIntegerExp 2, 0)) :=
  ⟨call_by_name.2.2.1 startState "x" (NewIntegerExp 1)
      (NewCompoundExp '/' (NewIntegerExp 5) (NewIntegerExp 0)) 0 (by decide) rfl
      (fun _ hb => absurd hb (List.not_mem_nil _)),
   call_by_name.2.1 (DefineIdentifier startState 1 "x" (NewIntegerExp 7) 0) 1 "x"
      (NewIntegerExp 7) 0 (by decide) (GetIdentifierValue_define _ _ _ _ _),
   call_by_name.1 startState ⟨2, 2, []⟩ (NewFuncExp "x" (NewIntegerExp 1)) (NewIntegerExp 2) 0
      "x" (NewIntegerExp 1) 1 (by decide) (EvalTotal_func _ _ _ _ (by decide))⟩


/-! ## Scopes: what an evaluation adds -/

theorem Later_refl (st : evalState) : Later st st := ⟨Nat.le_refl _, fun _ hb => Or.inl hb⟩

theorem Later_trans {st st2 st3 : evalState} (h : Later st st2) (h2 : Later st2 st3) :
    Later st st3 := by
  refine ⟨Nat.le_trans h.scopes h2.scopes, ?_⟩
  intro b hb
  rcases h2.bindings b hb with hb2 | ⟨h3, h4⟩
  · rcases h.bindings b hb2 with hb3 | ⟨h5, h6⟩
    · exact Or.inl hb3
    · exact Or.inr ⟨h5, Nat.lt_of_lt_of_le h6 h2.scopes⟩
  · exact Or.inr ⟨Nat.le_trans h.scopes h3, h4⟩

theorem Later_entered (st : evalState) : Later st (entered st) :=
  ⟨Nat.le_refl _, fun _ hb => Or.inl hb⟩

theorem Later_closure (st : evalState) (env : environmentADT) :
    Later st (NewClosure st env).2 :=
  ⟨Nat.le_succ _, fun _ hb => Or.inl hb⟩

theorem Later_define {st st2 : evalState} (h : Later st st2) (env : environmentADT)
    (name : String) (exp : expADT) (closure : environmentADT)
    (hv : st.scopes ≤ env ∧ env < st2.scopes) :
    Later st (DefineIdentifier st2 env name exp closure) := by
  refine ⟨h.scopes, ?_⟩
  intro b hb
  simp only [DefineIdentifier, List.mem_cons] at hb
  rcases hb with rfl | hb
  · exact Or.inr hv
  · exact h.bindings b hb

theorem ValLater_trans {st st2 st3 : evalState} {v : valueADT} (h : Later st st2)
    (hv : ValLater st2 st3 v) : ValLater st st3 v := by
  cases v with
  | NewIntegerValue n => exact True.intro
  | NewFuncValue x body cl => exact ⟨Nat.le_trans h.scopes hv.1, hv.2⟩

theorem Scoped_trans {st st2 : evalState} {r : Except failure (valueADT × evalState)}
    (h : Later st st2) (hr : Scoped st2 r) : Scoped st r :=
  ⟨fun v st3 h3 => ⟨Later_trans h (hr.ok v st3 h3).1, ValLater_trans h (hr.ok v st3 h3).2⟩⟩

theorem Scoped_bind {st st1 : evalState} {x : Except failure (valueADT × evalState)}
    {g : valueADT × evalState → Except failure (valueADT × evalState)} (h : Later st st1)
    (hx : Scoped st1 x)
    (hg : ∀ v st2, Later st st2 → ValLater st st2 v → Scoped st (g (v, st2))) :
    Scoped st (x >>= g) := by
  cases x with
  | error err => exact ⟨fun _ _ h2 => (by cases h2)⟩
  | ok a =>
    have := (Scoped_trans h hx).ok a.1 a.2 rfl
    exact hg a.1 a.2 this.1 this.2

theorem Scoped_bind_other {st : evalState} {β : Type} {y : Except failure β}
    {g : β → Except failure (valueADT × evalState)} (hg : ∀ a, Scoped st (g a)) :
    Scoped st (y >>= g) := by
  cases y with
  | error err => exact ⟨fun _ _ h2 => (by cases h2)⟩
  | ok a => exact hg a

theorem Scoped_ite {st : evalState} {c : Prop} [Decidable c]
    {a b : Except failure (valueADT × evalState)} (ha : c → Scoped st a)
    (hb : ¬c → Scoped st b) : Scoped st (if c then a else b) := by
  by_cases h : c
  · rw [if_pos h]; exact ha h
  · rw [if_neg h]; exact hb h

theorem Scoped_Error (st : evalState) (msg : String) : Scoped st (Error msg) :=
  ⟨fun _ _ h => (by cases h)⟩

theorem Scoped_failure (st : evalState) (err : failure) : Scoped st (.error err) :=
  ⟨fun _ _ h => (by cases h)⟩

theorem Scoped_pure {st st2 : evalState} {v : valueADT} (h : Later st st2)
    (hv : ValLater st st2 v) : Scoped st (pure (v, st2)) :=
  ⟨fun _ _ h2 => (by cases h2; exact ⟨h, hv⟩)⟩

theorem Scoped_ok {st st2 : evalState} {v : valueADT} (h : Later st st2)
    (hv : ValLater st st2 v) : Scoped st (.ok (v, st2)) :=
  ⟨fun _ _ h2 => (by cases h2; exact ⟨h, hv⟩)⟩

/-- An evaluation only adds scopes, binds only in scopes it has created, and
returns only function values it has closed. -/
theorem Eval_scoped (fuel : Nat) (st : evalState) (exp : expADT) (env : environmentADT) :
    Scoped st (Eval fuel st exp env) := by
  induction fuel generalizing st exp env with
  | zero =>
    unfold Eval
    split
    · exact Scoped_Error _ _
    · exact Scoped_failure _ _
  | succ f ih =>
    by_cases hg : st.recursions ≤ 1000
    · rw [Eval_entered f st exp env hg]
      have hL1 := Later_entered st
      have hL2 : Later st (NewClosure (entered st) env).2 :=
        ⟨Nat.le_succ _, fun _ hb => Or.inl hb⟩
      cases exp with
      | NewIntegerExp n => exact Scoped_ok hL1 True.intro
      | NewFuncExp formalArg body =>
        exact Scoped_ok hL2 ⟨Nat.le_refl _, Nat.lt_succ_self _⟩
      | NewIdentifierExp id =>
        dsimp only [EvalIdentifier]
        refine Scoped_bind_other ?_
        intro p
        exact Scoped_trans hL1 (ih _ _ _)
      | NewCompoundExp op lhs rhs =>
        simp only [EvalCompound]
        repeat (first
          | exact Scoped_Error _ _
          | exact Scoped_failure _ _
          | exact Scoped_pure (by assumption) True.intro
          | exact Scoped_trans (by assumption) (ih _ _ _)
          | refine Scoped_bind (by assumption) (ih _ _ _) ?_
          | refine Scoped_bind_other ?_
          | (apply Scoped_ite <;> intro _)
          | intro _ _ _ _
          | intro _
          | dsimp only)
      | NewIfExp lhs relOp rhs thenPart elsePart =>
        simp only [EvalIfExp]
        repeat (first
          | exact Scoped_Error _ _
          | exact Scoped_failure _ _
          | exact Scoped_pure (by assumption) True.intro
          | exact Scoped_trans (by assumption) (ih _ _ _)
          | refine Scoped_bind (by assumption) (ih _ _ _) ?_
          | refine Scoped_bind_other ?_
          | (apply Scoped_ite <;> intro _)
          | intro _ _ _ _
          | intro _
          | dsimp only)
      | NewCallExp func arg =>
        simp only [evalCall]
        refine Scoped_bind hL1 (ih _ _ _) ?_
        intro v st2 hL hV
        cases v with
        | NewIntegerValue n => exact Scoped_failure _ _
        | NewFuncValue formalArg body closure =>
          exact Scoped_trans (Later_define hL _ _ _ _ hV) (ih _ _ _)
    · rw [Eval_guard _ _ _ _ (by omega)]
      exact Scoped_Error _ _

theorem EvalTotal_scoped (st : evalState) (exp : expADT) (env : environmentADT) :
    Scoped st (EvalTotal st exp env) := Eval_scoped _ st exp env

/-- Evaluation keeps every binding in a scope that has been created. -/
theorem WellScoped_Eval (fuel : Nat) (st st2 : evalState) (exp : expADT)
    (env : environmentADT) (v : valueADT) (hw : WellScoped st)
    (h : Eval fuel st exp env = .ok (v, st2)) : WellScoped st2 := by
  have hL := ((Eval_scoped fuel st exp env).ok v st2 h).1
  intro b hb
  rcases hL.bindings b hb with hb2 | ⟨_, h3⟩
  · exact Nat.lt_of_lt_of_le (hw b hb2) hL.scopes
  · exact h3

/-! ## Conditionals are evaluated in a fresh scope -/

theorem EvalIfExp_lhs_error (eval : evalFn) (st : evalState) (op : Char)
    (lhs rhs thenPart elsePart : expADT) (env : environmentADT) (err : failure)
    (hl : eval st lhs env = .error err) :
    EvalIfExp eval st op lhs rhs thenPart elsePart env = .error err := by
  simp only [EvalIfExp, hl, bind, Except.bind]

theorem EvalIfExp_rhs_error (eval : evalFn) (st st2 : evalState) (op : Char)
    (lhs rhs thenPart elsePart : expADT) (env : environmentADT) (l : Int) (err : failure)
    (hl : eval st lhs env = .ok (NewIntegerValue l, st2))
    (hr : eval st2 rhs env = .error err) :
    EvalIfExp eval st op lhs rhs thenPart elsePart env = .error err := by
  simp only [EvalIfExp, hl, hr, bind, Except.bind, GetIntValue]

/-- The child scope that `Eval` creates in a well-scoped state has no binding. -/
theorem childScope_fresh (st : evalState) (env : environmentADT) (hw : WellScoped st)
    (b : environmentADT × String × expADT × environmentADT)
    (hb : b ∈ (childState st env).bindings) : b.1 ≠ childScope st env := by
  have h1 : b.1 < st.scopes := hw b hb
  exact Nat.ne_of_lt h1

/-- Evaluating in the child scope binds nothing in the child scope. -/
theorem childScope_stays_fresh (st st2 : evalState) (env : environmentADT) (exp : expADT)
    (v : valueADT) (hw : WellScoped st)
    (h : EvalTotal (childState st env) exp (childScope st env) = .ok (v, st2))
    (b : environmentADT × String × expADT × environmentADT) (hb : b ∈ st2.bindings) :
    b.1 ≠ childScope st env := by
  have hL := ((EvalTotal_scoped (childState st env) exp (childScope st env)).ok v st2 h).1
  rcases hL.bindings b hb with hb2 | ⟨h3, _⟩
  · exact childScope_fresh st env hw b hb2
  · have h4 : st.scopes + 1 ≤ b.1 := h3
    exact Nat.ne_of_gt (Nat.lt_of_succ_le h4)

/-- Counterexample to C17 as stated: the right operand of the parse of
"if 5 / 0 < y then 0 else 1" is an Identifier, but the Conditional fails with
the division error of its left operand, not as an undefined identifier; and a
Conditional on an Identifier entered with the counter at 1000 fails with the
error of the recursion guard. -/
theorem Conditional_fails_otherwise :
    ParseExp ["if", "5", "/", "0", "<", "y", "then", "0", "else", "1"] =
      .ok (NewIfExp (NewCompoundExp '/' (NewIntegerExp 5) (NewIntegerExp 0)) '<'
        (NewIdentifierExp "y") (NewIntegerExp 0) (NewIntegerExp 1)) ∧
    Evaluating boundState (NewIfExp (NewCompoundExp '/' (NewIntegerExp 5) (NewIntegerExp 0)) '<'
        (NewIdentifierExp "y") (NewIntegerExp 0) (NewIntegerExp 1)) 0 =
      Error "Division by zero!" ∧
    Evaluating boundState (NewIfExp (NewCompoundExp '/' (NewIntegerExp 5) (NewIntegerExp 0)) '<'
        (NewIdentifierExp "y") (NewIntegerExp 0) (NewIntegerExp 1)) 0 ≠
      Error "Undefined identifier" ∧
    EvalTotal ⟨1000, 1, []⟩ (NewIfExp (NewIdentifierExp "y") '<' (NewIntegerExp 1)
        (NewIntegerExp 0) (NewIntegerExp 1)) 0 = stackOverflow := by
  refine ⟨rfl, rfl, ?_, rfl⟩
  intro h
  have h2 : Evaluating boundState (NewIfExp (NewCompoundExp '/' (NewIntegerExp 5)
      (NewIntegerExp 0)) '<' (NewIdentifierExp "y") (NewIntegerExp 0) (NewIntegerExp 1)) 0 =
      Error "Division by zero!" := rfl
  rw [h2] at h
  exact absurd (failure.error.inj (Except.error.inj h)) (by decide)

/-- The parse of "(func (x) \x7b if x < 1 then 0 else 1 \x7d)(0)". -/
theorem parse_conditional_call :
    ParseExp ["(", "func", "(", "x", ")", "\x7b", "if", "x", "<", "1", "then", "0", "else",
        "1", "\x7d", ")", "(", "0", ")"] =
      .ok (NewCallExp (NewFuncExp "x" (NewIfExp (NewIdentifierExp "x") '<' (NewIntegerExp 1)
        (NewIntegerExp 0) (NewIntegerExp 1))) (NewIntegerExp 0)) := by
  have hbody : Yields ReadE (["if", "x", "<", "1", "then", "0", "else", "1"] ++ ["\x7d"])
      (.ok (NewIfExp (NewIdentifierExp "x") '<' (NewIntegerExp 1) (NewIntegerExp 0)
        (NewIntegerExp 1), ["\x7d"])) := ⟨20, rfl, ok_ne_outOfFuel _⟩
  have hfunc := Operand_func "x" _ _ hbody ")" (by decide)
  have harg : Argument ("func" :: "(" :: "x" :: ")" :: "\x7b" ::
      (["if", "x", "<", "1", "then", "0", "else", "1"] ++ ["\x7d"]))
      (NewFuncExp "x" (NewIfExp (NewIdentifierExp "x") '<' (NewIntegerExp 1) (NewIntegerExp 0)
        (NewIntegerExp 1))) :=
    ReadE_stop (ReadT_stop hfunc (by decide)) (by decide)
  have hzero : Argument ["0"] (NewIntegerExp 0) := ⟨20, rfl, ok_ne_outOfFuel _⟩
  exact ParseExp_of_ReadC (ReadC_call ["0"] _ [] (ReadF_paren _ _ _ harg) hzero)

/-- C17, amended: child scopes do not chain.  `Eval` evaluates the operands
and the taken branch of a Conditional in the child scope it creates, and in a
well-scoped state that scope has no binding.  So, when the recursion guard lets
the invocations through, a Conditional whose left operand is an Identifier
fails as an undefined identifier, and so does one whose right operand is an
Identifier and whose left operand evaluates to an integer, whatever the
incoming scope binds.  The parse of "(func (x) { if x < 1 then 0 else 1 })(0)"
fails as an undefined identifier instead of evaluating to 0. -/
theorem Conditional_identifier (st : evalState) (hw : WellScoped st) :
    (∀ rel lhs rhs t e env, st.recursions ≤ 1000 →
      EvalTotal st (NewIfExp lhs rel rhs t e) env =
        EvalIfExp EvalTotal (childState st env) rel lhs rhs t e (childScope st env)) ∧
    (∀ env, ∀ b ∈ (childState st env).bindings, b.1 ≠ childScope st env) ∧
    (∀ y rel rhs t e env, st.recursions < 1000 →
      EvalTotal st (NewIfExp (NewIdentifierExp y) rel rhs t e) env =
        Error "Undefined identifier") ∧
    (∀ y rel lhs t e env l st2, st.recursions ≤ 1000 →
      EvalTotal (childState st env) lhs (childScope st env) = .ok (NewIntegerValue l, st2) →
      st2.recursions ≤ 1000 →
      EvalTotal st (NewIfExp lhs rel (NewIdentifierExp y) t e) env =
        Error "Undefined identifier") ∧
    ParseExp ["(", "func", "(", "x", ")", "\x7b", "if", "x", "<", "1", "then", "0", "else",
        "1", "\x7d", ")", "(", "0", ")"] =
      .ok (NewCallExp (NewFuncExp "x" (NewIfExp (NewIdentifierExp "x") '<' (NewIntegerExp 1)
        (NewIntegerExp 0) (NewIntegerExp 1))) (NewIntegerExp 0)) ∧
    Evaluating startState (NewCallExp (NewFuncExp "x" (NewIfExp (NewIdentifierExp "x") '<'
        (NewIntegerExp 1) (NewIntegerExp 0) (NewIntegerExp 1))) (NewIntegerExp 0)) 0 =
      Error "Undefined identifier" ∧
    (∃ st1, Evaluating boundState (NewIdentifierExp "y") 0 = .ok (NewIntegerValue 5, st1)) ∧
    Evaluating boundState (NewIfExp (NewIdentifierExp "y") '<' (NewIntegerExp 1)
        (NewIntegerExp 0) (NewIntegerExp 1)) 0 = Error "Undefined identifier" := by
  refine ⟨?_, ?_, ?_, ?_, parse_conditional_call, rfl, ⟨_, rfl⟩, rfl⟩
  · intro rel lhs rhs t e env hst
    exact EvalTotal_if_child st rel lhs rhs t e env hst
  · intro env b hb
    exact childScope_fresh st env hw b hb
  · intro y rel rhs t e env hst
    rw [EvalTotal_if_child st rel _ rhs t e env (by omega)]
    refine EvalIfExp_lhs_error EvalTotal _ _ _ _ _ _ _ _ ?_
    refine EvalTotal_unbound _ _ _ ?_ ?_
    · show st.recursions + 1 ≤ 1000
      omega
    · intro b hb h2
      exact childScope_fresh st env hw b hb h2.1
  · intro y rel lhs t e env l st2 hst hl hst2
    rw [EvalTotal_if_child st rel lhs _ t e env hst]
    refine EvalIfExp_rhs_error EvalTotal _ _ _ _ _ _ _ _ l _ hl ?_
    refine EvalTotal_unbound _ _ _ hst2 ?_
    intro b hb h2
    exact childScope_stays_fresh st st2 env lhs _ hw hl b hb h2.1

theorem Conditional_identifier_witness :
    EvalTotal boundState (NewIfExp (NewIdentifierExp "y") '<' (NewIntegerExp 1)
        (NewIntegerExp 0) (NewIntegerExp 1)) 0 = Error "Undefined identifier" ∧
    EvalTotal boundState (NewIfExp (NewIntegerExp 1) '<' (NewIdentifierExp "y")
        (NewIntegerExp 0) (NewIntegerExp 1)) 0 = Error "Undefined identifier" :=
  ⟨(Conditional_identifier boundState (by unfold WellScoped boundState; decide)).2.2.1
      "y" '<' (NewIntegerExp 1) (NewIntegerExp 0) (NewIntegerExp 1) 0 (by decide),
   (Conditional_identifier boundState (by unfold WellScoped boundState; decide)).2.2.2.1
      "y" '<' (NewIntegerExp 1) (NewIntegerExp 0) (NewIntegerExp 1) 0 1
      ⟨2, 2, [(0, "y", NewIntegerExp 5, 0)]⟩ (by decide)
      (EvalTotal_integer _ _ _ (by decide)) (by decide)⟩


/-! ## Evaluation is total -/

theorem budget_entered (st : evalState) (h : st.recursions ≤ 1000) :
    budget (entered st) + 1 = budget st := by
  simp only [budget, entered]
  omega

/-- An identifier bound to itself in its own scope is evaluated until the guard
stops it. -/
theorem loop_overflows (n : Nat) (c : Int) (s : Nat) (h : (1001 - c).toNat = n) :
    EvalTotal ⟨c, s, [(0, "x", NewIdentifierExp "x", 0)]⟩ (NewIdentifierExp "x") 0 =
      stackOverflow := by
  induction n generalizing c with
  | zero => exact EvalTotal_guard _ _ _ (by show c > 1000; omega)
  | succ n ih =>
    have hc : c ≤ 1000 := by omega
    rw [EvalTotal_reference ⟨c, s, [(0, "x", NewIdentifierExp "x", 0)]⟩ "x" 0
      (NewIdentifierExp "x") 0 hc rfl]
    exact ih (c + 1) (by omega)

/-! ## The only undefined behaviour of the evaluator -/

theorem OverflowOnly_bind {β γ : Type} {x : Except failure β} {g : β → Except failure γ}
    (hx : OverflowOnly x) (hg : ∀ a, OverflowOnly (g a)) : OverflowOnly (x >>= g) := by
  cases x with
  | error err =>
    refine ⟨fun what h => hx.only what ?_⟩
    exact congrArg Except.error (Except.error.inj h)
  | ok a => exact hg a

theorem OverflowOnly_ite {β : Type} {c : Prop} [Decidable c] {a b : Except failure β}
    (ha : c → OverflowOnly a) (hb : ¬c → OverflowOnly b) :
    OverflowOnly (if c then a else b) := by
  by_cases h : c
  · rw [if_pos h]; exact ha h
  · rw [if_neg h]; exact hb h

theorem OverflowOnly_Error {β : Type} (msg : String) :
    OverflowOnly (Error msg : Except failure β) :=
  ⟨fun _ h => (by cases h)⟩

theorem OverflowOnly_outOfFuel {β : Type} :
    OverflowOnly (.error .outOfFuel : Except failure β) :=
  ⟨fun _ h => (by cases h)⟩

theorem OverflowOnly_pure {β : Type} (a : β) : OverflowOnly (pure a : Except failure β) :=
  ⟨fun _ h => (by cases h)⟩

theorem OverflowOnly_ok {β : Type} (a : β) : OverflowOnly (.ok a : Except failure β) :=
  ⟨fun _ h => (by cases h)⟩

theorem OverflowOnly_intResult (x : Int) : OverflowOnly (intResult x) := by
  unfold intResult
  split
  · exact OverflowOnly_ok _
  · exact ⟨fun what h => (failure.undefined.inj (Except.error.inj h)).symm⟩

theorem OverflowOnly_GetIntValue (v : valueADT) : OverflowOnly (GetIntValue v) := by
  cases v
  · exact OverflowOnly_ok _
  · exact OverflowOnly_Error _

theorem OverflowOnly_GetFuncValue (v : valueADT) : OverflowOnly (GetFuncValue v) := by
  cases v
  · exact OverflowOnly_Error _
  · exact OverflowOnly_ok _

theorem OverflowOnly_GetIdentifierValue (st : evalState) (env : environmentADT)
    (name : String) : OverflowOnly (GetIdentifierValue st env name) := by
  unfold GetIdentifierValue
  split
  · exact OverflowOnly_ok _
  · exact OverflowOnly_Error _

/-- The only undefined behaviour an evaluation runs into is the signed
overflow of an arithmetic operation. -/
theorem Eval_overflowOnly (fuel : Nat) (st : evalState) (exp : expADT)
    (env : environmentADT) : OverflowOnly (Eval fuel st exp env) := by
  induction fuel generalizing st exp env with
  | zero =>
    unfold Eval
    split
    · exact OverflowOnly_Error _
    · exact OverflowOnly_outOfFuel
  | succ f ih =>
    by_cases hg : st.recursions ≤ 1000
    · rw [Eval_entered f st exp env hg]
      cases exp with
      | NewIntegerExp n => exact OverflowOnly_ok _
      | NewFuncExp formalArg body => exact OverflowOnly_ok _
      | NewIdentifierExp id =>
        simp only [EvalIdentifier]
        repeat (first
          | exact OverflowOnly_Error _
          | exact OverflowOnly_pure _
          | exact OverflowOnly_intResult _
          | exact OverflowOnly_GetIntValue _
          | exact OverflowOnly_GetFuncValue _
          | exact OverflowOnly_GetIdentifierValue _ _ _
          | exact ih _ _ _
          | refine OverflowOnly_bind ?_ ?_
          | (apply OverflowOnly_ite <;> intro _)
          | intro _
          | dsimp only)
      | NewCompoundExp op lhs rhs =>
        simp only [EvalCompound]
        repeat (first
          | exact OverflowOnly_Error _
          | exact OverflowOnly_pure _
          | exact OverflowOnly_intResult _
          | exact OverflowOnly_GetIntValue _
          | exact OverflowOnly_GetFuncValue _
          | exact OverflowOnly_GetIdentifierValue _ _ _
          | exact ih _ _ _
          | refine OverflowOnly_bind ?_ ?_
          | (apply OverflowOnly_ite <;> intro _)
          | intro _
          | dsimp only)
      | NewIfExp lhs relOp rhs thenPart elsePart =>
        simp only [EvalIfExp]
        repeat (first
          | exact OverflowOnly_Error _
          | exact OverflowOnly_pure _
          | exact OverflowOnly_intResult _
          | exact OverflowOnly_GetIntValue _
          | exact OverflowOnly_GetFuncValue _
          | exact OverflowOnly_GetIdentifierValue _ _ _
          | exact ih _ _ _
          | refine OverflowOnly_bind ?_ ?_
          | (apply OverflowOnly_ite <;> intro _)
          | intro _
          | dsimp only)
      | NewCallExp func arg =>
        simp only [evalCall]
        repeat (first
          | exact OverflowOnly_Error _
          | exact OverflowOnly_pure _
          | exact OverflowOnly_intResult _
          | exact OverflowOnly_GetIntValue _
          | exact OverflowOnly_GetFuncValue _
          | exact OverflowOnly_GetIdentifierValue _ _ _
          | exact ih _ _ _
          | refine OverflowOnly_bind ?_ ?_
          | (apply OverflowOnly_ite <;> intro _)
          | intro _
          | dsimp only)
    · rw [Eval_guard _ _ _ _ (by omega)]
      exact OverflowOnly_Error _

/-- The outcomes of `Evaluating`: a value, an error of the program, or the
signed overflow of an arithmetic operation. -/
theorem Evaluating_outcomes (st : evalState) (exp : expADT) (env : environmentADT) :
    (∃ v st2, Evaluating st exp env = .ok (v, st2)) ∨
    (∃ msg, Evaluating st exp env = Error msg) ∨
    Evaluating st exp env = .error (.undefined "signed integer overflow") := by
  have h := Evaluating_hasFuel st exp env
  have h2 : OverflowOnly (Evaluating st exp env) := Eval_overflowOnly _ _ _ _
  cases hr : Evaluating st exp env with
  | ok p => exact Or.inl ⟨p.1, p.2, rfl⟩
  | error err =>
    cases err with
    | error msg => exact Or.inr (Or.inl ⟨msg, rfl⟩)
    | undefined what =>
      have := h2.only what hr
      subst this
      exact Or.inr (Or.inr rfl)
    | outOfFuel => exact absurd hr h

/-- Counterexample to C19 as stated: the operands of the parse of
"((0-2147483647)-1)/(0-1)" evaluate to the integers -2147483648 and -1, and
the quotient is outside the range of `int`: the division is a signed overflow,
undefined in C, so `Evaluating` neither returns a value nor fails with an
error of the program. -/
theorem quotient_overflow_is_no_error :
    ParseExp ["(", "(", "0", "-", "2147483647", ")", "-", "1", ")", "/",
        "(", "0", "-", "1", ")"] =
      .ok (NewCompoundExp '/'
        (NewCompoundExp '-' (NewCompoundExp '-' (NewIntegerExp 0) (NewIntegerExp 2147483647))
          (NewIntegerExp 1))
        (NewCompoundExp '-' (NewIntegerExp 0) (NewIntegerExp 1))) ∧
    (∃ st, Evaluating startState
        (NewCompoundExp '-' (NewCompoundExp '-' (NewIntegerExp 0) (NewIntegerExp 2147483647))
          (NewIntegerExp 1)) 0 = .ok (NewIntegerValue (-2147483648), st)) ∧
    (∃ st, Evaluating startState (NewCompoundExp '-' (NewIntegerExp 0) (NewIntegerExp 1)) 0 =
      .ok (NewIntegerValue (-1), st)) ∧
    Evaluating startState (NewCompoundExp '/'
        (NewCompoundExp '-' (NewCompoundExp '-' (NewIntegerExp 0) (NewIntegerExp 2147483647))
          (NewIntegerExp 1))
        (NewCompoundExp '-' (NewIntegerExp 0) (NewIntegerExp 1))) 0 =
      .error (.undefined "signed integer overflow") ∧
    (∀ v st, Evaluating startState (NewCompoundExp '/'
        (NewCompoundExp '-' (NewCompoundExp '-' (NewIntegerExp 0) (NewIntegerExp 2147483647))
          (NewIntegerExp 1))
        (NewCompoundExp '-' (NewIntegerExp 0) (NewIntegerExp 1))) 0 ≠ .ok (v, st)) ∧
    (∀ msg, Evaluating startState (NewCompoundExp '/'
        (NewCompoundExp '-' (NewCompoundExp '-' (NewIntegerExp 0) (NewIntegerExp 2147483647))
          (NewIntegerExp 1))
        (NewCompoundExp '-' (NewIntegerExp 0) (NewIntegerExp 1))) 0 ≠ Error msg) := by
  have h : Evaluating startState (NewCompoundExp '/'
      (NewCompoundExp '-' (NewCompoundExp '-' (NewIntegerExp 0) (NewIntegerExp 2147483647))
        (NewIntegerExp 1))
      (NewCompoundExp '-' (NewIntegerExp 0) (NewIntegerExp 1))) 0 =
      .error (.undefined "signed integer overflow") := rfl
  refine ⟨rfl, ⟨_, rfl⟩, ⟨_, rfl⟩, h, ?_, ?_⟩
  · intro v st h2
    rw [h] at h2
    cases h2
  · intro msg h2
    rw [h] at h2
    cases h2

/-- C19, amended: `Evaluating` is total up to signed overflow.  For every
state, expression and scope it returns a value, fails with an error of the
program, or runs into an arithmetic operation whose result is outside the
range of `int`, the only undefined behaviour of the evaluator; the fuel of the
embedding never runs out.  Every invocation of `Eval` that returns has
incremented the counter, and an invocation entered with the counter above 1000
fails at once.  The result of `Eval` is the same for every fuel of at least
1001 minus the counter, and the evaluator `EvalTotal` with exactly that fuel
satisfies the equations of the source, the nested invocations being entered
with a larger counter: it is defined by recursion on 1001 minus the counter.
An identifier bound to a thunk of itself in its own scope fails with the error
of the guard. -/
theorem Evaluating_total :
    (∀ st exp env, Evaluating st exp env ≠ .error .outOfFuel) ∧
    (∀ st exp env, (∃ v st2, Evaluating st exp env = .ok (v, st2)) ∨
      (∃ msg, Evaluating st exp env = Error msg) ∨
      Evaluating st exp env = .error (.undefined "signed integer overflow")) ∧
    (∀ fuel st exp env, CounterGe (st.recursions + 1) (Eval fuel st exp env)) ∧
    (∀ fuel st exp env, st.recursions > 1000 → Eval fuel st exp env = stackOverflow) ∧
    (∀ fuel st exp env, budget st ≤ fuel → Eval fuel st exp env = EvalTotal st exp env) ∧
    (∀ st, st.recursions ≤ 1000 → budget (entered st) + 1 = budget st) ∧
    (∀ st exp env, st.recursions > 1000 → EvalTotal st exp env = stackOverflow) ∧
    (∀ st n env, st.recursions ≤ 1000 →
      EvalTotal st (NewIntegerExp n) env = .ok (NewIntegerValue n, entered st)) ∧
    (∀ st id env, st.recursions ≤ 1000 →
      EvalTotal st (NewIdentifierExp id) env = EvalIdentifier EvalTotal (entered st) id env) ∧
    (∀ st op lhs rhs env, st.recursions ≤ 1000 →
      EvalTotal st (NewCompoundExp op lhs rhs) env =
        EvalCompound EvalTotal (entered st) op lhs rhs env) ∧
    (∀ st x body env, st.recursions ≤ 1000 →
      EvalTotal st (NewFuncExp x body) env =
        evalFunc (NewClosure (entered st) env).2 x body (NewClosure (entered st) env).1) ∧
    (∀ st rel lhs rhs thenPart elsePart env, st.recursions ≤ 1000 →
      EvalTotal st (NewIfExp lhs rel rhs thenPart elsePart) env =
        EvalIfExp EvalTotal (NewClosure (entered st) env).2 rel lhs rhs thenPart elsePart
          (NewClosure (entered st) env).1) ∧
    (∀ st func arg env, st.recursions ≤ 1000 →
      EvalTotal st (NewCallExp func arg) env = evalCall EvalTotal (entered st) func arg env) ∧
    Evaluating loopState (NewIdentifierExp "x") 0 = stackOverflow := by
  refine ⟨Evaluating_hasFuel, Evaluating_outcomes, Eval_counter, Eval_guard, ?_, budget_entered,
    EvalTotal_guard, EvalTotal_integer, EvalTotal_identifier, EvalTotal_compound, ?_,
    ?_, EvalTotal_call, loop_overflows 1001 0 1 rfl⟩
  · intro fuel st exp env h
    exact Eval_eq_total fuel st exp env (by unfold budget at h; omega)
  · intro st x body env h
    exact EvalTotal_func st x body env h
  · intro st rel lhs rhs thenPart elsePart env h
    exact EvalTotal_if st rel lhs rhs thenPart elsePart env h

theorem Evaluating_total_witness :
    Eval 2000 ⟨1001, 1, []⟩ (NewIntegerExp 1) 0 = stackOverflow ∧
    Eval 5 ⟨1000, 1, []⟩ (NewIntegerExp 1) 0 = EvalTotal ⟨1000, 1, []⟩ (NewIntegerExp 1) 0 ∧
    EvalTotal startState (NewCallExp (NewIdentifierExp "f") (NewIntegerExp 1)) 0 =
      evalCall EvalTotal (entered startState) (NewIdentifierExp "f") (NewIntegerExp 1) 0 :=
  ⟨Evaluating_total.2.2.2.1 2000 ⟨1001, 1, []⟩ (NewIntegerExp 1) 0 (by decide),
   Evaluating_total.2.2.2.2.1 5 ⟨1000, 1, []⟩ (NewIntegerExp 1) 0 (by decide),
   Evaluating_total.2.2.2.2.2.2.2.2.2.2.2.2.1 startState (NewIdentifierExp "f")
     (NewIntegerExp 1) 0 (by decide)⟩


/-! ## The recursion guard and the depth of nesting -/

theorem EvalCompound_lhs_error (eval : evalFn) (st : evalState) (op : Char)
    (lhs rhs : expADT) (env : environmentADT) (err : failure)
    (hl : eval st lhs env = .error err) :
    EvalCompound eval st op lhs rhs env = .error err := by
  simp only [EvalCompound, hl, bind, Except.bind]

theorem EvalCompound_rhs_error (eval : evalFn) (st st2 : evalState) (op : Char)
    (lhs rhs : expADT) (env : environmentADT) (v : valueADT) (err : failure)
    (hl : eval st lhs env = .ok (v, st2)) (hr : eval st2 rhs env = .error err) :
    EvalCompound eval st op lhs rhs env = .error err := by
  simp only [EvalCompound, hl, hr, bind, Except.bind]

theorem evalCall_func_error (eval : evalFn) (st : evalState) (func arg : expADT)
    (env : environmentADT) (err : failure) (h : eval st func env = .error err) :
    evalCall eval st func arg env = .error err := by
  simp only [evalCall, h, bind, Except.bind]

/-- Every invocation is entered with a counter above that of the invocation
that makes it. -/
theorem Child_counter {c c2 : invocation} (h : Child c c2) :
    c.st.recursions + 1 ≤ c2.st.recursions := by
  cases h with
  | identifier st id env body closure hst h => exact Int.le_refl _
  | compoundLhs st op lhs rhs env hst => exact Int.le_refl _
  | compoundRhs st op lhs rhs env v st2 hst hl =>
    have := (EvalTotal_counter (entered st) lhs env).ge v st2 hl
    simp only [entered] at this
    show st.recursions + 1 ≤ st2.recursions
    omega
  | ifLhs st rel lhs rhs thenPart elsePart env hst => exact Int.le_refl _
  | ifRhs st rel lhs rhs thenPart elsePart env l st2 hst hl =>
    have := (EvalTotal_counter (childState st env) lhs (childScope st env)).ge _ st2 hl
    simp only [childState, NewClosure, entered] at this
    show st.recursions + 1 ≤ st2.recursions
    omega
  | ifThen st rel lhs rhs thenPart elsePart env l r st2 st3 hst hl hr h =>
    have := (EvalTotal_counter (childState st env) lhs (childScope st env)).ge _ st2 hl
    have h3 := (EvalTotal_counter st2 rhs (childScope st env)).ge _ st3 hr
    simp only [childState, NewClosure, entered] at this
    show st.recursions + 1 ≤ st3.recursions
    omega
  | ifElse st rel lhs rhs thenPart elsePart env l r st2 st3 hst hl hr hrel h =>
    have := (EvalTotal_counter (childState st env) lhs (childScope st env)).ge _ st2 hl
    have h3 := (EvalTotal_counter st2 rhs (childScope st env)).ge _ st3 hr
    simp only [childState, NewClosure, entered] at this
    show st.recursions + 1 ≤ st3.recursions
    omega
  | callFunc st func arg env hst => exact Int.le_refl _
  | callBody st func arg env x body s st2 hst hf =>
    have := (EvalTotal_counter (entered st) func env).ge _ st2 hf
    simp only [entered] at this
    show st.recursions + 1 ≤ st2.recursions
    omega

theorem Nested_counter {c c2 : invocation} {d : Nat} (h : Nested c d c2) :
    c.st.recursions + d ≤ c2.st.recursions := by
  induction h with
  | top => simp
  | step c1 c2 d h h2 ih =>
    have := Child_counter h2
    push_cast
    omega

/-- A failure of a nested invocation is the failure of the invocation that
makes it. -/
theorem Child_error {c c2 : invocation} (h : Child c c2) (err : failure)
    (he : EvalTotal c2.st c2.exp c2.env = .error err) :
    EvalTotal c.st c.exp c.env = .error err := by
  cases h with
  | identifier st id env body closure hst h =>
    show EvalTotal st (NewIdentifierExp id) env = _
    rw [EvalTotal_identifier _ _ _ hst, EvalIdentifier_bound EvalTotal _ _ _ _ _ h]
    exact he
  | compoundLhs st op lhs rhs env hst =>
    show EvalTotal st (NewCompoundExp op lhs rhs) env = _
    rw [EvalTotal_compound _ _ _ _ _ hst]
    exact EvalCompound_lhs_error EvalTotal _ _ _ _ _ _ he
  | compoundRhs st op lhs rhs env v st2 hst hl =>
    show EvalTotal st (NewCompoundExp op lhs rhs) env = _
    rw [EvalTotal_compound _ _ _ _ _ hst]
    exact EvalCompound_rhs_error EvalTotal _ _ _ _ _ _ _ _ hl he
  | ifLhs st rel lhs rhs thenPart elsePart env hst =>
    show EvalTotal st (NewIfExp lhs rel rhs thenPart elsePart) env = _
    rw [EvalTotal_if_child _ _ _ _ _ _ _ hst]
    exact EvalIfExp_lhs_error EvalTotal _ _ _ _ _ _ _ _ he
  | ifRhs st rel lhs rhs thenPart elsePart env l st2 hst hl =>
    show EvalTotal st (NewIfExp lhs rel rhs thenPart elsePart) env = _
    rw [EvalTotal_if_child _ _ _ _ _ _ _ hst]
    exact EvalIfExp_rhs_error EvalTotal _ _ _ _ _ _ _ _ _ _ hl he
  | ifThen st rel lhs rhs thenPart elsePart env l r st2 st3 hst hl hr h =>
    show EvalTotal st (NewIfExp lhs rel rhs thenPart elsePart) env = _
    rw [EvalTotal_if_child _ _ _ _ _ _ _ hst,
      EvalIfExp_then EvalTotal _ _ _ _ _ _ _ _ _ l r hl hr h]
    exact he
  | ifElse st rel lhs rhs thenPart elsePart env l r st2 st3 hst hl hr hrel h =>
    show EvalTotal st (NewIfExp lhs rel rhs thenPart elsePart) env = _
    rw [EvalTotal_if_child _ _ _ _ _ _ _ hst,
      EvalIfExp_else EvalTotal _ _ _ _ _ _ _ _ _ l r hl hr hrel h]
    exact he
  | callFunc st func arg env hst =>
    show EvalTotal st (NewCallExp func arg) env = _
    rw [EvalTotal_call _ _ _ _ hst]
    exact evalCall_func_error EvalTotal _ _ _ _ _ he
  | callBody st func arg env x body s st2 hst hf =>
    show EvalTotal st (NewCallExp func arg) env = _
    rw [EvalTotal_call_func st st2 func arg env x body s hst hf]
    exact he

theorem Nested_error {c c2 : invocation} {d : Nat} (h : Nested c d c2) (err : failure)
    (he : EvalTotal c2.st c2.exp c2.env = .error err) :
    EvalTotal c.st c.exp c.env = .error err := by
  induction h with
  | top => exact he
  | step c1 c2 d h h2 ih => exact ih (Child_error h2 err he)

/-- An invocation nested so deep that its counter exceeds 1000 fails with the
error of the guard, and so does every invocation above it. -/
theorem Nested_deep {c c2 : invocation} {d : Nat} (h : Nested c d c2)
    (hd : 1001 ≤ c.st.recursions + d) :
    EvalTotal c2.st c2.exp c2.env = stackOverflow ∧
    EvalTotal c.st c.exp c.env = stackOverflow := by
  have h2 := Nested_counter h
  have h3 := EvalTotal_guard c2.st c2.exp c2.env (by omega)
  exact ⟨h3, Nested_error h _ h3⟩

theorem lookup_chain_last (k i : Nat) (c : Int) (s : Nat) :
    GetIdentifierValue ⟨c, s, chainFrom i k⟩ (i + k) "x" = .ok (NewIntegerExp 7, 0) := by
  induction k generalizing i with
  | zero => simp [GetIdentifierValue, chainFrom]
  | succ k ih =>
    have h := ih (i + 1)
    have hne : (i == i + (k + 1)) = false := by simp
    unfold GetIdentifierValue at h ⊢
    simp only [chainFrom, List.find?_cons, hne, Bool.false_and]
    rw [show i + (k + 1) = i + 1 + k by omega]
    exact h

theorem lookup_chain_inner (k i j : Nat) (c : Int) (s : Nat) (hij : i ≤ j) (hj : j < i + k) :
    GetIdentifierValue ⟨c, s, chainFrom i k⟩ j "x" = .ok (NewIdentifierExp "x", j + 1) := by
  induction k generalizing i with
  | zero => omega
  | succ k ih =>
    by_cases h : i = j
    · subst h
      simp [GetIdentifierValue, chainFrom]
    · have h2 := ih (i + 1) (by omega) (by omega)
      have hne : (i == j) = false := by simpa using h
      unfold GetIdentifierValue at h2 ⊢
      simp only [chainFrom, List.find?_cons, hne, Bool.false_and]
      exact h2

/-- Evaluating `x` in scope `j` of the chain walks the remaining thunks, one
invocation below the other, down to the integer. -/
theorem chain_eval (m j : Nat) (c : Int) (hj : j + m = 999) (hc : c + m + 1 ≤ 1000) :
    EvalTotal ⟨c, 1000, chainFrom 0 999⟩ (NewIdentifierExp "x") j =
      .ok (NewIntegerValue 7, ⟨c + m + 2, 1000, chainFrom 0 999⟩) := by
  induction m generalizing j c with
  | zero =>
    have hl : GetIdentifierValue ⟨c, 1000, chainFrom 0 999⟩ j "x" = .ok (NewIntegerExp 7, 0) := by
      have := lookup_chain_last 999 0 c 1000
      rw [show j = 0 + 999 by omega]
      exact this
    rw [EvalTotal_reference _ "x" j _ _ (by show c ≤ 1000; omega) hl,
      EvalTotal_integer _ _ _ (by show c + 1 ≤ 1000; omega)]
    simp only [entered]
    congr 3
    push_cast
    omega
  | succ m ih =>
    have hl : GetIdentifierValue ⟨c, 1000, chainFrom 0 999⟩ j "x" =
        .ok (NewIdentifierExp "x", j + 1) :=
      lookup_chain_inner 999 0 j c 1000 (Nat.zero_le _) (by omega)
    rw [EvalTotal_reference _ "x" j _ _ (by show c ≤ 1000; omega) hl]
    have := ih (j + 1) (c + 1) (by omega) (by push_cast at hc ⊢; omega)
    simp only [entered]
    rw [this]
    congr 3
    push_cast
    omega

theorem chain_nested (d : Nat) (hd : d ≤ 999) :
    Nested ⟨chainState, NewIdentifierExp "x", 0⟩ d
      ⟨⟨d, 1000, chainFrom 0 999⟩, NewIdentifierExp "x", d⟩ := by
  induction d with
  | zero => exact Nested.top
  | succ d ih =>
    have h := Child.identifier ⟨d, 1000, chainFrom 0 999⟩ "x" d (NewIdentifierExp "x") (d + 1)
      (by show (d : Int) ≤ 1000; omega)
      (lookup_chain_inner 999 0 d _ 1000 (Nat.zero_le _) (by omega))
    have h2 := Nested.step _ _ d (ih (by omega)) h
    simp only [entered] at h2
    push_cast
    exact h2

theorem loop_nested (d : Nat) (hd : d ≤ 1001) :
    Nested ⟨⟨0, 1, [(0, "x", NewIdentifierExp "x", 0)]⟩, NewIdentifierExp "x", 0⟩ d
      ⟨⟨d, 1, [(0, "x", NewIdentifierExp "x", 0)]⟩, NewIdentifierExp "x", 0⟩ := by
  induction d with
  | zero => exact Nested.top
  | succ d ih =>
    have h := Child.identifier ⟨d, 1, [(0, "x", NewIdentifierExp "x", 0)]⟩ "x" 0
      (NewIdentifierExp "x") 0 (by show (d : Int) ≤ 1000; omega) rfl
    have h2 := Nested.step _ _ d (ih (by omega)) h
    simp only [entered] at h2
    push_cast
    exact h2

/-- Counterexample to C14 as stated: in a state with a chain of 1000 thunks,
evaluating the first one makes a chain of 1001 nested invocations of `Eval`,
the last one entered 1000 levels below the first with the counter at 1000, and
the evaluation returns the integer 7. -/
theorem chain_of_1001_returns :
    Nested ⟨chainState, NewIdentifierExp "x", 0⟩ 1000
      ⟨⟨1000, 1000, chainFrom 0 999⟩, NewIntegerExp 7, 0⟩ ∧
    Evaluating chainState (NewIdentifierExp "x") 0 =
      .ok (NewIntegerValue 7, ⟨1001, 1000, chainFrom 0 999⟩) ∧
    Evaluating chainState (NewIdentifierExp "x") 0 ≠ stackOverflow := by
  have h1 : Nested ⟨chainState, NewIdentifierExp "x", 0⟩ 1000
      ⟨⟨1000, 1000, chainFrom 0 999⟩, NewIntegerExp 7, 0⟩ := by
    have h := Child.identifier ⟨999, 1000, chainFrom 0 999⟩ "x" 999 (NewIntegerExp 7) 0
      (by decide) (lookup_chain_last 999 0 _ 1000)
    exact Nested.step _ _ 999 (chain_nested 999 (Nat.le_refl _)) h
  have h2 : Evaluating chainState (NewIdentifierExp "x") 0 =
      .ok (NewIntegerValue 7, ⟨1001, 1000, chainFrom 0 999⟩) :=
    chain_eval 999 0 0 rfl (by decide)
  refine ⟨h1, h2, ?_⟩
  rw [h2]
  intro h
  cases h

/-- C14, amended: the recursion guard.  `Evaluating` resets the counter to 0,
whatever it was; every invocation of `Eval` is entered with a counter above
that of the invocation that makes it, so an invocation `d` levels below another
has a counter at least `d` higher; an invocation entered with the counter above
1000 fails with the error of the guard; every evaluation in which some invocation is
entered 1001 or more levels below the first one, that is, whose chain of
nested invocations is more than 1001 levels deep, fails with the error of the
guard instead of returning a value. -/
theorem recursion_guard :
    (∀ st exp env, Evaluating st exp env = EvalTotal { st with recursions := 0 } exp env) ∧
    (∀ st c exp env, Evaluating { st with recursions := c } exp env = Evaluating st exp env) ∧
    (∀ fuel st exp env, st.recursions > 1000 → Eval fuel st exp env = stackOverflow) ∧
    (∀ c c2, Child c c2 → c.st.recursions + 1 ≤ c2.st.recursions) ∧
    (∀ c d c2, Nested c d c2 → c.st.recursions + d ≤ c2.st.recursions) ∧
    (∀ st exp env d c2, Nested ⟨{ st with recursions := 0 }, exp, env⟩ d c2 → 1001 ≤ d →
      EvalTotal c2.st c2.exp c2.env = stackOverflow ∧
      Evaluating st exp env = stackOverflow) := by
  refine ⟨fun _ _ _ => rfl, fun _ _ _ _ => rfl, Eval_guard, fun _ _ h => Child_counter h,
    fun _ _ _ h => Nested_counter h, ?_⟩
  intro st exp env d c2 h hd
  exact Nested_deep h (by show (0 : Int) + d ≥ 1001; omega)

theorem recursion_guard_witness :
    EvalTotal ⟨1001, 1, [(0, "x", NewIdentifierExp "x", 0)]⟩ (NewIdentifierExp "x") 0 =
      stackOverflow ∧
    Evaluating loopState (NewIdentifierExp "x") 0 = stackOverflow :=
  recursion_guard.2.2.2.2.2 loopState (NewIdentifierExp "x") 0 1001
    ⟨⟨1001, 1, [(0, "x", NewIdentifierExp "x", 0)]⟩, NewIdentifierExp "x", 0⟩
    (loop_nested 1001 (Nat.le_refl _)) (Nat.le_refl _)


/-! ## The recursion guard counts invocations -/

theorem CounterLe_bind {x : Except failure (valueADT × evalState)}
    {g : valueADT × evalState → Except failure (valueADT × evalState)}
    (hx : CounterLe x) (hg : ∀ v st, st.recursions ≤ 1001 → CounterLe (g (v, st))) :
    CounterLe (x >>= g) := by
  constructor
  intro v st h
  cases x with
  | error err => cases h
  | ok a => exact (hg a.1 a.2 (hx.le a.1 a.2 rfl)).le v st h

theorem CounterLe_bind_other {β : Type} {x : Except failure β}
    {g : β → Except failure (valueADT × evalState)} (hg : ∀ a, CounterLe (g a)) :
    CounterLe (x >>= g) := by
  constructor
  intro v st h
  cases x with
  | error err => cases h
  | ok a => exact (hg a).le v st h

theorem CounterLe_ite {c : Prop} [Decidable c] {a b : Except failure (valueADT × evalState)}
    (ha : c → CounterLe a) (hb : ¬c → CounterLe b) : CounterLe (if c then a else b) := by
  by_cases h : c
  · rw [if_pos h]; exact ha h
  · rw [if_neg h]; exact hb h

theorem CounterLe_Error (msg : String) : CounterLe (Error msg) :=
  ⟨fun _ _ h => (by cases h)⟩

theorem CounterLe_failure (err : failure) : CounterLe (.error err) :=
  ⟨fun _ _ h => (by cases h)⟩

theorem CounterLe_pure (v : valueADT) (st : evalState) (h : st.recursions ≤ 1001) :
    CounterLe (pure (v, st)) :=
  ⟨fun _ _ h2 => (by cases h2; exact h)⟩

theorem CounterLe_ok (v : valueADT) (st : evalState) (h : st.recursions ≤ 1001) :
    CounterLe (.ok (v, st)) :=
  ⟨fun _ _ h2 => (by cases h2; exact h)⟩

/-- No invocation of `Eval` returns with the counter above 1001. -/
theorem Eval_counter_le (fuel : Nat) (st : evalState) (exp : expADT) (env : environmentADT) :
    CounterLe (Eval fuel st exp env) := by
  induction fuel generalizing st exp env with
  | zero =>
    unfold Eval
    split
    · exact CounterLe_Error _
    · exact CounterLe_failure _
  | succ f ih =>
    by_cases hg : st.recursions ≤ 1000
    · rw [Eval_entered f st exp env hg]
      have h1 : (entered st).recursions ≤ 1001 := by simp only [entered]; omega
      cases exp with
      | NewIntegerExp n => exact CounterLe_ok _ _ h1
      | NewFuncExp formalArg body => exact CounterLe_ok _ _ h1
      | NewIdentifierExp id =>
        dsimp only [EvalIdentifier]
        refine CounterLe_bind_other ?_
        intro p
        exact ih _ _ _
      | NewCompoundExp op lhs rhs =>
        simp only [EvalCompound]
        repeat (first
          | exact CounterLe_Error _
          | exact CounterLe_failure _
          | exact CounterLe_pure _ _ (by assumption)
          | exact ih _ _ _
          | refine CounterLe_bind (ih _ _ _) ?_
          | refine CounterLe_bind_other ?_
          | (apply CounterLe_ite <;> intro _)
          | intro _ _ _
          | intro _
          | dsimp only)
      | NewIfExp lhs relOp rhs thenPart elsePart =>
        simp only [EvalIfExp]
        repeat (first
          | exact CounterLe_Error _
          | exact CounterLe_failure _
          | exact CounterLe_pure _ _ (by assumption)
          | exact ih _ _ _
          | refine CounterLe_bind (ih _ _ _) ?_
          | refine CounterLe_bind_other ?_
          | (apply CounterLe_ite <;> intro _)
          | intro _ _ _
          | intro _
          | dsimp only)
      | NewCallExp func arg =>
        simp only [evalCall]
        repeat (first
          | exact CounterLe_Error _
          | exact CounterLe_failure _
          | exact CounterLe_pure _ _ (by assumption)
          | exact ih _ _ _
          | refine CounterLe_bind (ih _ _ _) ?_
          | refine CounterLe_bind_other ?_
          | (apply CounterLe_ite <;> intro _)
          | intro _ _ _
          | intro _
          | dsimp only)
    · rw [Eval_guard _ _ _ _ (by omega)]
      exact CounterLe_Error _

theorem EvalTotal_counter_le (st : evalState) (exp : expADT) (env : environmentADT) :
    CounterLe (EvalTotal st exp env) := Eval_counter_le _ st exp env

theorem entered_bump (k : Int) (st : evalState) : entered (bump k st) = bump k (entered st) := by
  simp only [entered, bump]
  congr 1
  omega

theorem Shifted_bind {k m : Int} {x x2 : Except failure (valueADT × evalState)}
    {g g2 : valueADT × evalState → Except failure (valueADT × evalState)}
    (hx : Shifted k m x x2) (hle : CounterLe x)
    (hg : ∀ v st, Shifted k st.recursions (g (v, st)) (g2 (v, bump k st))) :
    Shifted k m (x >>= g) (x2 >>= g2) := by
  cases x with
  | error err =>
    refine ⟨fun _ _ h => (by cases h), ?_⟩
    intro err2 h hk hne
    have h2 : err2 = err := (Except.error.inj h).symm
    subst h2
    rw [hx.error err2 rfl hk hne]
    rfl
  | ok a =>
    obtain ⟨hm, h2⟩ := hx.ok a.1 a.2 rfl
    have hg2 := hg a.1 a.2
    refine ⟨?_, ?_⟩
    · intro v st h
      obtain ⟨h3, h4⟩ := hg2.ok v st h
      refine ⟨Int.le_trans hm h3, ?_⟩
      intro h5
      rw [h2 (by omega)]
      exact h4 h5
    · intro err h hk hne
      have h6 := hle.le a.1 a.2 rfl
      rw [h2 (by omega)]
      exact hg2.error err h hk hne

theorem Shifted_bind_other {k m : Int} {β : Type} {y : Except failure β}
    {g g2 : β → Except failure (valueADT × evalState)} (hg : ∀ a, Shifted k m (g a) (g2 a)) :
    Shifted k m (y >>= g) (y >>= g2) := by
  cases y with
  | error err => exact ⟨fun _ _ h => (by cases h), fun _ h _ _ => h⟩
  | ok a => exact hg a

theorem Shifted_ite {k m : Int} {c : Prop} [Decidable c]
    {a a2 b b2 : Except failure (valueADT × evalState)}
    (ha : c → Shifted k m a a2) (hb : ¬c → Shifted k m b b2) :
    Shifted k m (if c then a else b) (if c then a2 else b2) := by
  by_cases h : c
  · rw [if_pos h, if_pos h]; exact ha h
  · rw [if_neg h, if_neg h]; exact hb h

theorem Shifted_Error (k m : Int) (msg : String) : Shifted k m (Error msg) (Error msg) :=
  ⟨fun _ _ h => (by cases h), fun _ h _ _ => h⟩

theorem Shifted_failure (k m : Int) (err : failure) : Shifted k m (.error err) (.error err) :=
  ⟨fun _ _ h => (by cases h), fun _ h _ _ => h⟩

theorem Shifted_pure (k : Int) (v : valueADT) (st : evalState) :
    Shifted k st.recursions (pure (v, st)) (pure (v, bump k st)) :=
  ⟨fun _ _ h => (by cases h; exact ⟨Int.le_refl _, fun _ => rfl⟩), fun _ h => (by cases h)⟩

theorem Shifted_ok (k : Int) (v : valueADT) (st : evalState) :
    Shifted k st.recursions (.ok (v, st)) (.ok (v, bump k st)) :=
  ⟨fun _ _ h => (by cases h; exact ⟨Int.le_refl _, fun _ => rfl⟩), fun _ h => (by cases h)⟩

/-- Moving the counter at the start of an evaluation moves the counter of its
result and changes nothing else, as long as the guard lets the moved
evaluation through. -/
theorem Eval_shifted (k : Int) (fuel : Nat) (st : evalState) (exp : expADT)
    (env : environmentADT) :
    Shifted k st.recursions (Eval fuel st exp env) (Eval fuel (bump k st) exp env) := by
  induction fuel generalizing st exp env with
  | zero =>
    by_cases hg : st.recursions ≤ 1000
    · have h : Eval 0 st exp env = .error .outOfFuel := by
        unfold Eval
        rw [if_neg (by omega)]
      rw [h]
      refine ⟨fun _ _ h2 => (by cases h2), ?_⟩
      intro err h2 hk _
      have h3 : Eval 0 (bump k st) exp env = .error .outOfFuel := by
        unfold Eval
        rw [if_neg (by simp only [bump]; omega)]
      rw [h3]
      exact h2
    · rw [Eval_guard _ _ _ _ (by omega)]
      exact ⟨fun _ _ h2 => (by cases h2), fun _ _ _ hne => absurd rfl hne⟩
  | succ f ih =>
    by_cases hg : st.recursions ≤ 1000
    · by_cases hg2 : st.recursions + k ≤ 1000
      · rw [Eval_entered f st exp env hg, Eval_entered f (bump k st) exp env hg2, entered_bump]
        have hS : ∀ r r2, Shifted k (entered st).recursions r r2 →
            Shifted k st.recursions r r2 := by
          intro r r2 h
          refine ⟨fun v st2 h2 => ⟨?_, (h.ok v st2 h2).2⟩, h.error⟩
          have := (h.ok v st2 h2).1
          simp only [entered] at this
          omega
        apply hS
        cases exp with
        | NewIntegerExp n => exact Shifted_ok k _ _
        | NewFuncExp formalArg body => exact Shifted_ok k _ (NewClosure (entered st) env).2
        | NewIdentifierExp id =>
          dsimp only [EvalIdentifier]
          refine Shifted_bind_other ?_
          intro p
          exact ih _ _ _
        | NewCompoundExp op lhs rhs =>
          simp only [EvalCompound]
          repeat (first
            | exact Shifted_Error _ _ _
            | exact Shifted_failure _ _ _
            | exact Shifted_pure _ _ _
            | exact ih _ _ _
            | refine Shifted_bind (ih _ _ _) (Eval_counter_le _ _ _ _) ?_
            | refine Shifted_bind_other ?_
            | (apply Shifted_ite <;> intro _)
            | intro _ _
            | intro _
            | dsimp only)
        | NewIfExp lhs relOp rhs thenPart elsePart =>
          simp only [EvalIfExp]
          refine Shifted_bind (ih (NewClosure (entered st) env).2 _ _) (Eval_counter_le _ _ _ _) ?_
          repeat (first
            | exact Shifted_Error _ _ _
            | exact Shifted_failure _ _ _
            | exact Shifted_pure _ _ _
            | exact ih _ _ _
            | refine Shifted_bind (ih _ _ _) (Eval_counter_le _ _ _ _) ?_
            | refine Shifted_bind_other ?_
            | (apply Shifted_ite <;> intro _)
            | intro _ _
            | intro _
            | dsimp only)
        | NewCallExp func arg =>
          simp only [evalCall]
          refine Shifted_bind (ih _ _ _) (Eval_counter_le _ _ _ _) ?_
          intro v st2
          cases v with
          | NewIntegerValue n => exact Shifted_failure _ _ _
          | NewFuncValue formalArg body closure =>
            exact ih (DefineIdentifier st2 closure formalArg arg env) _ _
      · rw [Eval_guard _ (bump k st) _ _ (by simp only [bump]; omega)]
        refine ⟨?_, ?_⟩
        · intro v st2 h
          have := (Eval_counter (f + 1) st exp env).ge v st2 h
          exact ⟨by omega, fun h2 => by omega⟩
        · intro err _ hk _
          omega
    · rw [Eval_guard _ _ _ _ (by omega)]
      exact ⟨fun _ _ h2 => (by cases h2), fun _ _ _ hne => absurd rfl hne⟩

theorem EvalTotal_shifted (k : Int) (st : evalState) (exp : expADT) (env : environmentADT) :
    Shifted k st.recursions (EvalTotal st exp env) (EvalTotal (bump k st) exp env) := by
  have h := Eval_shifted k (max (budget st) (budget (bump k st))) st exp env
  rw [Eval_eq_total _ st exp env (by
      have := Nat.le_max_left (budget st) (budget (bump k st))
      unfold budget at this ⊢
      omega),
    Eval_eq_total _ (bump k st) exp env (by
      have := Nat.le_max_right (budget st) (budget (bump k st))
      unfold budget at this ⊢
      omega)] at h
  exact h

theorem bump_reset (st : evalState) (c : Int) :
    bump c { st with recursions := 0 } = { st with recursions := c } := by
  simp [bump]

theorem bump_back (st : evalState) (c : Int) :
    bump (-c) { st with recursions := c } = { st with recursions := 0 } := by
  simp [bump]

/-- An evaluation that returns after more than 1001 invocations when the
counter starts low enough is stopped by the guard when the counter starts at 0. -/
theorem too_many_invocations (st : evalState) (exp : expADT) (env : environmentADT) (c : Int)
    (v : valueADT) (st2 : evalState)
    (h : EvalTotal { st with recursions := c } exp env = .ok (v, st2))
    (hn : 1001 < st2.recursions - c) : Evaluating st exp env = stackOverflow := by
  have hle := (EvalTotal_counter_le _ _ _).le v st2 h
  rw [Evaluating_eq_total]
  have hs := EvalTotal_shifted c { st with recursions := 0 } exp env
  rw [bump_reset] at hs
  cases hr : EvalTotal { st with recursions := 0 } exp env with
  | ok a =>
    exfalso
    have hle2 := (EvalTotal_counter_le _ _ _).le a.1 a.2 hr
    have h3 := (hs.ok a.1 a.2 hr).2 (by omega)
    rw [h] at h3
    have h4 : st2 = bump c a.2 := (Prod.mk.inj (Except.ok.inj h3)).2
    rw [h4] at hn
    simp only [bump] at hn
    omega
  | error err =>
    by_cases hso : (Except.error err : Except failure (valueADT × evalState)) = stackOverflow
    · exact hso
    · exfalso
      have h3 := hs.error err hr (by omega) (by rw [hr]; exact hso)
      rw [h] at h3
      cases h3

/-- An evaluation that returns after at most 1001 invocations, wherever the
counter starts, returns the same value when the counter starts at 0. -/
theorem few_invocations (st : evalState) (exp : expADT) (env : environmentADT) (c : Int)
    (v : valueADT) (st2 : evalState)
    (h : EvalTotal { st with recursions := c } exp env = .ok (v, st2))
    (hn : st2.recursions - c ≤ 1001) :
    Evaluating st exp env = .ok (v, { st2 with recursions := st2.recursions - c }) := by
  rw [Evaluating_eq_total]
  have hs := EvalTotal_shifted (-c) { st with recursions := c } exp env
  rw [bump_back] at hs
  rw [(hs.ok v st2 h).2 (by omega)]
  simp only [bump, Int.sub_eq_add_neg]

/-- An evaluation that fails otherwise than by the guard when the counter
starts above 0 fails in the same way when the counter starts at 0. -/
theorem guard_monotone (st : evalState) (exp : expADT) (env : environmentADT) (c : Int)
    (err : failure) (hc : 0 ≤ c)
    (h : EvalTotal { st with recursions := c } exp env = .error err)
    (hne : (Except.error err : Except failure (valueADT × evalState)) ≠ stackOverflow) :
    Evaluating st exp env = .error err := by
  rw [Evaluating_eq_total]
  have hs := EvalTotal_shifted (-c) { st with recursions := c } exp env
  rw [bump_back] at hs
  exact hs.error err h (by omega) (by rw [h]; exact hne)

theorem expDepth_balancedSum (d : Nat) : expDepth (balancedSum d) = d + 1 := by
  induction d with
  | zero => rfl
  | succ d ih => simp only [balancedSum, expDepth, ih, Nat.max_self]

/-- The balanced tree of depth `d + 1` is evaluated in `2 ^ (d + 1) - 1`
invocations when the guard allows as many. -/
theorem balancedSum_eval (d : Nat) (c : Int) (s : Nat)
    (bs : List (environmentADT × String × expADT × environmentADT)) (env : environmentADT)
    (h : c + (2 ^ (d + 1) - 1 : Nat) ≤ 1001) :
    EvalTotal ⟨c, s, bs⟩ (balancedSum d) env =
      .ok (NewIntegerValue 0, ⟨c + (2 ^ (d + 1) - 1 : Nat), s, bs⟩) := by
  induction d generalizing c with
  | zero =>
    have hc : c ≤ 1000 := by simp at h; omega
    rw [show balancedSum 0 = NewIntegerExp 0 from rfl, EvalTotal_integer _ _ _ hc]
    simp [entered]
  | succ d ih =>
    have hp : 2 ^ (d + 1 + 1) = 2 * 2 ^ (d + 1) := by rw [pow_succ]; ring
    have hpos : 0 < 2 ^ (d + 1) := Nat.two_pow_pos _
    have hc : c ≤ 1000 := by omega
    have h1 := ih (c + 1) (by omega)
    have h2 := ih (c + 1 + (2 ^ (d + 1) - 1 : Nat)) (by omega)
    rw [show balancedSum (d + 1) = NewCompoundExp '+' (balancedSum d) (balancedSum d) from rfl,
      EvalTotal_compound _ _ _ _ _ hc]
    have h3 := EvalCompound_ints EvalTotal (entered ⟨c, s, bs⟩) _ _ '+' _ _ env 0 0 h1 h2
    rw [h3, if_pos rfl]
    show (Except.ok (_, _) : Except failure (valueADT × evalState)) = _
    congr 3
    omega

theorem balancedSum_overflows (st : evalState) (env : environmentADT) :
    Evaluating st (balancedSum 10) env = stackOverflow := by
  have h := balancedSum_eval 10 (-2000) st.scopes st.bindings env (by norm_num)
  exact too_many_invocations st (balancedSum 10) env (-2000) _ _ h (by norm_num)

/-- C18: the recursion guard bounds the number of invocations of `Eval` per
call of `Evaluating`, not the nesting depth.  The counter is never decremented:
every invocation that returns leaves it higher than it found it.  The balanced
tree of `+` over 1024 integer literals has nesting depth 11 and takes 2047
invocations; `Evaluating` fails on it with the error of the guard.  Every
evaluation that would return after more than 1001 invocations (counted by the
advance of the counter in a run started low enough) fails with the error of the
guard when started by `Evaluating`; every evaluation that returns after at
most 1001 invocations returns the same value when started by `Evaluating`, and
one that fails otherwise than by the guard with fewer invocations allowed fails
in the same way when started by `Evaluating`. -/
theorem guard_counts_invocations :
    (∀ fuel st exp env, CounterGe (st.recursions + 1) (Eval fuel st exp env)) ∧
    expDepth (balancedSum 10) = 11 ∧
    (∀ s bs env, EvalTotal ⟨-2000, s, bs⟩ (balancedSum 10) env =
      .ok (NewIntegerValue 0, ⟨-2000 + 2047, s, bs⟩)) ∧
    (∀ st env, Evaluating st (balancedSum 10) env = stackOverflow) ∧
    (∀ st exp env c v st2, EvalTotal { st with recursions := c } exp env = .ok (v, st2) →
      1001 < st2.recursions - c → Evaluating st exp env = stackOverflow) ∧
    (∀ st exp env c v st2, EvalTotal { st with recursions := c } exp env = .ok (v, st2) →
      st2.recursions - c ≤ 1001 →
      Evaluating st exp env = .ok (v, { st2 with recursions := st2.recursions - c })) ∧
    (∀ st exp env c err, 0 ≤ c →
      EvalTotal { st with recursions := c } exp env = .error err →
      (Except.error err : Except failure (valueADT × evalState)) ≠ stackOverflow →
      Evaluating st exp env = .error err) := by
  refine ⟨Eval_counter, expDepth_balancedSum 10, ?_, balancedSum_overflows,
    too_many_invocations, few_invocations, guard_monotone⟩
  intro s bs env
  exact balancedSum_eval 10 (-2000) s bs env (by norm_num)

theorem guard_counts_invocations_witness :
    Evaluating startState (balancedSum 10) 0 = stackOverflow ∧
    Evaluating startState (NewIntegerExp 5) 0 =
      .ok (NewIntegerValue 5, { (⟨1001, 1, []⟩ : evalState) with recursions := 1001 - 1000 }) ∧
    Evaluating startState (NewIdentifierExp "y") 0 = Error "Undefined identifier" :=
  ⟨guard_counts_invocations.2.2.2.2.1 startState (balancedSum 10) 0 (-2000)
      (NewIntegerValue 0) ⟨-2000 + 2047, 1, []⟩
      (guard_counts_invocations.2.2.1 1 [] 0) (by decide),
   guard_counts_invocations.2.2.2.2.2.1 startState (NewIntegerExp 5) 0 1000
      (NewIntegerValue 5) ⟨1001, 1, []⟩ (EvalTotal_integer _ _ _ (by decide)) (by decide),
   guard_counts_invocations.2.2.2.2.2.2 startState (NewIdentifierExp "y") 0 1000
      (.error "Undefined identifier") (by decide)
      (EvalTotal_unbound ⟨1000, 1, []⟩ "y" 0 (by decide)
        (fun _ hb => absurd hb (List.not_mem_nil _)))
      (fun h => absurd (failure.error.inj (Except.error.inj h)) (by decide))⟩


end DOPlab3
